import Mathlib

/-!
# Convolution / sigmoid / max-pooling pipeline (`serial.c`, `serialDM.c`)

A shallow embedding of the numeric pipeline of the two C programs.

* A C array of `double` addressed by two `int` subscripts is a function
  `Int → Int → α` (`Grid α`).  A function that writes into an array it receives takes
  the array's contents before the call and returns its contents after the call.
* `int` variables are `Int`; `/` on `int` is `Int.tdiv` (truncation toward zero).
  The sizes the programs handle are far below `2^31`, so wrap-around is not modelled.
* `double` arithmetic is modelled exactly, over an arbitrary ordered field `α`
  (the reals in the theorems about `sigmoid`).  The library function `exp` of
  `<math.h>` is not part of the repository and is a parameter of `sigmoid`.
* `-INFINITY`, the initial value of the running maximum in `maxPooling`, is the
  bottom element of `WithBot α`; the cells that `maxPooling` writes are `WithBot α`.
* A `for (int i = 0; i < bound; i++)` loop is `forLoop bound body`.
* The functions `zeroPad`, `convolve2D`, `applySigmoid`, `maxPooling` and `main` give the
  values that the C functions compute while every subscript stays inside its array.  The
  arrays of `serial.c` are `double[MAX_SIZE][MAX_SIZE]` with `MAX_SIZE = 300`; those of
  `serialDM.c` have the sizes that `main` allocates.  The subscripts themselves are listed by
  the trace functions (`convolve2DTrace`, `Serial.mainTrace`, ...), and `Serial.run`,
  `SerialDM.run`, `Serial.zeroPadRun`, `SerialDM.zeroPadRun` are the runs with their
  capacity: they have a result only when every access of the trace is inside its array, an
  access outside an array being undefined behaviour in C.
-/

namespace ConvPool

/-! ## Arrays and loops -/

/-- A square C array of doubles, addressed by row and column subscripts. -/
abbrev Grid (α : Type) := Int → Int → α

/-- The assignment `g[r][c] = v`. -/
def setCell {α : Type} (g : Grid α) (r c : Int) (v : α) : Grid α :=
  fun r' c' => if r' = r ∧ c' = c then v else g r' c'

/-- Run `body 0`, `body 1`, ..., `body (n-1)` in this order on a state. -/
def loopN {σ : Type} (body : Nat → σ → σ) : Nat → σ → σ
  | 0, s => s
  | n + 1, s => body n (loopN body n s)

/-- The loop `for (int i = 0; i < bound; i++) body(i)`; no iteration when `bound ≤ 0`. -/
def forLoop {σ : Type} (bound : Int) (body : Int → σ → σ) (s : σ) : σ :=
  loopN (fun i => body (i : Int)) bound.toNat s

/-! ## `zeroPad` -/

namespace Serial

/-- The function `zeroPad` of `serial.c` (lines 26-36): the padded dimension is computed
inside the function as `size + 2 * padWidth`.  Both parameters are
`double[MAX_SIZE][MAX_SIZE]`; this function gives the contents of `paddedMatrix` after a
call whose subscripts all stay below `MAX_SIZE`, that is for
`size + 2 * padWidth ≤ MAX_SIZE` (`Serial.zeroPadRun` is the call with this condition). -/
def zeroPad {α : Type} [Zero α] (matrix : Grid α) (size padWidth : Int)
    (paddedMatrix : Grid α) : Grid α :=
  let paddedSize := size + 2 * padWidth
  forLoop paddedSize (fun i pm =>
    forLoop paddedSize (fun j pm =>
      if i < padWidth ∨ j < padWidth ∨ i ≥ size + padWidth ∨ j ≥ size + padWidth then
        setCell pm i j 0
      else
        setCell pm i j (matrix (i - padWidth) (j - padWidth))) pm) paddedMatrix

end Serial

namespace SerialDM

/-- The function `zeroPad` of `serialDM.c` (lines 57-70): the padded dimension is an
argument supplied by the caller.  It gives the contents of `paddedMatrix` after a call on
arrays that the caller allocated large enough for `size` and `paddedSize` rows and columns
(`SerialDM.zeroPadRun` is the call with this condition). -/
def zeroPad {α : Type} [Zero α] (matrix : Grid α) (size padWidth : Int)
    (paddedMatrix : Grid α) (paddedSize : Int) : Grid α :=
  forLoop paddedSize (fun i pm =>
    forLoop paddedSize (fun j pm =>
      if i < padWidth ∨ j < padWidth ∨ i ≥ size + padWidth ∨ j ≥ size + padWidth then
        setCell pm i j 0
      else
        setCell pm i j (matrix (i - padWidth) (j - padWidth))) pm) paddedMatrix

end SerialDM

/-! ## `convolve2D`, `sigmoid`, `applySigmoid`, `maxPooling`

These four functions have the same body in `serial.c` and in `serialDM.c`; the two files
differ only in the C type of the array parameters. -/

/-- The function `convolve2D` (`serial.c` lines 48-69, `serialDM.c` lines 72-84). -/
def convolve2D {α : Type} [Zero α] [Add α] [Mul α] (input kernel output : Grid α)
    (inputSize kernelSize : Int) : Grid α :=
  forLoop (inputSize - kernelSize + 1) (fun y out =>
    forLoop (inputSize - kernelSize + 1) (fun x out =>
      let sum := forLoop kernelSize (fun i sum =>
        forLoop kernelSize (fun j sum => sum + input (y + i) (x + j) * kernel i j) sum) 0
      setCell out y x sum) out) output

/-- The function `sigmoid` (`serial.c` lines 71-73, `serialDM.c` lines 86-88); `exp` is the
exponential of the C library. -/
def sigmoid {α : Type} [Field α] (exp : α → α) (x : α) : α :=
  1 / (1 + exp (-x))

/-- The function `applySigmoid` (`serial.c` lines 75-81, `serialDM.c` lines 90-96). -/
def applySigmoid {α : Type} [Field α] (exp : α → α) (matrix : Grid α) (size : Int) : Grid α :=
  forLoop size (fun i m =>
    forLoop size (fun j m => setCell m i j (sigmoid exp (m i j))) m) matrix

/-- The function `maxPooling` (`serial.c` lines 83-103, `serialDM.c` lines 98-114).  The
running maximum starts at `-INFINITY`, the bottom element `⊥`. -/
def maxPooling {α : Type} [LinearOrder α] (input : Grid α) (output : Grid (WithBot α))
    (inputSize poolSize stride : Int) : Grid (WithBot α) :=
  let outputSize := (inputSize - poolSize).tdiv stride + 1
  forLoop outputSize (fun y out =>
    forLoop outputSize (fun x out =>
      let maxVal := forLoop poolSize (fun i maxVal =>
        forLoop poolSize (fun j maxVal =>
          let val := input (y * stride + i) (x * stride + j)
          if (val : WithBot α) > maxVal then (val : WithBot α) else maxVal) maxVal)
        (⊥ : WithBot α)
      setCell out y x maxVal) out) output

/-! ## `main` -/

/-- A well-formed matrix file: the leading integer and the `size * size` numbers that
follow it, `values i j` being the number in row `i`, column `j` of the file. -/
structure MatrixFile (α : Type) where
  /-- The leading integer of the file. -/
  size : Int
  /-- The numbers after the size, by row and column. -/
  values : Grid α

/-- The function `readMatrixFromFile` (`serial.c` lines 8-24, `serialDM.c` lines 39-55) on a
well-formed file: the new contents of `matrix` and the value stored through `size`. -/
def readMatrixFromFile {α : Type} (file : MatrixFile α) (matrix : Grid α) : Grid α × Int :=
  (forLoop file.size (fun i m =>
      forLoop file.size (fun j m => setCell m i j (file.values i j)) m) matrix,
   file.size)

/-- The contents, before their first use, of the arrays that `main` declares without
initialising them (`serial.c`) or obtains from `malloc` (`serialDM.c`). -/
structure Buffers (α : Type) where
  /-- Contents of `paddedInput` before `zeroPad`. -/
  paddedInput : Grid α
  /-- Contents of `conv1` before `convolve2D`. -/
  conv1 : Grid α
  /-- Contents of `conv2` before `convolve2D`. -/
  conv2 : Grid α
  /-- Contents of `conv3` before `convolve2D`. -/
  conv3 : Grid α
  /-- Contents of `pooled1` before `maxPooling`. -/
  pooled1 : Grid (WithBot α)
  /-- Contents of `pooled2` before `maxPooling`. -/
  pooled2 : Grid (WithBot α)
  /-- Contents of `pooled3` before `maxPooling`. -/
  pooled3 : Grid (WithBot α)

/-- The values of the variables of `main` when the results are written to the output
file: the loops that print `pooled1`, `pooled2`, `pooled3` run over
`outputSize × outputSize` cells. -/
structure Result (α : Type) where
  /-- The variable `paddedSize`. -/
  paddedSize : Int
  /-- The variable `outputSize`. -/
  outputSize : Int
  /-- The array `paddedInput`. -/
  paddedInput : Grid α
  /-- The array `conv1` after `applySigmoid`. -/
  conv1 : Grid α
  /-- The array `conv2` after `applySigmoid`. -/
  conv2 : Grid α
  /-- The array `conv3` after `applySigmoid`. -/
  conv3 : Grid α
  /-- The array `pooled1`. -/
  pooled1 : Grid (WithBot α)
  /-- The array `pooled2`. -/
  pooled2 : Grid (WithBot α)
  /-- The array `pooled3`. -/
  pooled3 : Grid (WithBot α)

namespace Serial

/-- The function `main` of `serial.c` (lines 108-155).  The arrays `input`, `kernel1`,
`kernel2`, `kernel3` are globals and start zeroed; `kernelSize` is overwritten by each of
the three kernel reads.  Every array is `double[MAX_SIZE][MAX_SIZE]`: this function gives
the values of the variables for a run whose subscripts all stay below `MAX_SIZE = 300`
(`Serial.run` is the run with this condition; outside it the C program overruns its
arrays and has no defined result). -/
def main {α : Type} [LinearOrderedField α] (exp : α → α)
    (inputFile kernel1File kernel2File kernel3File : MatrixFile α) (mem : Buffers α) :
    Result α :=
  let input := (readMatrixFromFile inputFile (fun _ _ => 0)).1
  let inputSize := (readMatrixFromFile inputFile (fun _ _ => (0 : α))).2
  let kernel1 := (readMatrixFromFile kernel1File (fun _ _ => 0)).1
  let kernelSize := (readMatrixFromFile kernel1File (fun _ _ => (0 : α))).2
  let kernel2 := (readMatrixFromFile kernel2File (fun _ _ => 0)).1
  let kernelSize := (readMatrixFromFile kernel2File (fun _ _ => (0 : α))).2
  let kernel3 := (readMatrixFromFile kernel3File (fun _ _ => 0)).1
  let kernelSize := (readMatrixFromFile kernel3File (fun _ _ => (0 : α))).2
  let paddedInput := zeroPad input inputSize (kernelSize.tdiv 2) mem.paddedInput
  let paddedSize := inputSize + kernelSize - 1
  let conv1 := convolve2D paddedInput kernel1 mem.conv1 paddedSize kernelSize
  let conv2 := convolve2D paddedInput kernel2 mem.conv2 paddedSize kernelSize
  let conv3 := convolve2D paddedInput kernel3 mem.conv3 paddedSize kernelSize
  let conv1 := applySigmoid exp conv1 paddedSize
  let conv2 := applySigmoid exp conv2 paddedSize
  let conv3 := applySigmoid exp conv3 paddedSize
  let pooled1 := maxPooling conv1 mem.pooled1 paddedSize 2 2
  let pooled2 := maxPooling conv2 mem.pooled2 paddedSize 2 2
  let pooled3 := maxPooling conv3 mem.pooled3 paddedSize 2 2
  let poolSize : Int := 2
  let stride : Int := 2
  let outputSize := (paddedSize - poolSize).tdiv stride + 1
  { paddedSize := paddedSize, outputSize := outputSize, paddedInput := paddedInput,
    conv1 := conv1, conv2 := conv2, conv3 := conv3,
    pooled1 := pooled1, pooled2 := pooled2, pooled3 := pooled3 }

end Serial

namespace SerialDM

/-- The contents of the `MAX_SIZE × MAX_SIZE` arrays `input`, `kernel1`, `kernel2`,
`kernel3` of `serialDM.c` as `malloc` returns them. -/
structure Heap (α : Type) where
  /-- Contents of `input` before it is read. -/
  input : Grid α
  /-- Contents of `kernel1` before it is read. -/
  kernel1 : Grid α
  /-- Contents of `kernel2` before it is read. -/
  kernel2 : Grid α
  /-- Contents of `kernel3` before it is read. -/
  kernel3 : Grid α

/-- The function `main` of `serialDM.c` (lines 125-177), without the timer thread.  The
input and kernel arrays have `MAX_SIZE = 5000` rows and columns, `paddedInput` and
`conv1..3` have `paddedSize`, `pooled1..3` have `outputSize`: this function gives the values
of the variables for a run whose subscripts all stay inside these allocations
(`SerialDM.run` is the run with this condition; outside it the C program has no defined
result). -/
def main {α : Type} [LinearOrderedField α] (exp : α → α)
    (inputFile kernel1File kernel2File kernel3File : MatrixFile α) (heap : Heap α)
    (mem : Buffers α) : Result α :=
  let input := (readMatrixFromFile inputFile heap.input).1
  let inputSize := (readMatrixFromFile inputFile heap.input).2
  let kernel1 := (readMatrixFromFile kernel1File heap.kernel1).1
  let kernelSize := (readMatrixFromFile kernel1File heap.kernel1).2
  let kernel2 := (readMatrixFromFile kernel2File heap.kernel2).1
  let kernelSize := (readMatrixFromFile kernel2File heap.kernel2).2
  let kernel3 := (readMatrixFromFile kernel3File heap.kernel3).1
  let kernelSize := (readMatrixFromFile kernel3File heap.kernel3).2
  let paddedSize := inputSize + (kernelSize.tdiv 2) * 2
  let paddedInput := zeroPad input inputSize (kernelSize.tdiv 2) mem.paddedInput paddedSize
  let conv1 := convolve2D paddedInput kernel1 mem.conv1 paddedSize kernelSize
  let conv2 := convolve2D paddedInput kernel2 mem.conv2 paddedSize kernelSize
  let conv3 := convolve2D paddedInput kernel3 mem.conv3 paddedSize kernelSize
  let conv1 := applySigmoid exp conv1 paddedSize
  let conv2 := applySigmoid exp conv2 paddedSize
  let conv3 := applySigmoid exp conv3 paddedSize
  let poolSize : Int := 2
  let stride : Int := 2
  let outputSize := (paddedSize - poolSize).tdiv stride + 1
  let pooled1 := maxPooling conv1 mem.pooled1 paddedSize poolSize stride
  let pooled2 := maxPooling conv2 mem.pooled2 paddedSize poolSize stride
  let pooled3 := maxPooling conv3 mem.pooled3 paddedSize poolSize stride
  { paddedSize := paddedSize, outputSize := outputSize, paddedInput := paddedInput,
    conv1 := conv1, conv2 := conv2, conv3 := conv3,
    pooled1 := pooled1, pooled2 := pooled2, pooled3 := pooled3 }

end SerialDM

/-- The local variable `outputSize` of `maxPooling` (`serial.c` line 85, `serialDM.c`
line 99): the number of rows and of columns that `maxPooling` writes. -/
def maxPoolingOutputSize (inputSize poolSize stride : Int) : Int :=
  (inputSize - poolSize).tdiv stride + 1

/-! ## Array accesses

Next to the values they compute, the functions are described by the array cells they
touch: for every subscripted expression of the source, in execution order, the array, the
two subscripts and whether the cell is loaded or stored.  The arrays are named by the
caller (`A` is the type of array names). -/

/-- Whether an array access loads from the cell or stores into it. -/
inductive Mode where
  | read
  | write
deriving DecidableEq

/-- One array access `array[row][col]`. -/
structure Access (A : Type) where
  /-- Load or store. -/
  mode : Mode
  /-- The array that is subscripted. -/
  array : A
  /-- The first subscript. -/
  row : Int
  /-- The second subscript. -/
  col : Int
deriving DecidableEq

/-- The accesses of `body 0`, `body 1`, ..., `body (n-1)`, in this order. -/
def traceN {β : Type} (body : Nat → List β) : Nat → List β
  | 0 => []
  | n + 1 => traceN body n ++ body n

/-- The accesses of the loop `for (int i = 0; i < bound; i++) body(i)`. -/
def forTrace {β : Type} (bound : Int) (body : Int → List β) : List β :=
  traceN (fun i => body (i : Int)) bound.toNat

/-- The array accesses of `readMatrixFromFile`: `matrix[i][j]` is stored for
`0 ≤ i, j < size`. -/
def readMatrixFromFileTrace {A : Type} (matrix : A) (size : Int) : List (Access A) :=
  forTrace size (fun i => forTrace size (fun j => [⟨Mode.write, matrix, i, j⟩]))

namespace Serial

/-- The array accesses of `zeroPad` of `serial.c` (lines 26-36). -/
def zeroPadTrace {A : Type} (matrix paddedMatrix : A) (size padWidth : Int) :
    List (Access A) :=
  let paddedSize := size + 2 * padWidth
  forTrace paddedSize (fun i =>
    forTrace paddedSize (fun j =>
      if i < padWidth ∨ j < padWidth ∨ i ≥ size + padWidth ∨ j ≥ size + padWidth then
        [⟨Mode.write, paddedMatrix, i, j⟩]
      else
        [⟨Mode.read, matrix, i - padWidth, j - padWidth⟩, ⟨Mode.write, paddedMatrix, i, j⟩]))

end Serial

namespace SerialDM

/-- The array accesses of `zeroPad` of `serialDM.c` (lines 57-70). -/
def zeroPadTrace {A : Type} (matrix paddedMatrix : A) (size padWidth paddedSize : Int) :
    List (Access A) :=
  forTrace paddedSize (fun i =>
    forTrace paddedSize (fun j =>
      if i < padWidth ∨ j < padWidth ∨ i ≥ size + padWidth ∨ j ≥ size + padWidth then
        [⟨Mode.write, paddedMatrix, i, j⟩]
      else
        [⟨Mode.read, matrix, i - padWidth, j - padWidth⟩, ⟨Mode.write, paddedMatrix, i, j⟩]))

end SerialDM

/-- The array accesses of `convolve2D`: for every output cell the `kernelSize²` loads of
`input[y + i][x + j]` and `kernel[i][j]`, then the store of `output[y][x]`. -/
def convolve2DTrace {A : Type} (input kernel output : A) (inputSize kernelSize : Int) :
    List (Access A) :=
  forTrace (inputSize - kernelSize + 1) (fun y =>
    forTrace (inputSize - kernelSize + 1) (fun x =>
      forTrace kernelSize (fun i =>
        forTrace kernelSize (fun j =>
          [⟨Mode.read, input, y + i, x + j⟩, ⟨Mode.read, kernel, i, j⟩]))
      ++ [⟨Mode.write, output, y, x⟩]))

/-- The array accesses of `applySigmoid`: `matrix[i][j]` is loaded and stored. -/
def applySigmoidTrace {A : Type} (matrix : A) (size : Int) : List (Access A) :=
  forTrace size (fun i =>
    forTrace size (fun j => [⟨Mode.read, matrix, i, j⟩, ⟨Mode.write, matrix, i, j⟩]))

/-- The array accesses of `maxPooling`: for every output cell the `poolSize²` loads of
`input[y * stride + i][x * stride + j]`, then the store of `output[y][x]`. -/
def maxPoolingTrace {A : Type} (input output : A) (inputSize poolSize stride : Int) :
    List (Access A) :=
  let outputSize := (inputSize - poolSize).tdiv stride + 1
  forTrace outputSize (fun y =>
    forTrace outputSize (fun x =>
      forTrace poolSize (fun i =>
        forTrace poolSize (fun j =>
          [⟨Mode.read, input, y * stride + i, x * stride + j⟩]))
      ++ [⟨Mode.write, output, y, x⟩]))

/-- The arrays of `main`. -/
inductive Var where
  | input
  | kernel1
  | kernel2
  | kernel3
  | paddedInput
  | conv1
  | conv2
  | conv3
  | pooled1
  | pooled2
  | pooled3
deriving DecidableEq

namespace Serial

/-- The macro `MAX_SIZE` of `serial.c`: every array of `main` is `MAX_SIZE × MAX_SIZE`. -/
def MAX_SIZE : Int := 300

/-- The array accesses of `main` of `serial.c` up to the last `maxPooling` call, for an
input file of size `inputSize` and kernel files of sizes `k1`, `k2`, `k3`. -/
def mainTrace (inputSize k1 k2 k3 : Int) : List (Access Var) :=
  let kernelSize := k3
  let paddedSize := inputSize + kernelSize - 1
  readMatrixFromFileTrace Var.input inputSize
  ++ readMatrixFromFileTrace Var.kernel1 k1
  ++ readMatrixFromFileTrace Var.kernel2 k2
  ++ readMatrixFromFileTrace Var.kernel3 k3
  ++ zeroPadTrace Var.input Var.paddedInput inputSize (kernelSize.tdiv 2)
  ++ convolve2DTrace Var.paddedInput Var.kernel1 Var.conv1 paddedSize kernelSize
  ++ convolve2DTrace Var.paddedInput Var.kernel2 Var.conv2 paddedSize kernelSize
  ++ convolve2DTrace Var.paddedInput Var.kernel3 Var.conv3 paddedSize kernelSize
  ++ applySigmoidTrace Var.conv1 paddedSize
  ++ applySigmoidTrace Var.conv2 paddedSize
  ++ applySigmoidTrace Var.conv3 paddedSize
  ++ maxPoolingTrace Var.conv1 Var.pooled1 paddedSize 2 2
  ++ maxPoolingTrace Var.conv2 Var.pooled2 paddedSize 2 2
  ++ maxPoolingTrace Var.conv3 Var.pooled3 paddedSize 2 2

end Serial

namespace SerialDM

/-- The macro `MAX_SIZE` of `serialDM.c`. -/
def MAX_SIZE : Int := 5000

/-- The number of rows and of columns that `main` of `serialDM.c` allocates for each array
(`allocate2DArray (rows, cols)` with `rows = cols`): `MAX_SIZE` for the input and the
kernels, `paddedSize` for `paddedInput` and `conv1..3`, `outputSize` for `pooled1..3`. -/
def allocated (inputSize kernelSize : Int) : Var → Int
  | Var.input => MAX_SIZE
  | Var.kernel1 => MAX_SIZE
  | Var.kernel2 => MAX_SIZE
  | Var.kernel3 => MAX_SIZE
  | Var.paddedInput => inputSize + (kernelSize.tdiv 2) * 2
  | Var.conv1 => inputSize + (kernelSize.tdiv 2) * 2
  | Var.conv2 => inputSize + (kernelSize.tdiv 2) * 2
  | Var.conv3 => inputSize + (kernelSize.tdiv 2) * 2
  | Var.pooled1 => (inputSize + (kernelSize.tdiv 2) * 2 - 2).tdiv 2 + 1
  | Var.pooled2 => (inputSize + (kernelSize.tdiv 2) * 2 - 2).tdiv 2 + 1
  | Var.pooled3 => (inputSize + (kernelSize.tdiv 2) * 2 - 2).tdiv 2 + 1

/-- The array accesses of `main` of `serialDM.c` up to the last `maxPooling` call. -/
def mainTrace (inputSize k1 k2 k3 : Int) : List (Access Var) :=
  let kernelSize := k3
  let paddedSize := inputSize + (kernelSize.tdiv 2) * 2
  let poolSize : Int := 2
  let stride : Int := 2
  readMatrixFromFileTrace Var.input inputSize
  ++ readMatrixFromFileTrace Var.kernel1 k1
  ++ readMatrixFromFileTrace Var.kernel2 k2
  ++ readMatrixFromFileTrace Var.kernel3 k3
  ++ zeroPadTrace Var.input Var.paddedInput inputSize (kernelSize.tdiv 2) paddedSize
  ++ convolve2DTrace Var.paddedInput Var.kernel1 Var.conv1 paddedSize kernelSize
  ++ convolve2DTrace Var.paddedInput Var.kernel2 Var.conv2 paddedSize kernelSize
  ++ convolve2DTrace Var.paddedInput Var.kernel3 Var.conv3 paddedSize kernelSize
  ++ applySigmoidTrace Var.conv1 paddedSize
  ++ applySigmoidTrace Var.conv2 paddedSize
  ++ applySigmoidTrace Var.conv3 paddedSize
  ++ maxPoolingTrace Var.conv1 Var.pooled1 paddedSize poolSize stride
  ++ maxPoolingTrace Var.conv2 Var.pooled2 paddedSize poolSize stride
  ++ maxPoolingTrace Var.conv3 Var.pooled3 paddedSize poolSize stride

end SerialDM

/-- The access `a` lies inside its array when the arrays have `dim v` rows and columns. -/
def InBounds (dim : Var → Int) (a : Access Var) : Prop :=
  0 ≤ a.row ∧ a.row < dim a.array ∧ 0 ≤ a.col ∧ a.col < dim a.array

/-- The outcome of a computation that performs the array accesses `trace` on arrays with
`dim v` rows and columns and yields `result` when they all lie inside their arrays.  An
access outside an array is undefined behaviour in C: the computation then has no result. -/
def checked {A β : Type} (dim : A → Int) (trace : List (Access A)) (result : β) : Option β :=
  if trace.all (fun a =>
      decide (0 ≤ a.row ∧ a.row < dim a.array ∧ 0 ≤ a.col ∧ a.col < dim a.array)) then
    some result
  else
    none

namespace Serial

/-- A call of `zeroPad` of `serial.c`: both parameters are `MAX_SIZE × MAX_SIZE` arrays. -/
def zeroPadRun {α : Type} [Zero α] (matrix : Grid α) (size padWidth : Int)
    (paddedMatrix : Grid α) : Option (Grid α) :=
  checked (fun _ => MAX_SIZE) (zeroPadTrace Var.input Var.paddedInput size padWidth)
    (zeroPad matrix size padWidth paddedMatrix)

/-- A run of `main` of `serial.c`: every array has `MAX_SIZE` rows and columns. -/
def run {α : Type} [LinearOrderedField α] (exp : α → α)
    (inputFile kernel1File kernel2File kernel3File : MatrixFile α) (mem : Buffers α) :
    Option (Result α) :=
  checked (fun _ => MAX_SIZE)
    (mainTrace inputFile.size kernel1File.size kernel2File.size kernel3File.size)
    (main exp inputFile kernel1File kernel2File kernel3File mem)

end Serial

namespace SerialDM

/-- A call of `zeroPad` of `serialDM.c` on a `matrix` array with `matrixDim` rows and
columns and a `paddedMatrix` array with `paddedDim` rows and columns. -/
def zeroPadRun {α : Type} [Zero α] (matrixDim paddedDim : Int) (matrix : Grid α)
    (size padWidth : Int) (paddedMatrix : Grid α) (paddedSize : Int) : Option (Grid α) :=
  checked (fun v => if v = Var.input then matrixDim else paddedDim)
    (zeroPadTrace Var.input Var.paddedInput size padWidth paddedSize)
    (zeroPad matrix size padWidth paddedMatrix paddedSize)

/-- A run of `main` of `serialDM.c`: the arrays have the sizes that `main` allocates. -/
def run {α : Type} [LinearOrderedField α] (exp : α → α)
    (inputFile kernel1File kernel2File kernel3File : MatrixFile α) (heap : Heap α)
    (mem : Buffers α) : Option (Result α) :=
  checked (allocated inputFile.size kernel3File.size)
    (mainTrace inputFile.size kernel1File.size kernel2File.size kernel3File.size)
    (main exp inputFile kernel1File kernel2File kernel3File heap mem)

end SerialDM

/-! ## Mathematical reference values -/

/-- The grid `G` of size `n` surrounded by zeros: `G` moved by `p` rows and columns,
and `0` in every other place. -/
def padded {α : Type} [Zero α] (G : Grid α) (n p : Int) : Grid α :=
  fun r c => if p ≤ r ∧ r < n + p ∧ p ≤ c ∧ c < n + p then G (r - p) (c - p) else 0

/-- The cross-correlation sum of a `k × k` kernel with the window of `P` whose top left
corner is `(y, x)`. -/
def windowSum {α : Type} [Field α] (P K : Grid α) (k : Nat) (y x : Int) : α :=
  ∑ a ∈ Finset.range k, ∑ b ∈ Finset.range k, P (y + (a : Int)) (x + (b : Int)) * K a b

/-- The maximum of the `p × p` window of `input` whose top left corner is
`(y * stride, x * stride)`, as an element of `WithBot α` (`⊥` for an empty window). -/
def windowMax {α : Type} [LinearOrder α] (input : Grid α) (p : Nat) (stride y x : Int) :
    WithBot α :=
  (Finset.range p).sup (fun i => (Finset.range p).sup (fun j =>
    ((input (y * stride + (i : Int)) (x * stride + (j : Int)) : α) : WithBot α)))

/-- The value that the branch of `main` for the kernel `K` of size `k` should leave in
the pooled cell `(y, x)`: the largest, over the four cells `(2y+i, 2x+j)`, `i, j ∈ {0, 1}`,
of `sigmoid` of the window sum of `K` with the input `G` of size `n` padded by `k / 2`. -/
def branchValue {α : Type} [LinearOrderedField α] (exp : α → α) (G : Grid α) (n k : Nat)
    (K : Grid α) (y x : Nat) : α :=
  max
    (max
      (sigmoid exp (windowSum (padded G n ((k / 2 : Nat) : Int)) K k (2 * y) (2 * x)))
      (sigmoid exp (windowSum (padded G n ((k / 2 : Nat) : Int)) K k (2 * y) (2 * x + 1))))
    (max
      (sigmoid exp (windowSum (padded G n ((k / 2 : Nat) : Int)) K k (2 * y + 1) (2 * x)))
      (sigmoid exp
        (windowSum (padded G n ((k / 2 : Nat) : Int)) K k (2 * y + 1) (2 * x + 1))))

/-- The pooled value `w` is a real number strictly between 0 and 1. -/
def InUnitInterval (w : WithBot ℝ) : Prop :=
  ∃ v : ℝ, w = ((v : ℝ) : WithBot ℝ) ∧ 0 < v ∧ v < 1

/-- The input read with zeros outside: `G[r][c]` when `0 ≤ r, c < n`, and `0` otherwise. -/
def inputOrZero {α : Type} [Zero α] (G : Grid α) (n : Int) : Grid α :=
  fun r c => if 0 ≤ r ∧ r < n ∧ 0 ≤ c ∧ c < n then G r c else 0

/-- The sum of the `k × k` kernel `K` centred on the input cell `(y, x)`, neighbours outside
the `n × n` input counting as zero:
`Σ_{a<k} Σ_{b<k} in(y + a - k/2, x + b - k/2) * K[a][b]`. -/
def centredSum {α : Type} [Field α] (G : Grid α) (n k : Nat) (K : Grid α) (y x : Int) : α :=
  ∑ a ∈ Finset.range k, ∑ b ∈ Finset.range k,
    inputOrZero G n (y + (a : Int) - ((k / 2 : Nat) : Int)) (x + (b : Int) - ((k / 2 : Nat) : Int))
      * K a b

/-! ## Concrete inputs -/

/-- The array whose leading rows are the given rows; cells outside the rows hold `d`. -/
def ofRows {α : Type} (rows : List (List α)) (d : α) : Grid α :=
  fun r c => if 0 ≤ r ∧ 0 ≤ c then (rows.getD r.toNat []).getD c.toNat d else d

/-- The 4 × 4 input `[[1,2,3,4],[5,6,7,8],[9,10,11,12],[13,14,15,16]]`. -/
def pool4x4 : Grid Int :=
  ofRows [[1, 2, 3, 4], [5, 6, 7, 8], [9, 10, 11, 12], [13, 14, 15, 16]] 0

/-- A 2 × 2 input `[[1,2],[3,4]]` of rationals. -/
def grid2x2 : Grid ℚ := ofRows [[1, 2], [3, 4]] 0

/-- The array holding `v` in every cell. -/
def constGrid {α : Type} (v : α) : Grid α := fun _ _ => v

/-- Local arrays of `main` that hold `v` in every cell of `conv1`, `conv2`, `conv3`, zero in
every cell of `paddedInput` and `-INFINITY` in every cell of the pooled arrays. -/
def constBuffers {α : Type} [Zero α] (v : α) : Buffers α :=
  { paddedInput := constGrid 0, conv1 := constGrid v, conv2 := constGrid v,
    conv3 := constGrid v, pooled1 := constGrid ⊥, pooled2 := constGrid ⊥,
    pooled3 := constGrid ⊥ }

/-- Heap arrays of `serialDM.c` that hold `v` in every cell. -/
def constHeap {α : Type} (v : α) : SerialDM.Heap α :=
  { input := constGrid v, kernel1 := constGrid v, kernel2 := constGrid v,
    kernel3 := constGrid v }

/-- The file of size `n` whose numbers are all `v`. -/
def constFile {α : Type} (n : Int) (v : α) : MatrixFile α := ⟨n, constGrid v⟩

/-- The 3 × 3 input `[[1,2,3],[4,5,6],[7,8,9]]` of rationals. -/
def grid3x3 : Grid ℚ := ofRows [[1, 2, 3], [4, 5, 6], [7, 8, 9]] 0

/-- The 2 × 2 kernel `[[1,2],[3,4]]` of rationals. -/
def kernel2x2 : Grid ℚ := ofRows [[1, 2], [3, 4]] 0

/-- The 4 × 4 input `[[1,2,3,4],[5,6,7,8],[9,10,11,12],[13,14,15,16]]` of rationals. -/
def grid4x4 : Grid ℚ :=
  ofRows [[1, 2, 3, 4], [5, 6, 7, 8], [9, 10, 11, 12], [13, 14, 15, 16]] 0

/-- The 3 × 3 kernel `[[0,0,0],[0,1,0],[0,0,0]]` of rationals. -/
def identity3x3 : Grid ℚ := ofRows [[0, 0, 0], [0, 1, 0], [0, 0, 0]] 0

/-! ## Loop lemmas -/

theorem loopN_succ {σ : Type} (body : Nat → σ → σ) (n : Nat) (s : σ) :
    loopN body (n + 1) s = body n (loopN body n s) := rfl

/-- One row of a cell-by-cell update: after the inner loop over columns `0 .. m-1` of row
`i`, exactly those cells of row `i` have been updated. -/
theorem loopN_row {α : Type} (h : Int → α → α) (i : Int) (m : Nat) (s : Grid α) (r c : Int) :
    loopN (fun j g => setCell g i (j : Int) (h (j : Int) (g i (j : Int)))) m s r c
      = if r = i ∧ 0 ≤ c ∧ c < (m : Int) then h c (s r c) else s r c := by
  induction m generalizing r c with
  | zero =>
    have h0 : ¬ (r = i ∧ 0 ≤ c ∧ c < ((0 : Nat) : Int)) := by omega
    rw [if_neg h0]
    rfl
  | succ m ih =>
    rw [loopN_succ]
    simp only [setCell]
    by_cases hrc : r = i ∧ c = (m : Int)
    · obtain ⟨rfl, rfl⟩ := hrc
      rw [if_pos ⟨rfl, rfl⟩, ih]
      have h1 : ¬ (r = r ∧ (0 : Int) ≤ (m : Int) ∧ (m : Int) < (m : Int)) := by omega
      have h2 : r = r ∧ (0 : Int) ≤ (m : Int) ∧ (m : Int) < ((m + 1 : Nat) : Int) := by omega
      rw [if_neg h1, if_pos h2]
    · rw [if_neg hrc, ih]
      by_cases hin : r = i ∧ 0 ≤ c ∧ c < (m : Int)
      · have h2 : r = i ∧ 0 ≤ c ∧ c < ((m + 1 : Nat) : Int) := by omega
        rw [if_pos hin, if_pos h2]
      · have h2 : ¬ (r = i ∧ 0 ≤ c ∧ c < ((m + 1 : Nat) : Int)) := by omega
        rw [if_neg hin, if_neg h2]

/-- A doubly nested loop that updates cell `(i, j)` from its own previous value at
iteration `(i, j)` updates exactly the cells of the rectangle, each once. -/
theorem forLoop_update {α : Type} (b1 b2 : Int) (h : Int → Int → α → α) (s : Grid α)
    (r c : Int) :
    forLoop b1 (fun i g => forLoop b2 (fun j g => setCell g i j (h i j (g i j))) g) s r c
      = if 0 ≤ r ∧ r < b1 ∧ 0 ≤ c ∧ c < b2 then h r c (s r c) else s r c := by
  unfold forLoop
  have key : ∀ (n : Nat) (r c : Int),
      loopN (fun i g => loopN (fun j g => setCell g (i : Int) (j : Int)
          (h (i : Int) (j : Int) (g (i : Int) (j : Int)))) b2.toNat g) n s r c
        = if 0 ≤ r ∧ r < (n : Int) ∧ 0 ≤ c ∧ c < b2 then h r c (s r c) else s r c := by
    intro n
    induction n with
    | zero =>
      intro r c
      have h0 : ¬ (0 ≤ r ∧ r < ((0 : Nat) : Int) ∧ 0 ≤ c ∧ c < b2) := by omega
      rw [if_neg h0]
      rfl
    | succ n ih =>
      intro r c
      rw [loopN_succ, loopN_row (fun j v => h (n : Int) j v) (n : Int) b2.toNat _ r c, ih r c]
      by_cases hr : r = (n : Int)
      · subst hr
        by_cases hc : 0 ≤ c ∧ c < b2
        · have h1 : (n : Int) = (n : Int) ∧ 0 ≤ c ∧ c < (b2.toNat : Int) := by omega
          have h2 : ¬ (0 ≤ (n : Int) ∧ (n : Int) < (n : Int) ∧ 0 ≤ c ∧ c < b2) := by omega
          have h3 : 0 ≤ (n : Int) ∧ (n : Int) < ((n + 1 : Nat) : Int) ∧ 0 ≤ c ∧ c < b2 := by
            omega
          rw [if_pos h1, if_neg h2, if_pos h3]
        · have h1 : ¬ ((n : Int) = (n : Int) ∧ 0 ≤ c ∧ c < (b2.toNat : Int)) := by omega
          have h2 : ¬ (0 ≤ (n : Int) ∧ (n : Int) < (n : Int) ∧ 0 ≤ c ∧ c < b2) := by omega
          have h3 : ¬ (0 ≤ (n : Int) ∧ (n : Int) < ((n + 1 : Nat) : Int) ∧ 0 ≤ c ∧ c < b2) := by
            omega
          rw [if_neg h1, if_neg h2, if_neg h3]
      · have h1 : ¬ (r = (n : Int) ∧ 0 ≤ c ∧ c < (b2.toNat : Int)) := by omega
        rw [if_neg h1]
        by_cases hin : 0 ≤ r ∧ r < (n : Int) ∧ 0 ≤ c ∧ c < b2
        · have h3 : 0 ≤ r ∧ r < ((n + 1 : Nat) : Int) ∧ 0 ≤ c ∧ c < b2 := by omega
          rw [if_pos hin, if_pos h3]
        · have h3 : ¬ (0 ≤ r ∧ r < ((n + 1 : Nat) : Int) ∧ 0 ≤ c ∧ c < b2) := by omega
          rw [if_neg hin, if_neg h3]
  rw [key b1.toNat r c]
  by_cases hin : 0 ≤ r ∧ r < b1 ∧ 0 ≤ c ∧ c < b2
  · have h3 : 0 ≤ r ∧ r < (b1.toNat : Int) ∧ 0 ≤ c ∧ c < b2 := by omega
    rw [if_pos hin, if_pos h3]
  · have h3 : ¬ (0 ≤ r ∧ r < (b1.toNat : Int) ∧ 0 ≤ c ∧ c < b2) := by omega
    rw [if_neg hin, if_neg h3]

/-- A doubly nested loop that stores a value `f i j` into cell `(i, j)`. -/
theorem forLoop_fill {α : Type} (b1 b2 : Int) (f : Int → Int → α) (s : Grid α) (r c : Int) :
    forLoop b1 (fun i g => forLoop b2 (fun j g => setCell g i j (f i j)) g) s r c
      = if 0 ≤ r ∧ r < b1 ∧ 0 ≤ c ∧ c < b2 then f r c else s r c :=
  forLoop_update b1 b2 (fun i j _ => f i j) s r c

/-- An accumulation loop `acc += f j` adds the sum of the `f j`. -/
theorem loopN_sum {α : Type} [AddCommMonoid α] (f : Nat → α) (n : Nat) (s0 : α) :
    loopN (fun j acc => acc + f j) n s0 = s0 + ∑ j ∈ Finset.range n, f j := by
  induction n with
  | zero => simp [loopN]
  | succ n ih => rw [loopN_succ, ih, Finset.sum_range_succ, add_assoc]

/-- A running-maximum loop computes the join of the start value and the `f j`. -/
theorem loopN_sup {β : Type} [SemilatticeSup β] [OrderBot β] (f : Nat → β) (n : Nat)
    (m0 : β) :
    loopN (fun j acc => acc ⊔ f j) n m0 = m0 ⊔ (Finset.range n).sup f := by
  induction n with
  | zero => simp [loopN]
  | succ n ih =>
    rw [loopN_succ, ih, Finset.range_succ, Finset.sup_insert, sup_assoc]
    congr 1
    exact sup_comm _ _

/-- The comparison `if (val > maxVal) maxVal = val;` keeps the larger of the two. -/
theorem update_max {β : Type} [LinearOrder β] (v m : β) :
    (if v > m then v else m) = m ⊔ v := by
  by_cases h : v > m
  · rw [if_pos h]
    exact (sup_eq_right.mpr (le_of_lt h)).symm
  · rw [if_neg h]
    exact (sup_eq_left.mpr (not_lt.mp h)).symm

/-- The two inner loops of `convolve2D` compute the window sum. -/
theorem convolve2D_acc {α : Type} [Field α] (input kernel : Grid α) (kernelSize : Int)
    (y x : Int) :
    forLoop kernelSize (fun i sum =>
        forLoop kernelSize (fun j sum => sum + input (y + i) (x + j) * kernel i j) sum) 0
      = windowSum input kernel kernelSize.toNat y x := by
  unfold forLoop windowSum
  have inner : ∀ (i : Nat) (acc : α),
      loopN (fun (j : Nat) sum => sum + input (y + (i : Int)) (x + (j : Int))
          * kernel (i : Int) (j : Int)) kernelSize.toNat acc
        = acc + ∑ b ∈ Finset.range kernelSize.toNat,
            input (y + (i : Int)) (x + (b : Int)) * kernel (i : Int) (b : Int) :=
    fun i acc => loopN_sum _ _ acc
  simp only [inner]
  rw [loopN_sum, zero_add]

/-- Every cell after `convolve2D`: the window sum inside the written square, the previous
contents elsewhere. -/
theorem convolve2D_cell {α : Type} [Field α] (input kernel output : Grid α)
    (inputSize kernelSize : Int) (r c : Int) :
    convolve2D input kernel output inputSize kernelSize r c
      = if 0 ≤ r ∧ r < inputSize - kernelSize + 1 ∧ 0 ≤ c ∧ c < inputSize - kernelSize + 1
        then windowSum input kernel kernelSize.toNat r c else output r c := by
  have h : convolve2D input kernel output inputSize kernelSize r c
      = if 0 ≤ r ∧ r < inputSize - kernelSize + 1 ∧ 0 ≤ c ∧ c < inputSize - kernelSize + 1
        then forLoop kernelSize (fun i sum =>
          forLoop kernelSize (fun j sum => sum + input (r + i) (c + j) * kernel i j) sum) 0
        else output r c :=
    forLoop_fill (inputSize - kernelSize + 1) (inputSize - kernelSize + 1)
      (fun y x => forLoop kernelSize (fun i sum =>
        forLoop kernelSize (fun j sum => sum + input (y + i) (x + j) * kernel i j) sum) 0)
      output r c
  rw [h, convolve2D_acc]

/-- Every cell after `applySigmoid`. -/
theorem applySigmoid_cell {α : Type} [Field α] (exp : α → α) (matrix : Grid α) (size : Int)
    (r c : Int) :
    applySigmoid exp matrix size r c
      = if 0 ≤ r ∧ r < size ∧ 0 ≤ c ∧ c < size then sigmoid exp (matrix r c)
        else matrix r c :=
  forLoop_update size size (fun _ _ v => sigmoid exp v) matrix r c

/-- The two inner loops of `maxPooling` compute the window maximum. -/
theorem maxPooling_acc {α : Type} [LinearOrder α] (input : Grid α) (poolSize stride : Int)
    (y x : Int) :
    forLoop poolSize (fun i maxVal =>
        forLoop poolSize (fun j maxVal =>
          let val := input (y * stride + i) (x * stride + j)
          if (val : WithBot α) > maxVal then (val : WithBot α) else maxVal) maxVal)
        (⊥ : WithBot α)
      = windowMax input poolSize.toNat stride y x := by
  unfold forLoop windowMax
  simp only [update_max]
  have inner : ∀ (i : Nat) (acc : WithBot α),
      loopN (fun (j : Nat) maxVal => maxVal ⊔
          ((input (y * stride + (i : Int)) (x * stride + (j : Int)) : α) : WithBot α))
          poolSize.toNat acc
        = acc ⊔ (Finset.range poolSize.toNat).sup (fun j =>
            ((input (y * stride + (i : Int)) (x * stride + (j : Int)) : α) : WithBot α)) :=
    fun i acc => loopN_sup _ _ acc
  simp only [inner]
  rw [loopN_sup, bot_sup_eq]

/-- Every cell after `maxPooling`: the window maximum inside the written square, the
previous contents elsewhere. -/
theorem maxPooling_cell {α : Type} [LinearOrder α] (input : Grid α)
    (output : Grid (WithBot α)) (inputSize poolSize stride : Int) (r c : Int) :
    maxPooling input output inputSize poolSize stride r c
      = if 0 ≤ r ∧ r < (inputSize - poolSize).tdiv stride + 1
            ∧ 0 ≤ c ∧ c < (inputSize - poolSize).tdiv stride + 1
        then windowMax input poolSize.toNat stride r c else output r c := by
  have h : maxPooling input output inputSize poolSize stride r c
      = if 0 ≤ r ∧ r < (inputSize - poolSize).tdiv stride + 1
            ∧ 0 ≤ c ∧ c < (inputSize - poolSize).tdiv stride + 1
        then forLoop poolSize (fun i maxVal =>
          forLoop poolSize (fun j maxVal =>
            let val := input (r * stride + i) (c * stride + j)
            if (val : WithBot α) > maxVal then (val : WithBot α) else maxVal) maxVal)
          (⊥ : WithBot α)
        else output r c :=
    forLoop_fill ((inputSize - poolSize).tdiv stride + 1)
      ((inputSize - poolSize).tdiv stride + 1)
      (fun y x => forLoop poolSize (fun i maxVal =>
        forLoop poolSize (fun j maxVal =>
          let val := input (y * stride + i) (x * stride + j)
          if (val : WithBot α) > maxVal then (val : WithBot α) else maxVal) maxVal)
        (⊥ : WithBot α))
      output r c
  rw [h, maxPooling_acc]

/-- Every cell after `zeroPad` of `serialDM.c`. -/
theorem SerialDM.zeroPad_cell {α : Type} [Zero α] (matrix : Grid α) (size padWidth : Int)
    (paddedMatrix : Grid α) (paddedSize : Int) (r c : Int) :
    SerialDM.zeroPad matrix size padWidth paddedMatrix paddedSize r c
      = if 0 ≤ r ∧ r < paddedSize ∧ 0 ≤ c ∧ c < paddedSize then
          (if r < padWidth ∨ c < padWidth ∨ r ≥ size + padWidth ∨ c ≥ size + padWidth then 0
           else matrix (r - padWidth) (c - padWidth))
        else paddedMatrix r c := by
  have body : ∀ (i j : Int) (pm : Grid α),
      (if i < padWidth ∨ j < padWidth ∨ i ≥ size + padWidth ∨ j ≥ size + padWidth then
          setCell pm i j 0
        else setCell pm i j (matrix (i - padWidth) (j - padWidth)))
      = setCell pm i j
          (if i < padWidth ∨ j < padWidth ∨ i ≥ size + padWidth ∨ j ≥ size + padWidth then 0
           else matrix (i - padWidth) (j - padWidth)) := by
    intro i j pm
    split_ifs <;> rfl
  unfold SerialDM.zeroPad
  simp only [body]
  exact forLoop_fill paddedSize paddedSize _ paddedMatrix r c

/-- The function `zeroPad` of `serial.c` is the one of `serialDM.c` called with
`size + 2 * padWidth`. -/
theorem Serial.zeroPad_eq {α : Type} [Zero α] (matrix : Grid α) (size padWidth : Int)
    (paddedMatrix : Grid α) :
    Serial.zeroPad matrix size padWidth paddedMatrix
      = SerialDM.zeroPad matrix size padWidth paddedMatrix (size + 2 * padWidth) := rfl

/-! ## Values written by `zeroPad` -/

/-- The values that `zeroPad` computes (a call inside the arrays is assumed here, see
`zeroPad_within_capacity`): for a grid `G` of size `n ≥ 0` and a pad width `p ≥ 0`, after `zeroPad` (of
`serial.c`, and of `serialDM.c` called with `paddedSize = n + 2p`) the cell
`(p + i, p + j)` holds `G[i][j]` for all `0 ≤ i, j < n`, and every other cell `(r, c)`
with `0 ≤ r, c < n + 2p` holds `0`, whatever the padded array held before. -/
theorem zeroPad_spec {α : Type} [Zero α] (G : Grid α) (n p : Int) (hn : 0 ≤ n) (hp : 0 ≤ p)
    (before : Grid α) :
    (∀ i j : Int, 0 ≤ i → i < n → 0 ≤ j → j < n →
        Serial.zeroPad G n p before (p + i) (p + j) = G i j
        ∧ SerialDM.zeroPad G n p before (n + 2 * p) (p + i) (p + j) = G i j)
    ∧ (∀ r c : Int, 0 ≤ r → r < n + 2 * p → 0 ≤ c → c < n + 2 * p →
        ¬ (∃ i j : Int, 0 ≤ i ∧ i < n ∧ 0 ≤ j ∧ j < n ∧ r = p + i ∧ c = p + j) →
        Serial.zeroPad G n p before r c = 0
        ∧ SerialDM.zeroPad G n p before (n + 2 * p) r c = 0) := by
  constructor
  · intro i j hi0 hi hj0 hj
    rw [Serial.zeroPad_eq, SerialDM.zeroPad_cell]
    have h1 : 0 ≤ p + i ∧ p + i < n + 2 * p ∧ 0 ≤ p + j ∧ p + j < n + 2 * p := by omega
    have h2 : ¬ (p + i < p ∨ p + j < p ∨ p + i ≥ n + p ∨ p + j ≥ n + p) := by omega
    rw [if_pos h1, if_neg h2]
    have e1 : p + i - p = i := by omega
    have e2 : p + j - p = j := by omega
    rw [e1, e2]
    exact ⟨rfl, rfl⟩
  · intro r c hr0 hr hc0 hc hout
    rw [Serial.zeroPad_eq, SerialDM.zeroPad_cell]
    have h1 : 0 ≤ r ∧ r < n + 2 * p ∧ 0 ≤ c ∧ c < n + 2 * p := ⟨hr0, hr, hc0, hc⟩
    have h2 : r < p ∨ c < p ∨ r ≥ n + p ∨ c ≥ n + p := by
      by_contra hcon
      apply hout
      refine ⟨r - p, c - p, ?_, ?_, ?_, ?_, ?_, ?_⟩ <;> omega
    rw [if_pos h1, if_pos h2]
    exact ⟨rfl, rfl⟩

/-! ## C2: `convolve2D` -/

/-- C2. `convolve2D` is cross-correlation without kernel reversal: for `1 ≤ k ≤ n`, every
output cell `(y, x)` with `0 ≤ y, x < n - k + 1` holds
`Σ_{i<k} Σ_{j<k} input[y+i][x+j] * kernel[i][j]`, whatever the output array held before. -/
theorem convolve2D_cross_correlation {α : Type} [Field α] (n k : Nat) (hk : 1 ≤ k)
    (hkn : k ≤ n) (input kernel output : Grid α) (y x : Nat)
    (hy : y < n - k + 1) (hx : x < n - k + 1) :
    convolve2D input kernel output (n : Int) (k : Int) (y : Int) (x : Int)
      = ∑ i ∈ Finset.range k, ∑ j ∈ Finset.range k,
          input ((y : Int) + (i : Int)) ((x : Int) + (j : Int)) * kernel (i : Int) (j : Int) := by
  rw [convolve2D_cell]
  have h1 : 0 ≤ (y : Int) ∧ (y : Int) < (n : Int) - (k : Int) + 1
      ∧ 0 ≤ (x : Int) ∧ (x : Int) < (n : Int) - (k : Int) + 1 := by omega
  rw [if_pos h1, Int.toNat_ofNat]
  rfl

/-- The value of the sum of C2 at the 3 × 3 input `[[1,2,3],[4,5,6],[7,8,9]]`, the 2 × 2
kernel `[[1,2],[3,4]]` and the window at `(0, 1)`: `2*1 + 3*2 + 5*3 + 6*4 = 47`. -/
theorem crossCorrelation_example :
    (∑ i ∈ Finset.range 2, ∑ j ∈ Finset.range 2,
        grid3x3 (((0 : Nat) : Int) + (i : Int)) (((1 : Nat) : Int) + (j : Int))
          * kernel2x2 (i : Int) (j : Int)) = 47 := by
  have e2 : Int.toNat 2 = 2 := rfl
  simp only [Finset.sum_range_succ, Finset.range_zero, Finset.sum_empty]
  norm_num [grid3x3, kernel2x2, ofRows, e2]

/-- C2 at the 3 × 3 input `[[1,2,3],[4,5,6],[7,8,9]]` with the 2 × 2 kernel `[[1,2],[3,4]]`:
the cell `(0, 1)` holds `input[0][1]*kernel[0][0] + input[0][2]*kernel[0][1]
+ input[1][1]*kernel[1][0] + input[1][2]*kernel[1][1] = 2*1 + 3*2 + 5*3 + 6*4 = 47`
(with the kernel reversed the value would be `2*4 + 3*3 + 5*2 + 6*1 = 33`). -/
theorem convolve2D_cross_correlation_witness :
    (1 ≤ 2 ∧ 2 ≤ 3 ∧ 0 < 3 - 2 + 1 ∧ 1 < 3 - 2 + 1)
    ∧ convolve2D grid3x3 kernel2x2 (constGrid 7) ((3 : Nat) : Int) ((2 : Nat) : Int)
        ((0 : Nat) : Int) ((1 : Nat) : Int)
      = ∑ i ∈ Finset.range 2, ∑ j ∈ Finset.range 2,
          grid3x3 (((0 : Nat) : Int) + (i : Int)) (((1 : Nat) : Int) + (j : Int))
            * kernel2x2 (i : Int) (j : Int)
    ∧ convolve2D grid3x3 kernel2x2 (constGrid 7) ((3 : Nat) : Int) ((2 : Nat) : Int)
        ((0 : Nat) : Int) ((1 : Nat) : Int) = 47 :=
  ⟨by decide,
   convolve2D_cross_correlation 3 2 (by decide) (by decide) grid3x3 kernel2x2
     (constGrid 7) 0 1 (by decide) (by decide),
   (convolve2D_cross_correlation 3 2 (by decide) (by decide) grid3x3 kernel2x2
     (constGrid 7) 0 1 (by decide) (by decide)).trans crossCorrelation_example⟩

/-! ## C4: `maxPooling` -/

/-- The written square of `maxPooling` for sizes given as natural numbers. -/
theorem tdiv_cast_sub (n p s : Nat) (hpn : p ≤ n) :
    ((n : Int) - (p : Int)).tdiv (s : Int) + 1 = (((n - p) / s + 1 : Nat) : Int) := by
  rw [← Int.ofNat_sub hpn, ← Int.ofNat_tdiv]
  rfl

/-- C4. `maxPooling` returns the window maximum: for `poolSize ≥ 1`, `stride ≥ 1` and
`poolSize ≤ n`, every output cell `(y, x)` with `0 ≤ y, x < (n - poolSize)/stride + 1` is at
least every element `input[y*stride+i][x*stride+j]`, `0 ≤ i, j < poolSize`, of its window
and is equal to one of them. -/
theorem maxPooling_window_max {α : Type} [LinearOrder α] (n p s : Nat) (hp : 1 ≤ p)
    (hs : 1 ≤ s) (hpn : p ≤ n) (input : Grid α) (output : Grid (WithBot α)) (y x : Nat)
    (hy : y < (n - p) / s + 1) (hx : x < (n - p) / s + 1) :
    (∀ i j : Nat, i < p → j < p →
        ((input ((y : Int) * (s : Int) + (i : Int)) ((x : Int) * (s : Int) + (j : Int)) : α)
            : WithBot α)
          ≤ maxPooling input output (n : Int) (p : Int) (s : Int) (y : Int) (x : Int))
    ∧ (∃ i j : Nat, i < p ∧ j < p ∧
        maxPooling input output (n : Int) (p : Int) (s : Int) (y : Int) (x : Int)
          = ((input ((y : Int) * (s : Int) + (i : Int)) ((x : Int) * (s : Int) + (j : Int)) : α)
              : WithBot α)) := by
  have hs1 : 1 ≤ s := hs
  rw [maxPooling_cell, tdiv_cast_sub n p s hpn]
  have h1 : 0 ≤ (y : Int) ∧ (y : Int) < (((n - p) / s + 1 : Nat) : Int)
      ∧ 0 ≤ (x : Int) ∧ (x : Int) < (((n - p) / s + 1 : Nat) : Int) :=
    ⟨Int.ofNat_nonneg y, Int.ofNat_lt.mpr hy, Int.ofNat_nonneg x, Int.ofNat_lt.mpr hx⟩
  rw [if_pos h1, Int.toNat_ofNat]
  unfold windowMax
  constructor
  · intro i j hi hj
    have inner := Finset.le_sup (f := fun j : Nat =>
      ((input ((y : Int) * (s : Int) + (i : Int)) ((x : Int) * (s : Int) + (j : Int)) : α)
        : WithBot α)) (Finset.mem_range.mpr hj)
    have outer := Finset.le_sup (f := fun i : Nat => (Finset.range p).sup (fun j : Nat =>
      ((input ((y : Int) * (s : Int) + (i : Int)) ((x : Int) * (s : Int) + (j : Int)) : α)
        : WithBot α))) (Finset.mem_range.mpr hi)
    exact le_trans inner outer
  · have hne : (Finset.range p).Nonempty := ⟨0, Finset.mem_range.mpr hp⟩
    obtain ⟨i, hi, hieq⟩ := Finset.exists_mem_eq_sup (Finset.range p) hne
      (fun i : Nat => (Finset.range p).sup (fun j : Nat =>
        ((input ((y : Int) * (s : Int) + (i : Int)) ((x : Int) * (s : Int) + (j : Int)) : α)
          : WithBot α)))
    obtain ⟨j, hj, hjeq⟩ := Finset.exists_mem_eq_sup (Finset.range p) hne
      (fun j : Nat =>
        ((input ((y : Int) * (s : Int) + (i : Int)) ((x : Int) * (s : Int) + (j : Int)) : α)
          : WithBot α))
    exact ⟨i, j, Finset.mem_range.mp hi, Finset.mem_range.mp hj, hieq.trans hjeq⟩

/-- C4 at the 4 × 4 input `[[1,2,3,4],[5,6,7,8],[9,10,11,12],[13,14,15,16]]` with
`poolSize = 2`, `stride = 2`: the output is `[[6,8],[14,16]]`. -/
theorem maxPooling_window_max_witness :
    (1 ≤ 2 ∧ 1 ≤ 2 ∧ 2 ≤ 4 ∧ 1 < (4 - 2) / 2 + 1 ∧ 0 < (4 - 2) / 2 + 1)
    ∧ ((∀ i j : Nat, i < 2 → j < 2 →
          ((pool4x4 (((1 : Nat) : Int) * ((2 : Nat) : Int) + (i : Int))
              (((0 : Nat) : Int) * ((2 : Nat) : Int) + (j : Int)) : Int) : WithBot Int)
            ≤ maxPooling pool4x4 (fun _ _ => ⊥) ((4 : Nat) : Int) ((2 : Nat) : Int)
                ((2 : Nat) : Int) ((1 : Nat) : Int) ((0 : Nat) : Int))
        ∧ (∃ i j : Nat, i < 2 ∧ j < 2 ∧
            maxPooling pool4x4 (fun _ _ => ⊥) ((4 : Nat) : Int) ((2 : Nat) : Int)
                ((2 : Nat) : Int) ((1 : Nat) : Int) ((0 : Nat) : Int)
              = ((pool4x4 (((1 : Nat) : Int) * ((2 : Nat) : Int) + (i : Int))
                  (((0 : Nat) : Int) * ((2 : Nat) : Int) + (j : Int)) : Int) : WithBot Int)))
    ∧ (maxPooling pool4x4 (fun _ _ => ⊥) 4 2 2 0 0 = ((6 : Int) : WithBot Int)
        ∧ maxPooling pool4x4 (fun _ _ => ⊥) 4 2 2 0 1 = ((8 : Int) : WithBot Int)
        ∧ maxPooling pool4x4 (fun _ _ => ⊥) 4 2 2 1 0 = ((14 : Int) : WithBot Int)
        ∧ maxPooling pool4x4 (fun _ _ => ⊥) 4 2 2 1 1 = ((16 : Int) : WithBot Int)) :=
  ⟨by decide,
   maxPooling_window_max 4 2 2 (by decide) (by decide) (by decide) pool4x4 (fun _ _ => ⊥) 1 0
     (by decide) (by decide),
   by decide⟩

/-! ## The three branches of `main` -/

/-- A pooling window of size 2 is the larger of its four cells. -/
theorem windowMax_two {α : Type} [LinearOrder α] (input : Grid α) (stride y x : Int) :
    windowMax input 2 stride y x
      = ((max (max (input (y * stride) (x * stride)) (input (y * stride) (x * stride + 1)))
          (max (input (y * stride + 1) (x * stride))
            (input (y * stride + 1) (x * stride + 1))) : α) : WithBot α) := by
  unfold windowMax
  simp only [Finset.range_succ, Finset.range_zero, insert_emptyc_eq, Finset.sup_insert,
    Nat.cast_one, Finset.sup_singleton, CharP.cast_eq_zero, add_zero, WithBot.coe_max]
  ac_rfl


/-- Every cell after `readMatrixFromFile`. -/
theorem readMatrixFromFile_cell {α : Type} (file : MatrixFile α) (matrix : Grid α)
    (r c : Int) :
    (readMatrixFromFile file matrix).1 r c
      = if 0 ≤ r ∧ r < file.size ∧ 0 ≤ c ∧ c < file.size then file.values r c
        else matrix r c :=
  forLoop_fill file.size file.size file.values matrix r c

/-- Window sums only depend on the window of the input and on the kernel cells below
the kernel size. -/
theorem windowSum_congr {α : Type} [Field α] (P Q K L : Grid α) (k : Nat) (y x : Int)
    (hP : ∀ a b : Nat, a < k → b < k → P (y + (a : Int)) (x + (b : Int))
      = Q (y + (a : Int)) (x + (b : Int)))
    (hK : ∀ a b : Nat, a < k → b < k → K (a : Int) (b : Int) = L (a : Int) (b : Int)) :
    windowSum P K k y x = windowSum Q L k y x := by
  unfold windowSum
  refine Finset.sum_congr rfl (fun a ha => Finset.sum_congr rfl (fun b hb => ?_))
  rw [hP a b (Finset.mem_range.mp ha) (Finset.mem_range.mp hb),
    hK a b (Finset.mem_range.mp ha) (Finset.mem_range.mp hb)]

/-- After `zeroPad` over `n + 2p` rows and columns, the padded array agrees on that square
with the input surrounded by zeros, provided the input array holds `G` on its `n × n`
cells. -/
theorem zeroPad_padded {α : Type} [Zero α] (G input before : Grid α) (n p : Int)
    (hin : ∀ r c : Int, 0 ≤ r → r < n → 0 ≤ c → c < n → input r c = G r c)
    (r c : Int) (hr0 : 0 ≤ r) (hr : r < n + 2 * p) (hc0 : 0 ≤ c) (hc : c < n + 2 * p) :
    SerialDM.zeroPad input n p before (n + 2 * p) r c = padded G n p r c := by
  rw [SerialDM.zeroPad_cell, if_pos ⟨hr0, hr, hc0, hc⟩]
  unfold padded
  by_cases hh : r < p ∨ c < p ∨ r ≥ n + p ∨ c ≥ n + p
  · have h2 : ¬ (p ≤ r ∧ r < n + p ∧ p ≤ c ∧ c < n + p) := by omega
    rw [if_pos hh, if_neg h2]
  · have h2 : p ≤ r ∧ r < n + p ∧ p ≤ c ∧ c < n + p := by omega
    rw [if_neg hh, if_pos h2]
    exact hin _ _ (by omega) (by omega) (by omega) (by omega)

/-- A cell of the convolution array after `convolve2D` and `applySigmoid`, inside both
the square written by `convolve2D` and the square covered by `applySigmoid`. -/
theorem activated_cell {α : Type} [Field α] (exp : α → α) (P K conv0 : Grid α)
    (ps kernelSize : Int) (r c : Int)
    (hr : 0 ≤ r ∧ r < ps - kernelSize + 1 ∧ r < ps)
    (hc : 0 ≤ c ∧ c < ps - kernelSize + 1 ∧ c < ps) :
    applySigmoid exp (convolve2D P K conv0 ps kernelSize) ps r c
      = sigmoid exp (windowSum P K kernelSize.toNat r c) := by
  rw [applySigmoid_cell, if_pos ⟨hr.1, hr.2.2, hc.1, hc.2.2⟩, convolve2D_cell,
    if_pos ⟨hr.1, hr.2.1, hc.1, hc.2.1⟩]

/-- A pooled cell of a branch of `main` is the largest of the four cells of its window
in the convolution array as `applySigmoid` left it. -/
theorem branch_cell {α : Type} [LinearOrderedField α] (exp : α → α) (P K conv0 : Grid α)
    (pooled0 : Grid (WithBot α)) (ps kernelSize : Int) (y x : Int)
    (hy : 0 ≤ y ∧ y < (ps - 2).tdiv 2 + 1) (hx : 0 ≤ x ∧ x < (ps - 2).tdiv 2 + 1) :
    maxPooling (applySigmoid exp (convolve2D P K conv0 ps kernelSize) ps) pooled0 ps 2 2 y x
      = ((max
          (max (applySigmoid exp (convolve2D P K conv0 ps kernelSize) ps (y * 2) (x * 2))
            (applySigmoid exp (convolve2D P K conv0 ps kernelSize) ps (y * 2) (x * 2 + 1)))
          (max (applySigmoid exp (convolve2D P K conv0 ps kernelSize) ps (y * 2 + 1) (x * 2))
            (applySigmoid exp (convolve2D P K conv0 ps kernelSize) ps (y * 2 + 1)
              (x * 2 + 1))) : α) : WithBot α) := by
  rw [maxPooling_cell, if_pos ⟨hy.1, hy.2, hx.1, hx.2⟩]
  exact windowMax_two _ 2 y x

/-- The value of a pooled cell of a branch whose convolution and activation cover the
`n × n` square, for a padded array and a kernel array that agree with `padded G n p` and
`K` where they are read. -/
theorem branch_value {α : Type} [LinearOrderedField α] (exp : α → α)
    (G K P Kbuf conv0 : Grid α) (pooled0 : Grid (WithBot α)) (n k : Nat) (ps fill : Int)
    (hn : 2 ≤ n) (hcover : (n : Int) ≤ ps - (k : Int) + 1) (hps : (n : Int) ≤ ps)
    (hfill : (n : Int) + (k : Int) - 1 ≤ fill)
    (hP : ∀ r c : Int, 0 ≤ r → r < fill → 0 ≤ c → c < fill →
      P r c = padded G n ((k / 2 : Nat) : Int) r c)
    (hK : ∀ a b : Nat, a < k → b < k → Kbuf (a : Int) (b : Int) = K (a : Int) (b : Int))
    (y x : Nat) (hy : y < (n - 2) / 2 + 1) (hx : x < (n - 2) / 2 + 1) :
    maxPooling (applySigmoid exp (convolve2D P Kbuf conv0 ps k) ps) pooled0 ps 2 2 y x
      = ((branchValue exp G n k K y x : α) : WithBot α) := by
  have hdiv : (ps - 2).tdiv 2 = (ps - 2) / 2 :=
    Int.tdiv_eq_ediv (by omega) (by decide)
  rw [branch_cell exp P Kbuf conv0 pooled0 ps k y x
    ⟨by omega, by rw [hdiv]; omega⟩ ⟨by omega, by rw [hdiv]; omega⟩]
  have cell : ∀ r c : Int, 0 ≤ r → r < n → 0 ≤ c → c < n →
      applySigmoid exp (convolve2D P Kbuf conv0 ps k) ps r c
        = sigmoid exp (windowSum (padded G n ((k / 2 : Nat) : Int)) K k r c) := by
    intro r c hr0 hr hc0 hc
    rw [activated_cell exp P Kbuf conv0 ps k r c ⟨hr0, by omega, by omega⟩
      ⟨hc0, by omega, by omega⟩, Int.toNat_ofNat]
    congr 1
    refine windowSum_congr _ _ _ _ k r c (fun a b ha hb => ?_) hK
    exact hP _ _ (by omega) (by omega) (by omega) (by omega)
  have e1 : (y : Int) * 2 = 2 * (y : Int) := by omega
  have e2 : (x : Int) * 2 = 2 * (x : Int) := by omega
  rw [cell _ _ (by omega) (by omega) (by omega) (by omega),
    cell _ _ (by omega) (by omega) (by omega) (by omega),
    cell _ _ (by omega) (by omega) (by omega) (by omega),
    cell _ _ (by omega) (by omega) (by omega) (by omega), e1, e2]
  rfl

/-- The input array after it has been read from a file holds the file's values. -/
theorem read_input {α : Type} (n : Nat) (G before : Grid α) (r c : Int)
    (hr0 : 0 ≤ r) (hr : r < n) (hc0 : 0 ≤ c) (hc : c < n) :
    (readMatrixFromFile ⟨(n : Int), G⟩ before).1 r c = G r c := by
  rw [readMatrixFromFile_cell, if_pos ⟨hr0, hr, hc0, hc⟩]

/-- One branch of `main` of `serial.c`, from the files to a pooled cell. -/
theorem serial_branch {α : Type} [LinearOrderedField α] (exp : α → α) (n k : Nat)
    (hn : 2 ≤ n) (hk : 1 ≤ k) (G K in0 k0 pad0 conv0 : Grid α) (pooled0 : Grid (WithBot α))
    (y x : Nat) (hy : y < (n - 2) / 2 + 1) (hx : x < (n - 2) / 2 + 1) :
    maxPooling (applySigmoid exp (convolve2D
        (Serial.zeroPad (readMatrixFromFile ⟨(n : Int), G⟩ in0).1 (n : Int)
          ((k : Int).tdiv 2) pad0)
        (readMatrixFromFile ⟨(k : Int), K⟩ k0).1 conv0 ((n : Int) + (k : Int) - 1) (k : Int))
        ((n : Int) + (k : Int) - 1)) pooled0 ((n : Int) + (k : Int) - 1) 2 2 (y : Int) (x : Int)
      = ((branchValue exp G n k K y x : α) : WithBot α) := by
  have hpw : (k : Int).tdiv 2 = ((k / 2 : Nat) : Int) := (Int.ofNat_tdiv k 2).symm
  rw [hpw, Serial.zeroPad_eq]
  refine branch_value exp G K _ _ conv0 pooled0 n k _
    ((n : Int) + 2 * ((k / 2 : Nat) : Int)) hn (by omega) (by omega) (by omega) ?_ ?_ y x hy hx
  · intro r c hr0 hr hc0 hc
    exact zeroPad_padded G _ pad0 (n : Int) ((k / 2 : Nat) : Int)
      (fun r c h1 h2 h3 h4 => read_input n G in0 r c h1 h2 h3 h4) r c hr0 hr hc0 hc
  · intro a b ha hb
    exact read_input k K k0 a b (by omega) (by omega) (by omega) (by omega)

/-- One branch of `main` of `serialDM.c`, from the files to a pooled cell. -/
theorem serialDM_branch {α : Type} [LinearOrderedField α] (exp : α → α) (n k : Nat)
    (hn : 2 ≤ n) (hk : 1 ≤ k) (G K in0 k0 pad0 conv0 : Grid α) (pooled0 : Grid (WithBot α))
    (y x : Nat) (hy : y < (n - 2) / 2 + 1) (hx : x < (n - 2) / 2 + 1) :
    maxPooling (applySigmoid exp (convolve2D
        (SerialDM.zeroPad (readMatrixFromFile ⟨(n : Int), G⟩ in0).1 (n : Int)
          ((k : Int).tdiv 2) pad0 ((n : Int) + (k : Int).tdiv 2 * 2))
        (readMatrixFromFile ⟨(k : Int), K⟩ k0).1 conv0 ((n : Int) + (k : Int).tdiv 2 * 2)
        (k : Int))
        ((n : Int) + (k : Int).tdiv 2 * 2)) pooled0 ((n : Int) + (k : Int).tdiv 2 * 2) 2 2
        (y : Int) (x : Int)
      = ((branchValue exp G n k K y x : α) : WithBot α) := by
  have hpw : (k : Int).tdiv 2 = ((k / 2 : Nat) : Int) := (Int.ofNat_tdiv k 2).symm
  have hps : (n : Int) + ((k / 2 : Nat) : Int) * 2 = (n : Int) + 2 * ((k / 2 : Nat) : Int) := by
    omega
  rw [hpw, hps]
  refine branch_value exp G K _ _ conv0 pooled0 n k _
    ((n : Int) + 2 * ((k / 2 : Nat) : Int)) hn (by omega) (by omega) (by omega) ?_ ?_ y x hy hx
  · intro r c hr0 hr hc0 hc
    exact zeroPad_padded G _ pad0 (n : Int) ((k / 2 : Nat) : Int)
      (fun r c h1 h2 h3 h4 => read_input n G in0 r c h1 h2 h3 h4) r c hr0 hr hc0 hc
  · intro a b ha hb
    exact read_input k K k0 a b (by omega) (by omega) (by omega) (by omega)

/-! ## Values of the pooled cells -/

/-- The pooled values that `main` computes (a run inside the arrays is assumed here, see
`main_branch_value_within_capacity`).  In `main` of both programs, for an input grid `G` of size `n ≥ 2` and kernels
`K1`, `K2`, `K3` of size `k ≥ 1`, every pooled cell `(y, x)` with
`0 ≤ y, x < (n - 2) / 2 + 1` of every branch equals the maximum over `i, j ∈ {0, 1}` of
`sigmoid (Σ_{a<k} Σ_{b<k} P[2y+i+a][2x+j+b] * K[a][b])`, `P` being `G` zero-padded by `k / 2`
on every side, whatever the arrays held before (arithmetic over the reals). -/
theorem main_branch_value (n k : Nat) (hn : 2 ≤ n) (hk : 1 ≤ k) (G K1 K2 K3 : Grid ℝ)
    (heap : SerialDM.Heap ℝ) (mem : Buffers ℝ) (y x : Nat)
    (hy : y < (n - 2) / 2 + 1) (hx : x < (n - 2) / 2 + 1) :
    ((Serial.main Real.exp ⟨n, G⟩ ⟨k, K1⟩ ⟨k, K2⟩ ⟨k, K3⟩ mem).pooled1 y x
        = ((branchValue Real.exp G n k K1 y x : ℝ) : WithBot ℝ)
      ∧ (Serial.main Real.exp ⟨n, G⟩ ⟨k, K1⟩ ⟨k, K2⟩ ⟨k, K3⟩ mem).pooled2 y x
        = ((branchValue Real.exp G n k K2 y x : ℝ) : WithBot ℝ)
      ∧ (Serial.main Real.exp ⟨n, G⟩ ⟨k, K1⟩ ⟨k, K2⟩ ⟨k, K3⟩ mem).pooled3 y x
        = ((branchValue Real.exp G n k K3 y x : ℝ) : WithBot ℝ))
    ∧ ((SerialDM.main Real.exp ⟨n, G⟩ ⟨k, K1⟩ ⟨k, K2⟩ ⟨k, K3⟩ heap mem).pooled1 y x
        = ((branchValue Real.exp G n k K1 y x : ℝ) : WithBot ℝ)
      ∧ (SerialDM.main Real.exp ⟨n, G⟩ ⟨k, K1⟩ ⟨k, K2⟩ ⟨k, K3⟩ heap mem).pooled2 y x
        = ((branchValue Real.exp G n k K2 y x : ℝ) : WithBot ℝ)
      ∧ (SerialDM.main Real.exp ⟨n, G⟩ ⟨k, K1⟩ ⟨k, K2⟩ ⟨k, K3⟩ heap mem).pooled3 y x
        = ((branchValue Real.exp G n k K3 y x : ℝ) : WithBot ℝ)) :=
  ⟨⟨serial_branch Real.exp n k hn hk G K1 _ _ mem.paddedInput mem.conv1 mem.pooled1 y x hy hx,
    serial_branch Real.exp n k hn hk G K2 _ _ mem.paddedInput mem.conv2 mem.pooled2 y x hy hx,
    serial_branch Real.exp n k hn hk G K3 _ _ mem.paddedInput mem.conv3 mem.pooled3 y x hy hx⟩,
   ⟨serialDM_branch Real.exp n k hn hk G K1 _ _ mem.paddedInput mem.conv1 mem.pooled1 y x hy hx,
    serialDM_branch Real.exp n k hn hk G K2 _ _ mem.paddedInput mem.conv2 mem.pooled2 y x hy hx,
    serialDM_branch Real.exp n k hn hk G K3 _ _ mem.paddedInput mem.conv3 mem.pooled3 y x hy
      hx⟩⟩

/-! ## C8: `sigmoid` over the reals -/

/-- The value of `sigmoid` lies strictly between 0 and 1. -/
theorem sigmoid_mem_Ioo (x : ℝ) : 0 < sigmoid Real.exp x ∧ sigmoid Real.exp x < 1 := by
  unfold sigmoid
  have he : 0 < Real.exp (-x) := Real.exp_pos _
  constructor
  · exact div_pos one_pos (by linarith)
  · rw [div_lt_one (by linarith)]
    linarith

/-- The function `sigmoid` is strictly increasing. -/
theorem sigmoid_lt (x y : ℝ) (h : x < y) : sigmoid Real.exp x < sigmoid Real.exp y := by
  unfold sigmoid
  have hy : 0 < Real.exp (-y) := Real.exp_pos _
  have hxy : Real.exp (-y) < Real.exp (-x) := Real.exp_lt_exp.mpr (by linarith)
  exact one_div_lt_one_div_of_lt (by linarith) (by linarith)

/-- C8. Over the reals, `sigmoid x = 1 / (1 + exp (-x))` is strictly increasing, satisfies
`0 < sigmoid x < 1` for every `x`, and `sigmoid 0 = 1/2`. -/
theorem sigmoid_properties :
    (∀ x : ℝ, sigmoid Real.exp x = 1 / (1 + Real.exp (-x)))
    ∧ (∀ x y : ℝ, x < y → sigmoid Real.exp x < sigmoid Real.exp y)
    ∧ (∀ x : ℝ, 0 < sigmoid Real.exp x ∧ sigmoid Real.exp x < 1)
    ∧ sigmoid Real.exp 0 = 1 / 2 := by
  refine ⟨fun _ => rfl, sigmoid_lt, sigmoid_mem_Ioo, ?_⟩
  unfold sigmoid
  rw [neg_zero, Real.exp_zero]
  norm_num

/-- C8 at `x = 0`, `y = 1`. -/
theorem sigmoid_properties_witness :
    (0 : ℝ) < 1 ∧ sigmoid Real.exp 0 < sigmoid Real.exp 1 :=
  ⟨one_pos, sigmoid_properties.2.1 0 1 one_pos⟩

/-! ## Pooled values lie in the open unit interval -/

/-- Inside the square covered by `applySigmoid`, every cell is a value of `sigmoid`. -/
theorem applySigmoid_bounds (matrix : Grid ℝ) (size : Int) (r c : Int)
    (hr : 0 ≤ r ∧ r < size) (hc : 0 ≤ c ∧ c < size) :
    0 < applySigmoid Real.exp matrix size r c ∧ applySigmoid Real.exp matrix size r c < 1 := by
  rw [applySigmoid_cell, if_pos ⟨hr.1, hr.2, hc.1, hc.2⟩]
  exact sigmoid_mem_Ioo _

/-- A pooled cell of a branch with `paddedSize ≥ 2` lies strictly between 0 and 1: the whole
2 × 2 window lies in the square covered by `applySigmoid`. -/
theorem branch_bounds (P K conv0 : Grid ℝ) (pooled0 : Grid (WithBot ℝ)) (ps kernelSize : Int)
    (hps : 2 ≤ ps) (y x : Int) (hy : 0 ≤ y ∧ y < (ps - 2).tdiv 2 + 1)
    (hx : 0 ≤ x ∧ x < (ps - 2).tdiv 2 + 1) :
    InUnitInterval
      (maxPooling (applySigmoid Real.exp (convolve2D P K conv0 ps kernelSize) ps) pooled0 ps
        2 2 y x) := by
  have hdiv : (ps - 2).tdiv 2 = (ps - 2) / 2 := Int.tdiv_eq_ediv (by omega) (by decide)
  rw [hdiv] at hy hx
  have b00 := applySigmoid_bounds (convolve2D P K conv0 ps kernelSize) ps (y * 2) (x * 2)
    (by omega) (by omega)
  have b01 := applySigmoid_bounds (convolve2D P K conv0 ps kernelSize) ps (y * 2) (x * 2 + 1)
    (by omega) (by omega)
  have b10 := applySigmoid_bounds (convolve2D P K conv0 ps kernelSize) ps (y * 2 + 1) (x * 2)
    (by omega) (by omega)
  have b11 := applySigmoid_bounds (convolve2D P K conv0 ps kernelSize) ps (y * 2 + 1)
    (x * 2 + 1) (by omega) (by omega)
  refine ⟨_, branch_cell Real.exp P K conv0 pooled0 ps kernelSize y x
    ⟨hy.1, by rw [hdiv]; exact hy.2⟩ ⟨hx.1, by rw [hdiv]; exact hx.2⟩, ?_, ?_⟩
  · exact lt_max_of_lt_left (lt_max_of_lt_left b00.1)
  · exact max_lt (max_lt b00.2 b01.2) (max_lt b10.2 b11.2)

/-- The range of the pooled values that `main` computes (a run inside the arrays is
assumed here, see `pooled_in_unit_interval_within_capacity`).  For an input of size `n ≥ 2` and kernels of size `k ≥ 1`, whatever the arrays held
before, every cell `(y, x)` with `0 ≤ y, x < outputSize` (the `outputSize` that `main`
computes) of each of the three pooled arrays, in both programs, is a real number strictly
greater than 0 and strictly less than 1. -/
theorem pooled_in_unit_interval (n k : Nat) (hn : 2 ≤ n) (hk : 1 ≤ k) (G K1 K2 K3 : Grid ℝ)
    (heap : SerialDM.Heap ℝ) (mem : Buffers ℝ) (y x : Int) :
    (0 ≤ y → y < (Serial.main Real.exp ⟨n, G⟩ ⟨k, K1⟩ ⟨k, K2⟩ ⟨k, K3⟩ mem).outputSize →
      0 ≤ x → x < (Serial.main Real.exp ⟨n, G⟩ ⟨k, K1⟩ ⟨k, K2⟩ ⟨k, K3⟩ mem).outputSize →
      InUnitInterval
          ((Serial.main Real.exp ⟨n, G⟩ ⟨k, K1⟩ ⟨k, K2⟩ ⟨k, K3⟩ mem).pooled1 y x)
        ∧ InUnitInterval
          ((Serial.main Real.exp ⟨n, G⟩ ⟨k, K1⟩ ⟨k, K2⟩ ⟨k, K3⟩ mem).pooled2 y x)
        ∧ InUnitInterval
          ((Serial.main Real.exp ⟨n, G⟩ ⟨k, K1⟩ ⟨k, K2⟩ ⟨k, K3⟩ mem).pooled3 y x))
    ∧ (0 ≤ y →
      y < (SerialDM.main Real.exp ⟨n, G⟩ ⟨k, K1⟩ ⟨k, K2⟩ ⟨k, K3⟩ heap mem).outputSize →
      0 ≤ x →
      x < (SerialDM.main Real.exp ⟨n, G⟩ ⟨k, K1⟩ ⟨k, K2⟩ ⟨k, K3⟩ heap mem).outputSize →
      InUnitInterval
          ((SerialDM.main Real.exp ⟨n, G⟩ ⟨k, K1⟩ ⟨k, K2⟩ ⟨k, K3⟩ heap mem).pooled1 y x)
        ∧ InUnitInterval
          ((SerialDM.main Real.exp ⟨n, G⟩ ⟨k, K1⟩ ⟨k, K2⟩ ⟨k, K3⟩ heap mem).pooled2 y x)
        ∧ InUnitInterval
          ((SerialDM.main Real.exp ⟨n, G⟩ ⟨k, K1⟩ ⟨k, K2⟩ ⟨k, K3⟩ heap mem).pooled3 y x)) := by
  have hpw : (k : Int).tdiv 2 = ((k / 2 : Nat) : Int) := (Int.ofNat_tdiv k 2).symm
  constructor
  · intro hy0 hy hx0 hx
    have hps : (2 : Int) ≤ (n : Int) + (k : Int) - 1 := by omega
    exact ⟨branch_bounds _ _ mem.conv1 mem.pooled1 _ (k : Int) hps y x ⟨hy0, hy⟩ ⟨hx0, hx⟩,
      branch_bounds _ _ mem.conv2 mem.pooled2 _ (k : Int) hps y x ⟨hy0, hy⟩ ⟨hx0, hx⟩,
      branch_bounds _ _ mem.conv3 mem.pooled3 _ (k : Int) hps y x ⟨hy0, hy⟩ ⟨hx0, hx⟩⟩
  · intro hy0 hy hx0 hx
    have hps : (2 : Int) ≤ (n : Int) + (k : Int).tdiv 2 * 2 := by rw [hpw]; omega
    exact ⟨branch_bounds _ _ mem.conv1 mem.pooled1 _ (k : Int) hps y x ⟨hy0, hy⟩ ⟨hx0, hx⟩,
      branch_bounds _ _ mem.conv2 mem.pooled2 _ (k : Int) hps y x ⟨hy0, hy⟩ ⟨hx0, hx⟩,
      branch_bounds _ _ mem.conv3 mem.pooled3 _ (k : Int) hps y x ⟨hy0, hy⟩ ⟨hx0, hx⟩⟩

/-! ## C5: the pooled dimension that `main` uses -/

/-- C5, the programs at input size 5 and kernel size 3: `paddedSize` is 7 and `convolve2D`
writes `7 - 3 + 1 = 5` rows and columns, but `main` gives `paddedSize` (not 5) to
`maxPooling` and to the computation of `outputSize`, so the pooled dimension is
`(7 - 2) / 2 + 1 = 3` and not `(convSize - 2) / 2 + 1 = 2` with
`convSize = paddedSize - kernelSize + 1`. -/
theorem main_outputSize_scenario {α : Type} [LinearOrderedField α] (exp : α → α)
    (G K1 K2 K3 : Grid α) (heap : SerialDM.Heap α) (mem : Buffers α) :
    ((Serial.main exp ⟨5, G⟩ ⟨3, K1⟩ ⟨3, K2⟩ ⟨3, K3⟩ mem).paddedSize = 7
      ∧ (Serial.main exp ⟨5, G⟩ ⟨3, K1⟩ ⟨3, K2⟩ ⟨3, K3⟩ mem).outputSize = 3
      ∧ ((Serial.main exp ⟨5, G⟩ ⟨3, K1⟩ ⟨3, K2⟩ ⟨3, K3⟩ mem).paddedSize - 3 + 1 - 2).tdiv 2
          + 1 = 2)
    ∧ ((SerialDM.main exp ⟨5, G⟩ ⟨3, K1⟩ ⟨3, K2⟩ ⟨3, K3⟩ heap mem).paddedSize = 7
      ∧ (SerialDM.main exp ⟨5, G⟩ ⟨3, K1⟩ ⟨3, K2⟩ ⟨3, K3⟩ heap mem).outputSize = 3
      ∧ ((SerialDM.main exp ⟨5, G⟩ ⟨3, K1⟩ ⟨3, K2⟩ ⟨3, K3⟩ heap mem).paddedSize - 3 + 1
          - 2).tdiv 2 + 1 = 2) := by
  exact ⟨⟨rfl, rfl, rfl⟩, ⟨rfl, rfl, rfl⟩⟩

/-! ## C6: dependence on the initial contents of the convolution arrays -/

/-- A pooled cell whose window lies outside the square written by `convolve2D` but inside
the square covered by `applySigmoid` is computed from the previous contents of the
convolution array. -/
theorem branch_unwritten {α : Type} [LinearOrderedField α] (exp : α → α) (P K conv0 : Grid α)
    (pooled0 : Grid (WithBot α)) (ps kernelSize : Int) (y x : Int)
    (hy : 0 ≤ y ∧ y < (ps - 2).tdiv 2 + 1) (hx : 0 ≤ x ∧ x < (ps - 2).tdiv 2 + 1)
    (hin : y * 2 + 1 < ps ∧ x * 2 + 1 < ps)
    (hout : ps - kernelSize + 1 ≤ y * 2 ∧ ps - kernelSize + 1 ≤ x * 2) :
    maxPooling (applySigmoid exp (convolve2D P K conv0 ps kernelSize) ps) pooled0 ps 2 2 y x
      = ((max
          (max (sigmoid exp (conv0 (y * 2) (x * 2))) (sigmoid exp (conv0 (y * 2) (x * 2 + 1))))
          (max (sigmoid exp (conv0 (y * 2 + 1) (x * 2)))
            (sigmoid exp (conv0 (y * 2 + 1) (x * 2 + 1)))) : α) : WithBot α) := by
  have cell : ∀ r c : Int, 0 ≤ r → r < ps → 0 ≤ c → c < ps → ps - kernelSize + 1 ≤ r →
      applySigmoid exp (convolve2D P K conv0 ps kernelSize) ps r c
        = sigmoid exp (conv0 r c) := by
    intro r c hr0 hr hc0 hc hro
    have hn : ¬ (0 ≤ r ∧ r < ps - kernelSize + 1 ∧ 0 ≤ c ∧ c < ps - kernelSize + 1) := by
      omega
    rw [applySigmoid_cell, if_pos ⟨hr0, hr, hc0, hc⟩, convolve2D_cell, if_neg hn]
  rw [branch_cell exp P K conv0 pooled0 ps kernelSize y x hy hx,
    cell _ _ (by omega) (by omega) (by omega) (by omega) (by omega),
    cell _ _ (by omega) (by omega) (by omega) (by omega) (by omega),
    cell _ _ (by omega) (by omega) (by omega) (by omega) (by omega),
    cell _ _ (by omega) (by omega) (by omega) (by omega) (by omega)]

/-- C6, the programs at input size 2 and kernel size 3: `paddedSize` is 4, `convolve2D`
writes the cells `[0..1][0..1]` of `conv1`, `outputSize` is 2, and the serialized pooled cell
`(1, 1)` is `sigmoid` of what `conv1[2..3][2..3]` held before the run.  Two runs on the same
files whose arrays differ only in the initial contents of `conv1`, `conv2`, `conv3` (all
`0` in one run, all `1` in the other) write different values. -/
theorem main_depends_on_conv_contents :
    ((1 : Int) < (Serial.main Real.exp ⟨2, constGrid 1⟩ ⟨3, constGrid (1 / 9)⟩
        ⟨3, constGrid (1 / 9)⟩ ⟨3, constGrid (1 / 9)⟩ (constBuffers 0)).outputSize
      ∧ (Serial.main Real.exp ⟨2, constGrid 1⟩ ⟨3, constGrid (1 / 9)⟩
          ⟨3, constGrid (1 / 9)⟩ ⟨3, constGrid (1 / 9)⟩ (constBuffers 0)).pooled1 1 1
        ≠ (Serial.main Real.exp ⟨2, constGrid 1⟩ ⟨3, constGrid (1 / 9)⟩
          ⟨3, constGrid (1 / 9)⟩ ⟨3, constGrid (1 / 9)⟩ (constBuffers 1)).pooled1 1 1)
    ∧ ((1 : Int) < (SerialDM.main Real.exp ⟨2, constGrid 1⟩ ⟨3, constGrid (1 / 9)⟩
        ⟨3, constGrid (1 / 9)⟩ ⟨3, constGrid (1 / 9)⟩ (constHeap 0)
        (constBuffers 0)).outputSize
      ∧ (SerialDM.main Real.exp ⟨2, constGrid 1⟩ ⟨3, constGrid (1 / 9)⟩
          ⟨3, constGrid (1 / 9)⟩ ⟨3, constGrid (1 / 9)⟩ (constHeap 0)
          (constBuffers 0)).pooled1 1 1
        ≠ (SerialDM.main Real.exp ⟨2, constGrid 1⟩ ⟨3, constGrid (1 / 9)⟩
          ⟨3, constGrid (1 / 9)⟩ ⟨3, constGrid (1 / 9)⟩ (constHeap 0)
          (constBuffers 1)).pooled1 1 1) := by
  have hne : ((sigmoid Real.exp 0 : ℝ) : WithBot ℝ) ≠ ((sigmoid Real.exp 1 : ℝ) : WithBot ℝ) := by
    intro h
    exact absurd (WithBot.coe_injective h) (ne_of_lt (sigmoid_lt 0 1 one_pos))
  have serial : ∀ v : ℝ,
      (Serial.main Real.exp ⟨2, constGrid 1⟩ ⟨3, constGrid (1 / 9)⟩
          ⟨3, constGrid (1 / 9)⟩ ⟨3, constGrid (1 / 9)⟩ (constBuffers v)).pooled1 1 1
        = ((sigmoid Real.exp v : ℝ) : WithBot ℝ) := by
    intro v
    refine (branch_unwritten Real.exp _ _ (constGrid v) (constGrid ⊥) (2 + 3 - 1) 3 1 1
      (by decide) (by decide) (by decide) (by decide)).trans ?_
    simp only [constGrid, max_self]
  have dm : ∀ v : ℝ,
      (SerialDM.main Real.exp ⟨2, constGrid 1⟩ ⟨3, constGrid (1 / 9)⟩
          ⟨3, constGrid (1 / 9)⟩ ⟨3, constGrid (1 / 9)⟩ (constHeap 0)
          (constBuffers v)).pooled1 1 1
        = ((sigmoid Real.exp v : ℝ) : WithBot ℝ) := by
    intro v
    refine (branch_unwritten Real.exp _ _ (constGrid v) (constGrid ⊥)
      (2 + (3 : Int).tdiv 2 * 2) 3 1 1
      (by decide) (by decide) (by decide) (by decide)).trans ?_
    simp only [constGrid, max_self]
  refine ⟨⟨by decide, ?_⟩, ⟨by decide, ?_⟩⟩
  · rw [serial 0, serial 1]
    exact hne
  · rw [dm 0, dm 1]
    exact hne

/-! ## C7: the two programs on a kernel of even size -/

/-- C7, the programs at input size 2 and kernel size 2: `serial.c` computes `paddedSize`
as `inputSize + kernelSize - 1 = 3` (while its `zeroPad` fills `2 + 2 * (2 / 2) = 4` rows and
columns) and `outputSize = 1`; `serialDM.c` computes `paddedSize` as
`inputSize + (kernelSize / 2) * 2 = 4` and `outputSize = 2`. -/
theorem main_variants_even_kernel {α : Type} [LinearOrderedField α] (exp : α → α)
    (G K1 K2 K3 : Grid α) (heap : SerialDM.Heap α) (mem : Buffers α) :
    ((Serial.main exp ⟨2, G⟩ ⟨2, K1⟩ ⟨2, K2⟩ ⟨2, K3⟩ mem).paddedSize = 3
      ∧ (Serial.main exp ⟨2, G⟩ ⟨2, K1⟩ ⟨2, K2⟩ ⟨2, K3⟩ mem).outputSize = 1)
    ∧ ((SerialDM.main exp ⟨2, G⟩ ⟨2, K1⟩ ⟨2, K2⟩ ⟨2, K3⟩ heap mem).paddedSize = 4
      ∧ (SerialDM.main exp ⟨2, G⟩ ⟨2, K1⟩ ⟨2, K2⟩ ⟨2, K3⟩ heap mem).outputSize = 2) := by
  exact ⟨⟨rfl, rfl⟩, ⟨rfl, rfl⟩⟩

/-- The padded array does not depend on what the input array held outside the `n × n`
cells read from the file. -/
theorem zeroPad_read_indep {α : Type} [Zero α] (n : Nat) (G in0 in1 pad0 : Grid α)
    (p ps : Int) :
    SerialDM.zeroPad (readMatrixFromFile ⟨(n : Int), G⟩ in0).1 (n : Int) p pad0 ps
      = SerialDM.zeroPad (readMatrixFromFile ⟨(n : Int), G⟩ in1).1 (n : Int) p pad0 ps := by
  funext r c
  rw [SerialDM.zeroPad_cell, SerialDM.zeroPad_cell]
  by_cases hh : r < p ∨ c < p ∨ r ≥ (n : Int) + p ∨ c ≥ (n : Int) + p
  · rw [if_pos hh, if_pos hh]
  · rw [if_neg hh, if_neg hh,
      read_input n G in0 _ _ (by omega) (by omega) (by omega) (by omega),
      read_input n G in1 _ _ (by omega) (by omega) (by omega) (by omega)]

/-- The convolution does not depend on what the kernel array held outside the `k × k`
cells read from the file. -/
theorem convolve2D_read_indep {α : Type} [Field α] (k : Nat) (P K k0 k1 conv0 : Grid α)
    (ps : Int) :
    convolve2D P (readMatrixFromFile ⟨(k : Int), K⟩ k0).1 conv0 ps (k : Int)
      = convolve2D P (readMatrixFromFile ⟨(k : Int), K⟩ k1).1 conv0 ps (k : Int) := by
  funext r c
  rw [convolve2D_cell, convolve2D_cell, Int.toNat_ofNat]
  congr 1
  refine windowSum_congr _ _ _ _ k r c (fun _ _ _ _ => rfl) (fun a b ha hb => ?_)
  rw [read_input k K k0 a b (by omega) (by omega) (by omega) (by omega),
    read_input k K k1 a b (by omega) (by omega) (by omega) (by omega)]

/-- For a kernel of odd size the two programs compute the same `paddedSize`, the same
`outputSize` and the same three pooled arrays from the same files and the same initial
contents of the local arrays. -/
theorem main_variants_agree_odd {α : Type} [LinearOrderedField α] (exp : α → α) (n k : Nat)
    (hodd : k % 2 = 1) (G K1 K2 K3 : Grid α) (heap : SerialDM.Heap α) (mem : Buffers α) :
    (Serial.main exp ⟨n, G⟩ ⟨k, K1⟩ ⟨k, K2⟩ ⟨k, K3⟩ mem).paddedSize
        = (SerialDM.main exp ⟨n, G⟩ ⟨k, K1⟩ ⟨k, K2⟩ ⟨k, K3⟩ heap mem).paddedSize
    ∧ (Serial.main exp ⟨n, G⟩ ⟨k, K1⟩ ⟨k, K2⟩ ⟨k, K3⟩ mem).outputSize
        = (SerialDM.main exp ⟨n, G⟩ ⟨k, K1⟩ ⟨k, K2⟩ ⟨k, K3⟩ heap mem).outputSize
    ∧ (Serial.main exp ⟨n, G⟩ ⟨k, K1⟩ ⟨k, K2⟩ ⟨k, K3⟩ mem).pooled1
        = (SerialDM.main exp ⟨n, G⟩ ⟨k, K1⟩ ⟨k, K2⟩ ⟨k, K3⟩ heap mem).pooled1
    ∧ (Serial.main exp ⟨n, G⟩ ⟨k, K1⟩ ⟨k, K2⟩ ⟨k, K3⟩ mem).pooled2
        = (SerialDM.main exp ⟨n, G⟩ ⟨k, K1⟩ ⟨k, K2⟩ ⟨k, K3⟩ heap mem).pooled2
    ∧ (Serial.main exp ⟨n, G⟩ ⟨k, K1⟩ ⟨k, K2⟩ ⟨k, K3⟩ mem).pooled3
        = (SerialDM.main exp ⟨n, G⟩ ⟨k, K1⟩ ⟨k, K2⟩ ⟨k, K3⟩ heap mem).pooled3 := by
  have hpw : (k : Int).tdiv 2 = ((k / 2 : Nat) : Int) := (Int.ofNat_tdiv k 2).symm
  have hps : (n : Int) + (k : Int).tdiv 2 * 2 = (n : Int) + (k : Int) - 1 := by
    rw [hpw]; omega
  have hfill : (n : Int) + 2 * (k : Int).tdiv 2 = (n : Int) + (k : Int) - 1 := by
    rw [hpw]; omega
  have key : ∀ (K k0 k1 conv0 : Grid α) (pooled0 : Grid (WithBot α)),
      maxPooling (applySigmoid exp (convolve2D
          (Serial.zeroPad (readMatrixFromFile ⟨(n : Int), G⟩ (fun _ _ => 0)).1 (n : Int)
            ((k : Int).tdiv 2) mem.paddedInput)
          (readMatrixFromFile ⟨(k : Int), K⟩ k0).1 conv0 ((n : Int) + (k : Int) - 1) (k : Int))
          ((n : Int) + (k : Int) - 1)) pooled0 ((n : Int) + (k : Int) - 1) 2 2
        = maxPooling (applySigmoid exp (convolve2D
          (SerialDM.zeroPad (readMatrixFromFile ⟨(n : Int), G⟩ heap.input).1 (n : Int)
            ((k : Int).tdiv 2) mem.paddedInput ((n : Int) + (k : Int).tdiv 2 * 2))
          (readMatrixFromFile ⟨(k : Int), K⟩ k1).1 conv0 ((n : Int) + (k : Int).tdiv 2 * 2)
          (k : Int))
          ((n : Int) + (k : Int).tdiv 2 * 2)) pooled0 ((n : Int) + (k : Int).tdiv 2 * 2) 2 2 := by
    intro K k0 k1 conv0 pooled0
    rw [hps, Serial.zeroPad_eq, hfill,
      zeroPad_read_indep n G (fun _ _ => 0) heap.input mem.paddedInput _ _,
      convolve2D_read_indep k _ K k0 k1 conv0 _]
  exact ⟨hps.symm, congrArg (fun s : Int => (s - 2).tdiv 2 + 1) hps.symm,
    key K1 _ _ mem.conv1 mem.pooled1, key K2 _ _ mem.conv2 mem.pooled2,
    key K3 _ _ mem.conv3 mem.pooled3⟩

/-! ## Pooling windows larger than the input -/

/-- With `poolSize - inputSize ≥ stride ≥ 1`, the `outputSize` of `maxPooling` is not
positive (C division truncates toward zero). -/
theorem pool_outputSize_nonpos (inputSize poolSize stride : Int) (hs : 1 ≤ stride)
    (hd : stride ≤ poolSize - inputSize) : (inputSize - poolSize).tdiv stride + 1 ≤ 0 := by
  have e : inputSize - poolSize = -(poolSize - inputSize) := by omega
  have h1 : (poolSize - inputSize).tdiv stride = (poolSize - inputSize) / stride :=
    Int.tdiv_eq_ediv (by omega) (by omega)
  have h2 : 1 ≤ (poolSize - inputSize) / stride :=
    Int.le_ediv_of_mul_le (by omega) (by omega)
  rw [e, Int.neg_tdiv, h1]
  omega

/-! ## C13: identity-like kernel -/

/-- A window sum with a kernel that is `1` at `(c, c)` and `0` in every other cell below
`k` is the input cell under the kernel cell `(c, c)`. -/
theorem windowSum_single {α : Type} [Field α] (P K : Grid α) (k c : Nat) (hc : c < k)
    (hone : K (c : Int) (c : Int) = 1)
    (hzero : ∀ i j : Nat, i < k → j < k → ¬ (i = c ∧ j = c) → K (i : Int) (j : Int) = 0)
    (y x : Int) :
    windowSum P K k y x = P (y + (c : Int)) (x + (c : Int)) := by
  unfold windowSum
  rw [Finset.sum_eq_single c]
  · rw [Finset.sum_eq_single c]
    · rw [hone, mul_one]
    · intro b hb hbc
      rw [hzero c b hc (Finset.mem_range.mp hb) (fun h => hbc h.2), mul_zero]
    · intro h
      exact absurd (Finset.mem_range.mpr hc) h
  · intro a ha hac
    refine Finset.sum_eq_zero (fun b hb => ?_)
    rw [hzero a b (Finset.mem_range.mp ha) (Finset.mem_range.mp hb) (fun h => hac h.1),
      mul_zero]
  · intro h
    exact absurd (Finset.mem_range.mpr hc) h

/-- C13. For an odd `kernelSize = k ≥ 1`, `inputSize = n ≥ k` and a kernel with
`kernel[k/2][k/2] = 1` and `0` in every other cell `0 ≤ i, j < k`, `convolve2D` writes the
square of size `n - k + 1` (every other cell of the output array keeps its contents) and
`output[y][x] = input[y + k/2][x + k/2]` for all `0 ≤ y, x < n - k + 1`. -/
theorem convolve2D_identity_kernel {α : Type} [Field α] (n k : Nat) (hodd : k % 2 = 1)
    (hkn : k ≤ n) (input kernel output : Grid α)
    (hone : kernel ((k / 2 : Nat) : Int) ((k / 2 : Nat) : Int) = 1)
    (hzero : ∀ i j : Nat, i < k → j < k → ¬ (i = k / 2 ∧ j = k / 2) →
      kernel (i : Int) (j : Int) = 0) :
    (∀ y x : Nat, y < n - k + 1 → x < n - k + 1 →
        convolve2D input kernel output (n : Int) (k : Int) (y : Int) (x : Int)
          = input ((y : Int) + ((k / 2 : Nat) : Int)) ((x : Int) + ((k / 2 : Nat) : Int)))
    ∧ (∀ r c : Int, ¬ (0 ≤ r ∧ r < (n : Int) - (k : Int) + 1
          ∧ 0 ≤ c ∧ c < (n : Int) - (k : Int) + 1) →
        convolve2D input kernel output (n : Int) (k : Int) r c = output r c) := by
  constructor
  · intro y x hy hx
    have h1 : 0 ≤ (y : Int) ∧ (y : Int) < (n : Int) - (k : Int) + 1
        ∧ 0 ≤ (x : Int) ∧ (x : Int) < (n : Int) - (k : Int) + 1 := by omega
    rw [convolve2D_cell, if_pos h1, Int.toNat_ofNat]
    exact windowSum_single input kernel k (k / 2) (by omega) hone hzero _ _
  · intro r c hrc
    rw [convolve2D_cell, if_neg hrc]

/-- The 3 × 3 kernel `[[0,0,0],[0,1,0],[0,0,0]]` is `0` in its eight cells other than the
centre `(1, 1)`. -/
theorem identity3x3_zero (i j : Nat) (hi : i < 3) (hj : j < 3)
    (hij : ¬ (i = 3 / 2 ∧ j = 3 / 2)) : identity3x3 (i : Int) (j : Int) = 0 := by
  interval_cases i <;> interval_cases j <;>
    first
      | exact absurd (by decide) hij
      | simp [identity3x3, ofRows]

/-- C13 at the 4 × 4 input `[[1,2,3,4],[5,6,7,8],[9,10,11,12],[13,14,15,16]]` with the 3 × 3
kernel `[[0,0,0],[0,1,0],[0,0,0]]`: the output cell `(1, 0)` is
`input[1 + 1][0 + 1] = input[2][1] = 10`, and the cell `(2, 2)`, outside the written 2 × 2
square, keeps its previous contents `7`. -/
theorem convolve2D_identity_kernel_witness :
    (3 % 2 = 1 ∧ 3 ≤ 4 ∧ 1 < 4 - 3 + 1 ∧ 0 < 4 - 3 + 1)
    ∧ identity3x3 ((3 / 2 : Nat) : Int) ((3 / 2 : Nat) : Int) = 1
    ∧ convolve2D grid4x4 identity3x3 (constGrid 7) ((4 : Nat) : Int) ((3 : Nat) : Int)
        ((1 : Nat) : Int) ((0 : Nat) : Int)
      = grid4x4 (((1 : Nat) : Int) + ((3 / 2 : Nat) : Int))
          (((0 : Nat) : Int) + ((3 / 2 : Nat) : Int))
    ∧ grid4x4 (((1 : Nat) : Int) + ((3 / 2 : Nat) : Int))
          (((0 : Nat) : Int) + ((3 / 2 : Nat) : Int)) = 10
    ∧ convolve2D grid4x4 identity3x3 (constGrid 7) ((4 : Nat) : Int) ((3 : Nat) : Int) 2 2
      = (constGrid 7 : Grid ℚ) 2 2 :=
  ⟨by decide,
   by simp [identity3x3, ofRows],
   (convolve2D_identity_kernel 4 3 (by decide) (by decide) grid4x4 identity3x3
      (constGrid 7) (by simp [identity3x3, ofRows]) identity3x3_zero).1 1 0
      (by decide) (by decide),
   by simp [grid4x4, ofRows],
   (convolve2D_identity_kernel 4 3 (by decide) (by decide) grid4x4 identity3x3
      (constGrid 7) (by simp [identity3x3, ofRows]) identity3x3_zero).2 2 2
      (by decide)⟩

/-! ## C15: zero kernel -/

/-- C15. For `inputSize = n ≥ 3` and a 3 × 3 kernel whose nine entries are `0`,
`convolve2D` writes `0` into every output cell `(y, x)` with `0 ≤ y, x < n - 2`. -/
theorem convolve2D_zero_kernel {α : Type} [Field α] (n : Nat) (hn : 3 ≤ n)
    (input kernel output : Grid α)
    (hzero : ∀ i j : Nat, i < 3 → j < 3 → kernel (i : Int) (j : Int) = 0)
    (y x : Nat) (hy : y < n - 2) (hx : x < n - 2) :
    convolve2D input kernel output (n : Int) 3 (y : Int) (x : Int) = 0 := by
  have h1 : 0 ≤ (y : Int) ∧ (y : Int) < (n : Int) - 3 + 1
      ∧ 0 ≤ (x : Int) ∧ (x : Int) < (n : Int) - 3 + 1 := by omega
  rw [convolve2D_cell, if_pos h1]
  unfold windowSum
  refine Finset.sum_eq_zero (fun a ha => Finset.sum_eq_zero (fun b hb => ?_))
  have ha3 : a < 3 := Finset.mem_range.mp ha
  have hb3 : b < 3 := Finset.mem_range.mp hb
  rw [hzero a b ha3 hb3, mul_zero]

/-- C15 at the 4 × 4 input `[[1,2,3,4],...,[13,14,15,16]]` (as rationals) with the zero
kernel: the output cell `(1, 1)` is `0`. -/
theorem convolve2D_zero_kernel_witness :
    (3 ≤ 4 ∧ 1 < 4 - 2)
    ∧ convolve2D (ofRows [[1, 2, 3, 4], [5, 6, 7, 8], [9, 10, 11, 12], [13, 14, 15, 16]] 0)
        (constGrid (0 : ℚ)) (constGrid 7) ((4 : Nat) : Int) 3 ((1 : Nat) : Int)
        ((1 : Nat) : Int) = 0 :=
  ⟨by decide,
   convolve2D_zero_kernel 4 (by decide) _ (constGrid 0) (constGrid 7)
     (fun _ _ _ _ => rfl) 1 1 (by decide) (by decide)⟩

/-! ## C14: pooling with a 1 × 1 window and stride 1 -/

/-- C14. `maxPooling` with `poolSize = stride = 1` is the identity: for `inputSize = n ≥ 1`
the computed `outputSize` is `n` and `output[y][x] = input[y][x]` for all `0 ≤ y, x < n`. -/
theorem maxPooling_identity {α : Type} [LinearOrder α] (n : Nat) (hn : 1 ≤ n)
    (input : Grid α) (output : Grid (WithBot α)) :
    maxPoolingOutputSize (n : Int) 1 1 = (n : Int)
    ∧ (∀ y x : Nat, y < n → x < n →
        maxPooling input output (n : Int) 1 1 (y : Int) (x : Int)
          = ((input (y : Int) (x : Int) : α) : WithBot α)) := by
  have hos : ((n : Int) - 1).tdiv 1 + 1 = (n : Int) := by
    have h := tdiv_cast_sub n 1 1 hn
    rw [Nat.div_one] at h
    simp only [Nat.cast_one] at h
    rw [h]
    omega
  refine ⟨hos, fun y x hy hx => ?_⟩
  have h1 : 0 ≤ (y : Int) ∧ (y : Int) < ((n : Int) - 1).tdiv 1 + 1
      ∧ 0 ≤ (x : Int) ∧ (x : Int) < ((n : Int) - 1).tdiv 1 + 1 := by
    rw [hos]; omega
  rw [maxPooling_cell, if_pos h1]
  simp only [windowMax, Int.toNat_one, Finset.range_one, Finset.sup_singleton,
    Nat.cast_zero, add_zero, mul_one]

/-- C14 at the 4 × 4 input `[[1,2,3,4],...,[13,14,15,16]]`: `outputSize` is 4 and the output
cell `(2, 1)` is `input[2][1] = 10`. -/
theorem maxPooling_identity_witness :
    (1 ≤ 4 ∧ 2 < 4 ∧ 1 < 4)
    ∧ maxPoolingOutputSize ((4 : Nat) : Int) 1 1 = ((4 : Nat) : Int)
    ∧ maxPooling pool4x4 (constGrid ⊥) ((4 : Nat) : Int) 1 1 ((2 : Nat) : Int)
        ((1 : Nat) : Int) = ((pool4x4 ((2 : Nat) : Int) ((1 : Nat) : Int) : Int) : WithBot Int)
    ∧ pool4x4 2 1 = 10 :=
  ⟨by decide, (maxPooling_identity 4 (by decide) pool4x4 (constGrid ⊥)).1,
   (maxPooling_identity 4 (by decide) pool4x4 (constGrid ⊥)).2 2 1 (by decide) (by decide),
   by decide⟩

/-! ## Same-size convolution in the pipeline -/

/-- The input surrounded by zeros, read at `(r, c)`, is the input read with zeros outside
at `(r - p, c - p)`. -/
theorem padded_eq_inputOrZero {α : Type} [Zero α] (G : Grid α) (n p r c : Int) :
    padded G n p r c = inputOrZero G n (r - p) (c - p) := by
  unfold padded inputOrZero
  by_cases h : p ≤ r ∧ r < n + p ∧ p ≤ c ∧ c < n + p
  · have h2 : 0 ≤ r - p ∧ r - p < n ∧ 0 ≤ c - p ∧ c - p < n := by omega
    rw [if_pos h, if_pos h2]
  · have h2 : ¬ (0 ≤ r - p ∧ r - p < n ∧ 0 ≤ c - p ∧ c - p < n) := by omega
    rw [if_neg h, if_neg h2]

/-- A cell of the `n × n` square after `convolve2D` on a padded array and a kernel array
that agree with `padded G n (k/2)` and `K` where they are read. -/
theorem convolve2D_centred {α : Type} [Field α] (G K P Kbuf conv0 : Grid α) (n k : Nat)
    (ps fill : Int) (hcover : (n : Int) ≤ ps - (k : Int) + 1)
    (hfill : (n : Int) + (k : Int) - 1 ≤ fill)
    (hP : ∀ r c : Int, 0 ≤ r → r < fill → 0 ≤ c → c < fill →
      P r c = padded G n ((k / 2 : Nat) : Int) r c)
    (hK : ∀ a b : Nat, a < k → b < k → Kbuf (a : Int) (b : Int) = K (a : Int) (b : Int))
    (y x : Nat) (hy : y < n) (hx : x < n) :
    convolve2D P Kbuf conv0 ps (k : Int) (y : Int) (x : Int) = centredSum G n k K y x := by
  have h1 : 0 ≤ (y : Int) ∧ (y : Int) < ps - (k : Int) + 1
      ∧ 0 ≤ (x : Int) ∧ (x : Int) < ps - (k : Int) + 1 := by omega
  rw [convolve2D_cell, if_pos h1, Int.toNat_ofNat]
  unfold windowSum centredSum
  refine Finset.sum_congr rfl (fun a ha => Finset.sum_congr rfl (fun b hb => ?_))
  have ha2 : a < k := Finset.mem_range.mp ha
  have hb2 : b < k := Finset.mem_range.mp hb
  rw [hP _ _ (by omega) (by omega) (by omega) (by omega), hK a b ha2 hb2,
    padded_eq_inputOrZero]

/-- The padded array of `main` of `serial.c` agrees with the input surrounded by zeros on
the square that `zeroPad` fills. -/
theorem serial_paddedInput_cell {α : Type} [LinearOrderedField α] (exp : α → α) (n k : Nat)
    (G K1 K2 K3 : Grid α) (mem : Buffers α) (r c : Int)
    (hr0 : 0 ≤ r) (hr : r < (n : Int) + 2 * ((k / 2 : Nat) : Int))
    (hc0 : 0 ≤ c) (hc : c < (n : Int) + 2 * ((k / 2 : Nat) : Int)) :
    (Serial.main exp ⟨n, G⟩ ⟨k, K1⟩ ⟨k, K2⟩ ⟨k, K3⟩ mem).paddedInput r c
      = padded G n ((k / 2 : Nat) : Int) r c := by
  have hpw : (k : Int).tdiv 2 = ((k / 2 : Nat) : Int) := (Int.ofNat_tdiv k 2).symm
  have h : (Serial.main exp ⟨n, G⟩ ⟨k, K1⟩ ⟨k, K2⟩ ⟨k, K3⟩ mem).paddedInput
      = SerialDM.zeroPad (readMatrixFromFile ⟨(n : Int), G⟩ (fun _ _ => 0)).1 (n : Int)
          ((k : Int).tdiv 2) mem.paddedInput ((n : Int) + 2 * (k : Int).tdiv 2) := rfl
  rw [h, hpw]
  exact zeroPad_padded G _ mem.paddedInput (n : Int) ((k / 2 : Nat) : Int)
    (fun r c h1 h2 h3 h4 => read_input n G _ r c h1 h2 h3 h4) r c hr0 hr hc0 hc

/-- The padded array of `main` of `serialDM.c` agrees with the input surrounded by zeros
on the square that `zeroPad` fills. -/
theorem serialDM_paddedInput_cell {α : Type} [LinearOrderedField α] (exp : α → α)
    (n k : Nat) (G K1 K2 K3 : Grid α) (heap : SerialDM.Heap α) (mem : Buffers α) (r c : Int)
    (hr0 : 0 ≤ r) (hr : r < (n : Int) + 2 * ((k / 2 : Nat) : Int))
    (hc0 : 0 ≤ c) (hc : c < (n : Int) + 2 * ((k / 2 : Nat) : Int)) :
    (SerialDM.main exp ⟨n, G⟩ ⟨k, K1⟩ ⟨k, K2⟩ ⟨k, K3⟩ heap mem).paddedInput r c
      = padded G n ((k / 2 : Nat) : Int) r c := by
  have hpw : (k : Int).tdiv 2 = ((k / 2 : Nat) : Int) := (Int.ofNat_tdiv k 2).symm
  have hps : (n : Int) + ((k / 2 : Nat) : Int) * 2 = (n : Int) + 2 * ((k / 2 : Nat) : Int) := by
    omega
  have h : (SerialDM.main exp ⟨n, G⟩ ⟨k, K1⟩ ⟨k, K2⟩ ⟨k, K3⟩ heap mem).paddedInput
      = SerialDM.zeroPad (readMatrixFromFile ⟨(n : Int), G⟩ heap.input).1 (n : Int)
          ((k : Int).tdiv 2) mem.paddedInput ((n : Int) + (k : Int).tdiv 2 * 2) := rfl
  rw [h, hpw, hps]
  exact zeroPad_padded G _ mem.paddedInput (n : Int) ((k / 2 : Nat) : Int)
    (fun r c h1 h2 h3 h4 => read_input n G _ r c h1 h2 h3 h4) r c hr0 hr hc0 hc

/-- The convolution values that `main` computes (a run inside the arrays is assumed here,
see `main_same_size_convolution_within_capacity`).  For an input of size `n ≥ 1` and kernels of odd size `k`, in both programs the
square that `convolve2D` writes has dimension `paddedSize - kernelSize + 1 = n`, and for
all `0 ≤ y, x < n` the cell `(y, x)` that each `convolve2D` call of `main` writes (for the
kernel `K` read into a kernel array, whatever the kernel and convolution arrays held
before) is `Σ_{a<k} Σ_{b<k} in(y + a - k/2, x + b - k/2) * K[a][b]`, where `in(r, c)` is
`input[r][c]` for `0 ≤ r, c < n` and `0` otherwise; the arrays `conv1`, `conv2`, `conv3`
then hold `sigmoid` of these sums. -/
theorem main_same_size_convolution {α : Type} [LinearOrderedField α] (exp : α → α)
    (n k : Nat) (hn : 1 ≤ n) (hodd : k % 2 = 1) (G K1 K2 K3 : Grid α)
    (heap : SerialDM.Heap α) (mem : Buffers α) :
    ((Serial.main exp ⟨n, G⟩ ⟨k, K1⟩ ⟨k, K2⟩ ⟨k, K3⟩ mem).paddedSize - (k : Int) + 1 = (n : Int)
      ∧ (SerialDM.main exp ⟨n, G⟩ ⟨k, K1⟩ ⟨k, K2⟩ ⟨k, K3⟩ heap mem).paddedSize - (k : Int) + 1
          = (n : Int))
    ∧ (∀ (K k0 conv0 : Grid α) (y x : Nat), y < n → x < n →
        convolve2D (Serial.main exp ⟨n, G⟩ ⟨k, K1⟩ ⟨k, K2⟩ ⟨k, K3⟩ mem).paddedInput
            (readMatrixFromFile ⟨(k : Int), K⟩ k0).1 conv0
            (Serial.main exp ⟨n, G⟩ ⟨k, K1⟩ ⟨k, K2⟩ ⟨k, K3⟩ mem).paddedSize (k : Int)
            (y : Int) (x : Int)
          = centredSum G n k K y x
        ∧ convolve2D
            (SerialDM.main exp ⟨n, G⟩ ⟨k, K1⟩ ⟨k, K2⟩ ⟨k, K3⟩ heap mem).paddedInput
            (readMatrixFromFile ⟨(k : Int), K⟩ k0).1 conv0
            (SerialDM.main exp ⟨n, G⟩ ⟨k, K1⟩ ⟨k, K2⟩ ⟨k, K3⟩ heap mem).paddedSize (k : Int)
            (y : Int) (x : Int)
          = centredSum G n k K y x)
    ∧ (∀ y x : Nat, y < n → x < n →
        ((Serial.main exp ⟨n, G⟩ ⟨k, K1⟩ ⟨k, K2⟩ ⟨k, K3⟩ mem).conv1 y x
            = sigmoid exp (centredSum G n k K1 y x)
          ∧ (Serial.main exp ⟨n, G⟩ ⟨k, K1⟩ ⟨k, K2⟩ ⟨k, K3⟩ mem).conv2 y x
            = sigmoid exp (centredSum G n k K2 y x)
          ∧ (Serial.main exp ⟨n, G⟩ ⟨k, K1⟩ ⟨k, K2⟩ ⟨k, K3⟩ mem).conv3 y x
            = sigmoid exp (centredSum G n k K3 y x))
        ∧ ((SerialDM.main exp ⟨n, G⟩ ⟨k, K1⟩ ⟨k, K2⟩ ⟨k, K3⟩ heap mem).conv1 y x
            = sigmoid exp (centredSum G n k K1 y x)
          ∧ (SerialDM.main exp ⟨n, G⟩ ⟨k, K1⟩ ⟨k, K2⟩ ⟨k, K3⟩ heap mem).conv2 y x
            = sigmoid exp (centredSum G n k K2 y x)
          ∧ (SerialDM.main exp ⟨n, G⟩ ⟨k, K1⟩ ⟨k, K2⟩ ⟨k, K3⟩ heap mem).conv3 y x
            = sigmoid exp (centredSum G n k K3 y x))) := by
  have hpw : (k : Int).tdiv 2 = ((k / 2 : Nat) : Int) := (Int.ofNat_tdiv k 2).symm
  have hs : (Serial.main exp ⟨n, G⟩ ⟨k, K1⟩ ⟨k, K2⟩ ⟨k, K3⟩ mem).paddedSize
      = (n : Int) + (k : Int) - 1 := rfl
  have hd : (SerialDM.main exp ⟨n, G⟩ ⟨k, K1⟩ ⟨k, K2⟩ ⟨k, K3⟩ heap mem).paddedSize
      = (n : Int) + (k : Int) - 1 := by
    have h0 : (SerialDM.main exp ⟨n, G⟩ ⟨k, K1⟩ ⟨k, K2⟩ ⟨k, K3⟩ heap mem).paddedSize
        = (n : Int) + (k : Int).tdiv 2 * 2 := rfl
    rw [h0, hpw]; omega
  have convS : ∀ (K k0 conv0 : Grid α) (y x : Nat), y < n → x < n →
      convolve2D (Serial.main exp ⟨n, G⟩ ⟨k, K1⟩ ⟨k, K2⟩ ⟨k, K3⟩ mem).paddedInput
          (readMatrixFromFile ⟨(k : Int), K⟩ k0).1 conv0
          (Serial.main exp ⟨n, G⟩ ⟨k, K1⟩ ⟨k, K2⟩ ⟨k, K3⟩ mem).paddedSize (k : Int)
          (y : Int) (x : Int)
        = centredSum G n k K y x := by
    intro K k0 conv0 y x hy hx
    exact convolve2D_centred G K _ _ conv0 n k _ ((n : Int) + 2 * ((k / 2 : Nat) : Int))
      (by rw [hs]; omega) (by omega)
      (fun r c h1 h2 h3 h4 => serial_paddedInput_cell exp n k G K1 K2 K3 mem r c h1 h2 h3 h4)
      (fun a b ha hb => read_input k K k0 a b (by omega) (by omega) (by omega) (by omega))
      y x hy hx
  have convD : ∀ (K k0 conv0 : Grid α) (y x : Nat), y < n → x < n →
      convolve2D (SerialDM.main exp ⟨n, G⟩ ⟨k, K1⟩ ⟨k, K2⟩ ⟨k, K3⟩ heap mem).paddedInput
          (readMatrixFromFile ⟨(k : Int), K⟩ k0).1 conv0
          (SerialDM.main exp ⟨n, G⟩ ⟨k, K1⟩ ⟨k, K2⟩ ⟨k, K3⟩ heap mem).paddedSize (k : Int)
          (y : Int) (x : Int)
        = centredSum G n k K y x := by
    intro K k0 conv0 y x hy hx
    exact convolve2D_centred G K _ _ conv0 n k _ ((n : Int) + 2 * ((k / 2 : Nat) : Int))
      (by rw [hd]; omega) (by omega)
      (fun r c h1 h2 h3 h4 =>
        serialDM_paddedInput_cell exp n k G K1 K2 K3 heap mem r c h1 h2 h3 h4)
      (fun a b ha hb => read_input k K k0 a b (by omega) (by omega) (by omega) (by omega))
      y x hy hx
  have actS : ∀ (K k0 conv0 : Grid α) (y x : Nat), y < n → x < n →
      applySigmoid exp
          (convolve2D (Serial.main exp ⟨n, G⟩ ⟨k, K1⟩ ⟨k, K2⟩ ⟨k, K3⟩ mem).paddedInput
            (readMatrixFromFile ⟨(k : Int), K⟩ k0).1 conv0
            (Serial.main exp ⟨n, G⟩ ⟨k, K1⟩ ⟨k, K2⟩ ⟨k, K3⟩ mem).paddedSize (k : Int))
          (Serial.main exp ⟨n, G⟩ ⟨k, K1⟩ ⟨k, K2⟩ ⟨k, K3⟩ mem).paddedSize (y : Int) (x : Int)
        = sigmoid exp (centredSum G n k K y x) := by
    intro K k0 conv0 y x hy hx
    rw [applySigmoid_cell, if_pos (by rw [hs]; omega), convS K k0 conv0 y x hy hx]
  have actD : ∀ (K k0 conv0 : Grid α) (y x : Nat), y < n → x < n →
      applySigmoid exp
          (convolve2D (SerialDM.main exp ⟨n, G⟩ ⟨k, K1⟩ ⟨k, K2⟩ ⟨k, K3⟩ heap mem).paddedInput
            (readMatrixFromFile ⟨(k : Int), K⟩ k0).1 conv0
            (SerialDM.main exp ⟨n, G⟩ ⟨k, K1⟩ ⟨k, K2⟩ ⟨k, K3⟩ heap mem).paddedSize (k : Int))
          (SerialDM.main exp ⟨n, G⟩ ⟨k, K1⟩ ⟨k, K2⟩ ⟨k, K3⟩ heap mem).paddedSize
          (y : Int) (x : Int)
        = sigmoid exp (centredSum G n k K y x) := by
    intro K k0 conv0 y x hy hx
    rw [applySigmoid_cell, if_pos (by rw [hd]; omega), convD K k0 conv0 y x hy hx]
  refine ⟨⟨by rw [hs]; omega, by rw [hd]; omega⟩, ?_, ?_⟩
  · intro K k0 conv0 y x hy hx
    exact ⟨convS K k0 conv0 y x hy hx, convD K k0 conv0 y x hy hx⟩
  · intro y x hy hx
    exact ⟨⟨actS K1 _ mem.conv1 y x hy hx, actS K2 _ mem.conv2 y x hy hx,
        actS K3 _ mem.conv3 y x hy hx⟩,
      ⟨actD K1 _ mem.conv1 y x hy hx, actD K2 _ mem.conv2 y x hy hx,
        actD K3 _ mem.conv3 y x hy hx⟩⟩

/-! ## The kernel size read last is the one used -/

/-- The wiring of `main` (a run inside the arrays is assumed here, see
`main_last_kernel_size_within_capacity`).  When the three kernel files declare the sizes `k1`, `k2`, `k3`, `main` of both
programs uses `k3` as pad width source (`k3 / 2`), in `paddedSize`, and as `kernelSize` of
all three `convolve2D` calls; no comparison of `k1`, `k2`, `k3` takes place (these are the
values for arbitrary sizes), and replacing `k1`, `k2` by other sizes changes neither
`paddedSize`, nor `outputSize`, nor the padded array. -/
theorem main_last_kernel_size {α : Type} [LinearOrderedField α] (exp : α → α)
    (n k1 k2 k3 : Int) (G K1 K2 K3 : Grid α) (heap : SerialDM.Heap α) (mem : Buffers α) :
    ((Serial.main exp ⟨n, G⟩ ⟨k1, K1⟩ ⟨k2, K2⟩ ⟨k3, K3⟩ mem).paddedSize = n + k3 - 1
      ∧ (Serial.main exp ⟨n, G⟩ ⟨k1, K1⟩ ⟨k2, K2⟩ ⟨k3, K3⟩ mem).outputSize
          = (n + k3 - 1 - 2).tdiv 2 + 1
      ∧ (Serial.main exp ⟨n, G⟩ ⟨k1, K1⟩ ⟨k2, K2⟩ ⟨k3, K3⟩ mem).paddedInput
          = Serial.zeroPad (readMatrixFromFile ⟨n, G⟩ (fun _ _ => 0)).1 n (k3.tdiv 2)
              mem.paddedInput
      ∧ (Serial.main exp ⟨n, G⟩ ⟨k1, K1⟩ ⟨k2, K2⟩ ⟨k3, K3⟩ mem).conv1
          = applySigmoid exp
              (convolve2D (Serial.main exp ⟨n, G⟩ ⟨k1, K1⟩ ⟨k2, K2⟩ ⟨k3, K3⟩ mem).paddedInput
                (readMatrixFromFile ⟨k1, K1⟩ (fun _ _ => 0)).1 mem.conv1 (n + k3 - 1) k3)
              (n + k3 - 1)
      ∧ (Serial.main exp ⟨n, G⟩ ⟨k1, K1⟩ ⟨k2, K2⟩ ⟨k3, K3⟩ mem).conv2
          = applySigmoid exp
              (convolve2D (Serial.main exp ⟨n, G⟩ ⟨k1, K1⟩ ⟨k2, K2⟩ ⟨k3, K3⟩ mem).paddedInput
                (readMatrixFromFile ⟨k2, K2⟩ (fun _ _ => 0)).1 mem.conv2 (n + k3 - 1) k3)
              (n + k3 - 1)
      ∧ (Serial.main exp ⟨n, G⟩ ⟨k1, K1⟩ ⟨k2, K2⟩ ⟨k3, K3⟩ mem).conv3
          = applySigmoid exp
              (convolve2D (Serial.main exp ⟨n, G⟩ ⟨k1, K1⟩ ⟨k2, K2⟩ ⟨k3, K3⟩ mem).paddedInput
                (readMatrixFromFile ⟨k3, K3⟩ (fun _ _ => 0)).1 mem.conv3 (n + k3 - 1) k3)
              (n + k3 - 1))
    ∧ ((SerialDM.main exp ⟨n, G⟩ ⟨k1, K1⟩ ⟨k2, K2⟩ ⟨k3, K3⟩ heap mem).paddedSize
          = n + k3.tdiv 2 * 2
      ∧ (SerialDM.main exp ⟨n, G⟩ ⟨k1, K1⟩ ⟨k2, K2⟩ ⟨k3, K3⟩ heap mem).outputSize
          = (n + k3.tdiv 2 * 2 - 2).tdiv 2 + 1
      ∧ (SerialDM.main exp ⟨n, G⟩ ⟨k1, K1⟩ ⟨k2, K2⟩ ⟨k3, K3⟩ heap mem).paddedInput
          = SerialDM.zeroPad (readMatrixFromFile ⟨n, G⟩ heap.input).1 n (k3.tdiv 2)
              mem.paddedInput (n + k3.tdiv 2 * 2)
      ∧ (SerialDM.main exp ⟨n, G⟩ ⟨k1, K1⟩ ⟨k2, K2⟩ ⟨k3, K3⟩ heap mem).conv1
          = applySigmoid exp
              (convolve2D
                (SerialDM.main exp ⟨n, G⟩ ⟨k1, K1⟩ ⟨k2, K2⟩ ⟨k3, K3⟩ heap mem).paddedInput
                (readMatrixFromFile ⟨k1, K1⟩ heap.kernel1).1 mem.conv1 (n + k3.tdiv 2 * 2) k3)
              (n + k3.tdiv 2 * 2)
      ∧ (SerialDM.main exp ⟨n, G⟩ ⟨k1, K1⟩ ⟨k2, K2⟩ ⟨k3, K3⟩ heap mem).conv2
          = applySigmoid exp
              (convolve2D
                (SerialDM.main exp ⟨n, G⟩ ⟨k1, K1⟩ ⟨k2, K2⟩ ⟨k3, K3⟩ heap mem).paddedInput
                (readMatrixFromFile ⟨k2, K2⟩ heap.kernel2).1 mem.conv2 (n + k3.tdiv 2 * 2) k3)
              (n + k3.tdiv 2 * 2)
      ∧ (SerialDM.main exp ⟨n, G⟩ ⟨k1, K1⟩ ⟨k2, K2⟩ ⟨k3, K3⟩ heap mem).conv3
          = applySigmoid exp
              (convolve2D
                (SerialDM.main exp ⟨n, G⟩ ⟨k1, K1⟩ ⟨k2, K2⟩ ⟨k3, K3⟩ heap mem).paddedInput
                (readMatrixFromFile ⟨k3, K3⟩ heap.kernel3).1 mem.conv3 (n + k3.tdiv 2 * 2) k3)
              (n + k3.tdiv 2 * 2))
    ∧ (∀ (j1 j2 : Int) (L1 L2 : Grid α),
        ((Serial.main exp ⟨n, G⟩ ⟨j1, L1⟩ ⟨j2, L2⟩ ⟨k3, K3⟩ mem).paddedSize
            = (Serial.main exp ⟨n, G⟩ ⟨k1, K1⟩ ⟨k2, K2⟩ ⟨k3, K3⟩ mem).paddedSize
          ∧ (Serial.main exp ⟨n, G⟩ ⟨j1, L1⟩ ⟨j2, L2⟩ ⟨k3, K3⟩ mem).outputSize
            = (Serial.main exp ⟨n, G⟩ ⟨k1, K1⟩ ⟨k2, K2⟩ ⟨k3, K3⟩ mem).outputSize
          ∧ (Serial.main exp ⟨n, G⟩ ⟨j1, L1⟩ ⟨j2, L2⟩ ⟨k3, K3⟩ mem).paddedInput
            = (Serial.main exp ⟨n, G⟩ ⟨k1, K1⟩ ⟨k2, K2⟩ ⟨k3, K3⟩ mem).paddedInput)
        ∧ ((SerialDM.main exp ⟨n, G⟩ ⟨j1, L1⟩ ⟨j2, L2⟩ ⟨k3, K3⟩ heap mem).paddedSize
            = (SerialDM.main exp ⟨n, G⟩ ⟨k1, K1⟩ ⟨k2, K2⟩ ⟨k3, K3⟩ heap mem).paddedSize
          ∧ (SerialDM.main exp ⟨n, G⟩ ⟨j1, L1⟩ ⟨j2, L2⟩ ⟨k3, K3⟩ heap mem).outputSize
            = (SerialDM.main exp ⟨n, G⟩ ⟨k1, K1⟩ ⟨k2, K2⟩ ⟨k3, K3⟩ heap mem).outputSize
          ∧ (SerialDM.main exp ⟨n, G⟩ ⟨j1, L1⟩ ⟨j2, L2⟩ ⟨k3, K3⟩ heap mem).paddedInput
            = (SerialDM.main exp ⟨n, G⟩ ⟨k1, K1⟩ ⟨k2, K2⟩ ⟨k3, K3⟩ heap mem).paddedInput)) :=
  ⟨⟨rfl, rfl, rfl, rfl, rfl, rfl⟩, ⟨rfl, rfl, rfl, rfl, rfl, rfl⟩,
    fun _ _ _ _ => ⟨⟨rfl, rfl, rfl⟩, ⟨rfl, rfl, rfl⟩⟩⟩

/-! ## C12: the padded size handed to `convolve2D` -/

/-- C12, the programs at input size 2 and kernel size 2: `zeroPad` of `serial.c` fills
`inputSize + 2 * padWidth = 2 + 2 * (2 / 2) = 4` rows and columns (the cell `(3, 3)` of
`paddedInput` is `0` whatever the array held before), but `main` of `serial.c` hands
`paddedSize = inputSize + kernelSize - 1 = 3` to `convolve2D`; `main` of `serialDM.c` hands
`4`. -/
theorem main_paddedSize_even_kernel {α : Type} [LinearOrderedField α] (exp : α → α)
    (G K1 K2 K3 : Grid α) (heap : SerialDM.Heap α) (mem : Buffers α) :
    ((2 : Int) + 2 * (2 : Int).tdiv 2 = 4
      ∧ (Serial.main exp ⟨2, G⟩ ⟨2, K1⟩ ⟨2, K2⟩ ⟨2, K3⟩ mem).paddedInput 3 3 = 0
      ∧ (Serial.main exp ⟨2, G⟩ ⟨2, K1⟩ ⟨2, K2⟩ ⟨2, K3⟩ mem).paddedSize = 3)
    ∧ ((SerialDM.main exp ⟨2, G⟩ ⟨2, K1⟩ ⟨2, K2⟩ ⟨2, K3⟩ heap mem).paddedInput 3 3 = 0
      ∧ (SerialDM.main exp ⟨2, G⟩ ⟨2, K1⟩ ⟨2, K2⟩ ⟨2, K3⟩ heap mem).paddedSize = 4) := by
  have hs : (Serial.main exp ⟨2, G⟩ ⟨2, K1⟩ ⟨2, K2⟩ ⟨2, K3⟩ mem).paddedInput
      = SerialDM.zeroPad (readMatrixFromFile ⟨2, G⟩ (fun _ _ => 0)).1 2 1 mem.paddedInput 4 :=
    rfl
  have hd : (SerialDM.main exp ⟨2, G⟩ ⟨2, K1⟩ ⟨2, K2⟩ ⟨2, K3⟩ heap mem).paddedInput
      = SerialDM.zeroPad (readMatrixFromFile ⟨2, G⟩ heap.input).1 2 1 mem.paddedInput 4 := rfl
  have hin : (0 : Int) ≤ 3 ∧ (3 : Int) < 4 ∧ (0 : Int) ≤ 3 ∧ (3 : Int) < 4 := by decide
  have hhalo : (3 : Int) < 1 ∨ (3 : Int) < 1 ∨ (3 : Int) ≥ 2 + 1 ∨ (3 : Int) ≥ 2 + 1 := by
    decide
  refine ⟨⟨rfl, ?_, rfl⟩, ⟨?_, rfl⟩⟩
  · rw [hs, SerialDM.zeroPad_cell, if_pos hin, if_pos hhalo]
  · rw [hd, SerialDM.zeroPad_cell, if_pos hin, if_pos hhalo]

/-! ## Array accesses of the loops -/

/-- An access belongs to the accesses of the first `n` iterations exactly when it belongs
to one of them. -/
theorem mem_traceN {β : Type} (body : Nat → List β) (n : Nat) (a : β) :
    a ∈ traceN body n ↔ ∃ i : Nat, i < n ∧ a ∈ body i := by
  induction n with
  | zero =>
    constructor
    · intro h
      exact absurd h (List.not_mem_nil a)
    · rintro ⟨i, hi, _⟩
      omega
  | succ n ih =>
    rw [traceN, List.mem_append, ih]
    constructor
    · rintro (⟨i, hi, ha⟩ | ha)
      · exact ⟨i, by omega, ha⟩
      · exact ⟨n, by omega, ha⟩
    · rintro ⟨i, hi, ha⟩
      by_cases hin : i = n
      · subst hin
        exact Or.inr ha
      · exact Or.inl ⟨i, by omega, ha⟩

/-- An access belongs to the accesses of a `for` loop exactly when it belongs to the
accesses of the body for an index `0 ≤ i < bound`. -/
theorem mem_forTrace {β : Type} (bound : Int) (body : Int → List β) (a : β) :
    a ∈ forTrace bound body ↔ ∃ i : Int, 0 ≤ i ∧ i < bound ∧ a ∈ body i := by
  unfold forTrace
  rw [mem_traceN]
  constructor
  · rintro ⟨i, hi, ha⟩
    exact ⟨(i : Int), by omega, by omega, ha⟩
  · rintro ⟨i, hi0, hi, ha⟩
    refine ⟨i.toNat, by omega, ?_⟩
    have e : ((i.toNat : Nat) : Int) = i := Int.toNat_of_nonneg hi0
    rw [e]
    exact ha

/-- The accesses of `readMatrixFromFile` are stores into the `size × size` square. -/
theorem readMatrixFromFileTrace_bounds {A : Type} (matrix : A) (size : Int) (a : Access A)
    (h : a ∈ readMatrixFromFileTrace matrix size) :
    a.mode = Mode.write ∧ a.array = matrix ∧ 0 ≤ a.row ∧ a.row < size
      ∧ 0 ≤ a.col ∧ a.col < size := by
  unfold readMatrixFromFileTrace at h
  rw [mem_forTrace] at h
  obtain ⟨i, hi0, hi, h⟩ := h
  rw [mem_forTrace] at h
  obtain ⟨j, hj0, hj, h⟩ := h
  rw [List.mem_singleton] at h
  subst h
  exact ⟨rfl, rfl, hi0, hi, hj0, hj⟩

/-- The accesses of `zeroPad`: loads of the `size × size` square of `matrix`, stores into
the `paddedSize × paddedSize` square of `paddedMatrix`. -/
theorem zeroPadTrace_bounds {A : Type} (matrix paddedMatrix : A)
    (size padWidth paddedSize : Int) (a : Access A)
    (h : a ∈ SerialDM.zeroPadTrace matrix paddedMatrix size padWidth paddedSize) :
    (a.mode = Mode.read ∧ a.array = matrix ∧ 0 ≤ a.row ∧ a.row < size
        ∧ 0 ≤ a.col ∧ a.col < size)
    ∨ (a.mode = Mode.write ∧ a.array = paddedMatrix ∧ 0 ≤ a.row ∧ a.row < paddedSize
        ∧ 0 ≤ a.col ∧ a.col < paddedSize) := by
  unfold SerialDM.zeroPadTrace at h
  rw [mem_forTrace] at h
  obtain ⟨i, hi0, hi, h⟩ := h
  rw [mem_forTrace] at h
  obtain ⟨j, hj0, hj, h⟩ := h
  by_cases hh : i < padWidth ∨ j < padWidth ∨ i ≥ size + padWidth ∨ j ≥ size + padWidth
  · rw [if_pos hh, List.mem_singleton] at h
    subst h
    exact Or.inr ⟨rfl, rfl, hi0, hi, hj0, hj⟩
  · rw [if_neg hh, List.mem_cons, List.mem_singleton] at h
    rcases h with h | h
    · subst h
      refine Or.inl ⟨rfl, rfl, ?_, ?_, ?_, ?_⟩ <;> simp only <;> omega
    · subst h
      exact Or.inr ⟨rfl, rfl, hi0, hi, hj0, hj⟩

/-- The accesses of `zeroPad` of `serial.c` are those of `zeroPad` of `serialDM.c` called
with `size + 2 * padWidth`. -/
theorem Serial.zeroPadTrace_eq {A : Type} (matrix paddedMatrix : A) (size padWidth : Int) :
    Serial.zeroPadTrace matrix paddedMatrix size padWidth
      = SerialDM.zeroPadTrace matrix paddedMatrix size padWidth (size + 2 * padWidth) := rfl

/-- The accesses of `convolve2D`: loads of the `inputSize × inputSize` square of `input`
and of the `kernelSize × kernelSize` square of `kernel`, stores into the square of size
`inputSize - kernelSize + 1` of `output`. -/
theorem convolve2DTrace_bounds {A : Type} (input kernel output : A)
    (inputSize kernelSize : Int) (a : Access A)
    (h : a ∈ convolve2DTrace input kernel output inputSize kernelSize) :
    (a.mode = Mode.read ∧ a.array = input ∧ 0 ≤ a.row ∧ a.row < inputSize
        ∧ 0 ≤ a.col ∧ a.col < inputSize)
    ∨ (a.mode = Mode.read ∧ a.array = kernel ∧ 0 ≤ a.row ∧ a.row < kernelSize
        ∧ 0 ≤ a.col ∧ a.col < kernelSize)
    ∨ (a.mode = Mode.write ∧ a.array = output ∧ 0 ≤ a.row
        ∧ a.row < inputSize - kernelSize + 1 ∧ 0 ≤ a.col
        ∧ a.col < inputSize - kernelSize + 1) := by
  unfold convolve2DTrace at h
  rw [mem_forTrace] at h
  obtain ⟨y, hy0, hy, h⟩ := h
  rw [mem_forTrace] at h
  obtain ⟨x, hx0, hx, h⟩ := h
  rw [List.mem_append] at h
  rcases h with h | h
  · rw [mem_forTrace] at h
    obtain ⟨i, hi0, hi, h⟩ := h
    rw [mem_forTrace] at h
    obtain ⟨j, hj0, hj, h⟩ := h
    rw [List.mem_cons, List.mem_singleton] at h
    rcases h with h | h
    · subst h
      refine Or.inl ⟨rfl, rfl, ?_, ?_, ?_, ?_⟩ <;> simp only <;> omega
    · subst h
      exact Or.inr (Or.inl ⟨rfl, rfl, hi0, hi, hj0, hj⟩)
  · rw [List.mem_singleton] at h
    subst h
    exact Or.inr (Or.inr ⟨rfl, rfl, hy0, hy, hx0, hx⟩)

/-- The accesses of `applySigmoid` lie in the `size × size` square of `matrix`. -/
theorem applySigmoidTrace_bounds {A : Type} (matrix : A) (size : Int) (a : Access A)
    (h : a ∈ applySigmoidTrace matrix size) :
    a.array = matrix ∧ 0 ≤ a.row ∧ a.row < size ∧ 0 ≤ a.col ∧ a.col < size := by
  unfold applySigmoidTrace at h
  rw [mem_forTrace] at h
  obtain ⟨i, hi0, hi, h⟩ := h
  rw [mem_forTrace] at h
  obtain ⟨j, hj0, hj, h⟩ := h
  rw [List.mem_cons, List.mem_singleton] at h
  rcases h with h | h <;> subst h <;> exact ⟨rfl, hi0, hi, hj0, hj⟩

/-- The accesses of `maxPooling`: loads of `input[y * stride + i][x * stride + j]` for a
window `(y, x)` below `outputSize` and offsets `i, j` below `poolSize`, stores into the
`outputSize × outputSize` square of `output`. -/
theorem maxPoolingTrace_mem {A : Type} (input output : A) (inputSize poolSize stride : Int)
    (a : Access A) (h : a ∈ maxPoolingTrace input output inputSize poolSize stride) :
    (a.mode = Mode.read ∧ a.array = input
        ∧ ∃ y x i j : Int, 0 ≤ y ∧ y < maxPoolingOutputSize inputSize poolSize stride
          ∧ 0 ≤ x ∧ x < maxPoolingOutputSize inputSize poolSize stride
          ∧ 0 ≤ i ∧ i < poolSize ∧ 0 ≤ j ∧ j < poolSize
          ∧ a.row = y * stride + i ∧ a.col = x * stride + j)
    ∨ (a.mode = Mode.write ∧ a.array = output ∧ 0 ≤ a.row
        ∧ a.row < maxPoolingOutputSize inputSize poolSize stride ∧ 0 ≤ a.col
        ∧ a.col < maxPoolingOutputSize inputSize poolSize stride) := by
  unfold maxPoolingTrace at h
  unfold maxPoolingOutputSize
  rw [mem_forTrace] at h
  obtain ⟨y, hy0, hy, h⟩ := h
  rw [mem_forTrace] at h
  obtain ⟨x, hx0, hx, h⟩ := h
  rw [List.mem_append] at h
  rcases h with h | h
  · rw [mem_forTrace] at h
    obtain ⟨i, hi0, hi, h⟩ := h
    rw [mem_forTrace] at h
    obtain ⟨j, hj0, hj, h⟩ := h
    rw [List.mem_singleton] at h
    subst h
    exact Or.inl ⟨rfl, rfl, y, x, i, j, hy0, hy, hx0, hx, hi0, hi, hj0, hj, rfl, rfl⟩
  · rw [List.mem_singleton] at h
    subst h
    exact Or.inr ⟨rfl, rfl, hy0, hy, hx0, hx⟩

/-! ## C17: degenerate convolution -/

/-- C17. When `inputSize - kernelSize + 1 ≤ 0`, `convolve2D` leaves the output array exactly
as it was and performs no array access at all: no cell of `output` is stored, no cell of
`input` or `kernel` is loaded. -/
theorem convolve2D_degenerate {α : Type} [Field α] {A : Type} (input kernel output : Grid α)
    (inputName kernelName outputName : A) (inputSize kernelSize : Int)
    (h : inputSize - kernelSize + 1 ≤ 0) :
    convolve2D input kernel output inputSize kernelSize = output
    ∧ convolve2DTrace inputName kernelName outputName inputSize kernelSize = [] := by
  constructor
  · funext r c
    have hn : ¬ (0 ≤ r ∧ r < inputSize - kernelSize + 1 ∧ 0 ≤ c
        ∧ c < inputSize - kernelSize + 1) := by omega
    rw [convolve2D_cell, if_neg hn]
  · unfold convolve2DTrace forTrace
    have e : (inputSize - kernelSize + 1).toNat = 0 := by omega
    rw [e]
    rfl

/-- C17 at `inputSize = 2`, `kernelSize = 3`. -/
theorem convolve2D_degenerate_witness :
    ((2 : Int) - 3 + 1 ≤ 0)
    ∧ convolve2D grid2x2 (constGrid 1) (constGrid 7) 2 3 = constGrid 7
    ∧ convolve2DTrace Var.paddedInput Var.kernel1 Var.conv1 2 3 = [] :=
  ⟨by decide,
   (convolve2D_degenerate grid2x2 (constGrid 1) (constGrid 7) Var.paddedInput Var.kernel1
      Var.conv1 2 3 (by decide)).1,
   (convolve2D_degenerate grid2x2 (constGrid 1) (constGrid 7) Var.paddedInput Var.kernel1
      Var.conv1 2 3 (by decide)).2⟩

/-! ## C16: pooling windows -/

/-- The square that `maxPooling` writes has `maxPoolingOutputSize` rows and columns. -/
theorem maxPooling_cell_outputSize {α : Type} [LinearOrder α] (input : Grid α)
    (output : Grid (WithBot α)) (inputSize poolSize stride : Int) (r c : Int) :
    maxPooling input output inputSize poolSize stride r c
      = if 0 ≤ r ∧ r < maxPoolingOutputSize inputSize poolSize stride
            ∧ 0 ≤ c ∧ c < maxPoolingOutputSize inputSize poolSize stride
        then windowMax input poolSize.toNat stride r c else output r c :=
  maxPooling_cell input output inputSize poolSize stride r c

/-- The `outputSize` of `maxPooling` for sizes given as natural numbers. -/
theorem maxPoolingOutputSize_cast (n p s : Nat) (hpn : p ≤ n) :
    maxPoolingOutputSize (n : Int) (p : Int) (s : Int) = (((n - p) / s + 1 : Nat) : Int) :=
  tdiv_cast_sub n p s hpn

/-- Every subscript `y * stride + i` of a window below `outputSize` is below `n`. -/
theorem pool_index_lt (n p s : Nat) (hpn : p ≤ n) (y i : Int)
    (hy0 : 0 ≤ y) (hy : y < maxPoolingOutputSize (n : Int) (p : Int) (s : Int))
    (hi0 : 0 ≤ i) (hi : i < (p : Int)) :
    0 ≤ y * (s : Int) + i ∧ y * (s : Int) + i < (n : Int) := by
  rw [maxPoolingOutputSize_cast n p s hpn] at hy
  have hq : (((n - p) / s : Nat) : Int) * (s : Int) ≤ ((n - p : Nat) : Int) := by
    exact_mod_cast Nat.div_mul_le_self (n - p) s
  have hyq : y ≤ (((n - p) / s : Nat) : Int) := by
    have : (((n - p) / s + 1 : Nat) : Int) = (((n - p) / s : Nat) : Int) + 1 := by
      push_cast; rfl
    omega
  have hs0 : (0 : Int) ≤ (s : Int) := Int.ofNat_nonneg s
  have hmul : y * (s : Int) ≤ (((n - p) / s : Nat) : Int) * (s : Int) :=
    Int.mul_le_mul_of_nonneg_right hyq hs0
  have hy0s : 0 ≤ y * (s : Int) := Int.mul_nonneg hy0 hs0
  have hsub : ((n - p : Nat) : Int) = (n : Int) - (p : Int) := Int.ofNat_sub hpn
  constructor
  · omega
  · omega

/-- C16. For `poolSize ≥ 1`, `stride ≥ 1` and `poolSize ≤ n`, `outputSize =
(n - poolSize) / stride + 1` is at least 1, every subscript `y * stride + i` with
`0 ≤ y < outputSize` and `0 ≤ i < poolSize` lies in `[0, n)`, so that every load of
`maxPooling` is inside the `n × n` input, and the next window would not fit:
`outputSize * stride + poolSize > n`. -/
theorem maxPooling_windows {A : Type} (n p s : Nat) (hp : 1 ≤ p) (hs : 1 ≤ s)
    (hpn : p ≤ n) (input output : A) :
    maxPoolingOutputSize (n : Int) (p : Int) (s : Int) = (((n - p) / s + 1 : Nat) : Int)
    ∧ 1 ≤ maxPoolingOutputSize (n : Int) (p : Int) (s : Int)
    ∧ (∀ y i : Int, 0 ≤ y → y < maxPoolingOutputSize (n : Int) (p : Int) (s : Int) →
        0 ≤ i → i < (p : Int) → 0 ≤ y * (s : Int) + i ∧ y * (s : Int) + i < (n : Int))
    ∧ (∀ a : Access A, a ∈ maxPoolingTrace input output (n : Int) (p : Int) (s : Int) →
        a.mode = Mode.read →
        a.array = input ∧ 0 ≤ a.row ∧ a.row < (n : Int) ∧ 0 ≤ a.col ∧ a.col < (n : Int))
    ∧ maxPoolingOutputSize (n : Int) (p : Int) (s : Int) * (s : Int) + (p : Int) > (n : Int) := by
  have hos := maxPoolingOutputSize_cast n p s hpn
  refine ⟨hos, ?_, ?_, ?_, ?_⟩
  · rw [hos]
    have : (1 : Nat) ≤ (n - p) / s + 1 := Nat.le_add_left 1 _
    exact_mod_cast this
  · intro y i hy0 hy hi0 hi
    exact pool_index_lt n p s hpn y i hy0 hy hi0 hi
  · intro a ha hmode
    rcases maxPoolingTrace_mem input output (n : Int) (p : Int) (s : Int) a ha with h | h
    · obtain ⟨_, harr, y, x, i, j, hy0, hy, hx0, hx, hi0, hi, hj0, hj, hrow, hcol⟩ := h
      have hr := pool_index_lt n p s hpn y i hy0 hy hi0 hi
      have hc := pool_index_lt n p s hpn x j hx0 hx hj0 hj
      rw [hrow, hcol]
      exact ⟨harr, hr.1, hr.2, hc.1, hc.2⟩
    · rw [h.1] at hmode
      exact absurd hmode (by decide)
  · rw [hos]
    have h1 : n - p < s * ((n - p) / s + 1) := Nat.lt_mul_div_succ (n - p) (by omega)
    have h2 : n < ((n - p) / s + 1) * s + p := by
      rw [Nat.mul_comm] at h1
      omega
    exact_mod_cast h2

/-- C16 at `n = 5`, `poolSize = 2`, `stride = 2`: `outputSize` is 2, the largest subscript
`1 * 2 + 1 = 3` is below 5, the load `input[3][3]` is inside the input, and a third window
would need `2 * 2 + 2 = 6 > 5` rows; row and column 4 are never loaded. -/
theorem maxPooling_windows_witness :
    (1 ≤ 2 ∧ 1 ≤ 2 ∧ 2 ≤ 5)
    ∧ maxPoolingOutputSize ((5 : Nat) : Int) ((2 : Nat) : Int) ((2 : Nat) : Int)
        = (((5 - 2) / 2 + 1 : Nat) : Int)
    ∧ 1 ≤ maxPoolingOutputSize ((5 : Nat) : Int) ((2 : Nat) : Int) ((2 : Nat) : Int)
    ∧ ((0 : Int) ≤ 1 * ((2 : Nat) : Int) + 1 ∧ (1 : Int) * ((2 : Nat) : Int) + 1
        < ((5 : Nat) : Int))
    ∧ ((⟨Mode.read, Var.conv1, 3, 3⟩ : Access Var).array = Var.conv1
        ∧ (0 : Int) ≤ (⟨Mode.read, Var.conv1, 3, 3⟩ : Access Var).row
        ∧ (⟨Mode.read, Var.conv1, 3, 3⟩ : Access Var).row < ((5 : Nat) : Int)
        ∧ (0 : Int) ≤ (⟨Mode.read, Var.conv1, 3, 3⟩ : Access Var).col
        ∧ (⟨Mode.read, Var.conv1, 3, 3⟩ : Access Var).col < ((5 : Nat) : Int))
    ∧ maxPoolingOutputSize ((5 : Nat) : Int) ((2 : Nat) : Int) ((2 : Nat) : Int)
        * ((2 : Nat) : Int) + ((2 : Nat) : Int) > ((5 : Nat) : Int) :=
  ⟨by decide,
   (maxPooling_windows 5 2 2 (by decide) (by decide) (by decide) Var.conv1 Var.pooled1).1,
   (maxPooling_windows 5 2 2 (by decide) (by decide) (by decide) Var.conv1 Var.pooled1).2.1,
   (maxPooling_windows 5 2 2 (by decide) (by decide) (by decide) Var.conv1
      Var.pooled1).2.2.1 1 1 (by decide) (by decide) (by decide) (by decide),
   (maxPooling_windows 5 2 2 (by decide) (by decide) (by decide) Var.conv1
      Var.pooled1).2.2.2.1 ⟨Mode.read, Var.conv1, 3, 3⟩ (by decide) rfl,
   (maxPooling_windows 5 2 2 (by decide) (by decide) (by decide) Var.conv1
      Var.pooled1).2.2.2.2⟩

/-! ## Array accesses of `main` -/

/-- The accesses of the pipeline of `main` (with the pad width, the dimension that
`zeroPad` fills and `paddedSize` as parameters) lie inside the arrays when every array is
large enough for the squares that the functions are called on. -/
theorem pipeline_inBounds (dim : Var → Int) (n k pw fill ps : Int) (hk : 1 ≤ k)
    (hin : n ≤ dim Var.input)
    (hk1 : k ≤ dim Var.kernel1) (hk2 : k ≤ dim Var.kernel2) (hk3 : k ≤ dim Var.kernel3)
    (hfill : fill ≤ dim Var.paddedInput) (hps : ps ≤ dim Var.paddedInput)
    (hc1 : ps ≤ dim Var.conv1) (hc2 : ps ≤ dim Var.conv2) (hc3 : ps ≤ dim Var.conv3)
    (hw1 : maxPoolingOutputSize ps 2 2 * 2 ≤ dim Var.conv1)
    (hw2 : maxPoolingOutputSize ps 2 2 * 2 ≤ dim Var.conv2)
    (hw3 : maxPoolingOutputSize ps 2 2 * 2 ≤ dim Var.conv3)
    (ho1 : maxPoolingOutputSize ps 2 2 ≤ dim Var.pooled1)
    (ho2 : maxPoolingOutputSize ps 2 2 ≤ dim Var.pooled2)
    (ho3 : maxPoolingOutputSize ps 2 2 ≤ dim Var.pooled3)
    (a : Access Var)
    (ha : a ∈ readMatrixFromFileTrace Var.input n
      ++ readMatrixFromFileTrace Var.kernel1 k
      ++ readMatrixFromFileTrace Var.kernel2 k
      ++ readMatrixFromFileTrace Var.kernel3 k
      ++ SerialDM.zeroPadTrace Var.input Var.paddedInput n pw fill
      ++ convolve2DTrace Var.paddedInput Var.kernel1 Var.conv1 ps k
      ++ convolve2DTrace Var.paddedInput Var.kernel2 Var.conv2 ps k
      ++ convolve2DTrace Var.paddedInput Var.kernel3 Var.conv3 ps k
      ++ applySigmoidTrace Var.conv1 ps
      ++ applySigmoidTrace Var.conv2 ps
      ++ applySigmoidTrace Var.conv3 ps
      ++ maxPoolingTrace Var.conv1 Var.pooled1 ps 2 2
      ++ maxPoolingTrace Var.conv2 Var.pooled2 ps 2 2
      ++ maxPoolingTrace Var.conv3 Var.pooled3 ps 2 2) :
    InBounds dim a := by
  rcases List.mem_append.mp ha with ha | ha
  swap
  · unfold InBounds
    rcases maxPoolingTrace_mem _ _ _ _ _ a ha with ⟨_, harr, y, x, i, j, hy0, hy, hx0, hx, hi0, hi, hj0, hj, hrow, hcol⟩ | ⟨_, harr, h1, h2, h3, h4⟩
    · rw [harr, hrow, hcol]; omega
    · rw [harr]; omega
  rcases List.mem_append.mp ha with ha | ha
  swap
  · unfold InBounds
    rcases maxPoolingTrace_mem _ _ _ _ _ a ha with ⟨_, harr, y, x, i, j, hy0, hy, hx0, hx, hi0, hi, hj0, hj, hrow, hcol⟩ | ⟨_, harr, h1, h2, h3, h4⟩
    · rw [harr, hrow, hcol]; omega
    · rw [harr]; omega
  rcases List.mem_append.mp ha with ha | ha
  swap
  · unfold InBounds
    rcases maxPoolingTrace_mem _ _ _ _ _ a ha with ⟨_, harr, y, x, i, j, hy0, hy, hx0, hx, hi0, hi, hj0, hj, hrow, hcol⟩ | ⟨_, harr, h1, h2, h3, h4⟩
    · rw [harr, hrow, hcol]; omega
    · rw [harr]; omega
  rcases List.mem_append.mp ha with ha | ha
  swap
  · obtain ⟨harr, h1, h2, h3, h4⟩ := applySigmoidTrace_bounds _ _ a ha
    unfold InBounds
    rw [harr]
    omega
  rcases List.mem_append.mp ha with ha | ha
  swap
  · obtain ⟨harr, h1, h2, h3, h4⟩ := applySigmoidTrace_bounds _ _ a ha
    unfold InBounds
    rw [harr]
    omega
  rcases List.mem_append.mp ha with ha | ha
  swap
  · obtain ⟨harr, h1, h2, h3, h4⟩ := applySigmoidTrace_bounds _ _ a ha
    unfold InBounds
    rw [harr]
    omega
  rcases List.mem_append.mp ha with ha | ha
  swap
  · unfold InBounds
    rcases convolve2DTrace_bounds _ _ _ _ _ a ha with ⟨_, harr, h1, h2, h3, h4⟩ | ⟨_, harr, h1, h2, h3, h4⟩ | ⟨_, harr, h1, h2, h3, h4⟩
    · rw [harr]; omega
    · rw [harr]; omega
    · rw [harr]; omega
  rcases List.mem_append.mp ha with ha | ha
  swap
  · unfold InBounds
    rcases convolve2DTrace_bounds _ _ _ _ _ a ha with ⟨_, harr, h1, h2, h3, h4⟩ | ⟨_, harr, h1, h2, h3, h4⟩ | ⟨_, harr, h1, h2, h3, h4⟩
    · rw [harr]; omega
    · rw [harr]; omega
    · rw [harr]; omega
  rcases List.mem_append.mp ha with ha | ha
  swap
  · unfold InBounds
    rcases convolve2DTrace_bounds _ _ _ _ _ a ha with ⟨_, harr, h1, h2, h3, h4⟩ | ⟨_, harr, h1, h2, h3, h4⟩ | ⟨_, harr, h1, h2, h3, h4⟩
    · rw [harr]; omega
    · rw [harr]; omega
    · rw [harr]; omega
  rcases List.mem_append.mp ha with ha | ha
  swap
  · unfold InBounds
    rcases zeroPadTrace_bounds _ _ _ _ _ a ha with ⟨_, harr, h1, h2, h3, h4⟩ | ⟨_, harr, h1, h2, h3, h4⟩
    · rw [harr]; omega
    · rw [harr]; omega
  rcases List.mem_append.mp ha with ha | ha
  swap
  · obtain ⟨_, harr, h1, h2, h3, h4⟩ := readMatrixFromFileTrace_bounds _ _ a ha
    unfold InBounds
    rw [harr]
    omega
  rcases List.mem_append.mp ha with ha | ha
  swap
  · obtain ⟨_, harr, h1, h2, h3, h4⟩ := readMatrixFromFileTrace_bounds _ _ a ha
    unfold InBounds
    rw [harr]
    omega
  rcases List.mem_append.mp ha with ha | ha
  swap
  · obtain ⟨_, harr, h1, h2, h3, h4⟩ := readMatrixFromFileTrace_bounds _ _ a ha
    unfold InBounds
    rw [harr]
    omega
  obtain ⟨_, harr, h1, h2, h3, h4⟩ := readMatrixFromFileTrace_bounds _ _ a ha
  unfold InBounds
  rw [harr]
  omega

/-- The `outputSize` of a pooling call with window and stride 2 on a square of size
`ps ≥ 1`: twice `outputSize` is at most `ps` when `ps ≥ 2`, and is `2` when `ps = 1`
(C division truncates `-1 / 2` to `0`). -/
theorem pool2_outputSize (ps : Int) (hps : 1 ≤ ps) :
    1 ≤ maxPoolingOutputSize ps 2 2
    ∧ maxPoolingOutputSize ps 2 2 * 2 ≤ ps + 1
    ∧ (2 ≤ ps → maxPoolingOutputSize ps 2 2 * 2 ≤ ps) := by
  unfold maxPoolingOutputSize
  by_cases h2 : 2 ≤ ps
  · have hdiv : (ps - 2).tdiv 2 = (ps - 2) / 2 := Int.tdiv_eq_ediv (by omega) (by decide)
    rw [hdiv]
    omega
  · have h1 : ps = 1 := by omega
    subst h1
    decide

/-! ## C11: capacity of the arrays of `serial.c` -/

/-- C11 as stated fails: with `inputSize = 300` and `kernelSize = 3` (both within
`1 .. 300`), `zeroPad` fills `300 + 2 * (3 / 2) = 302 > MAX_SIZE` rows and columns, `main`
hands `paddedSize = 302` to `convolve2D`, `applySigmoid` and `maxPooling`, and the run stores
into `paddedInput[301][301]`, outside the `MAX_SIZE × MAX_SIZE` array; nothing is
rejected. -/
theorem serial_capacity_counterexample :
    ((1 : Int) ≤ 300 ∧ (300 : Int) ≤ Serial.MAX_SIZE ∧ (1 : Int) ≤ 3
      ∧ (3 : Int) ≤ Serial.MAX_SIZE)
    ∧ ((300 : Int) + 2 * (3 : Int).tdiv 2 = 302 ∧ Serial.MAX_SIZE < 302)
    ∧ (Serial.main Real.exp ⟨300, constGrid 1⟩ ⟨3, constGrid (1 / 9)⟩ ⟨3, constGrid (1 / 9)⟩
        ⟨3, constGrid (1 / 9)⟩ (constBuffers 0)).paddedSize = 302
    ∧ (⟨Mode.write, Var.paddedInput, 301, 301⟩ : Access Var) ∈ Serial.mainTrace 300 3 3 3
    ∧ ¬ InBounds (fun _ => Serial.MAX_SIZE) ⟨Mode.write, Var.paddedInput, 301, 301⟩ := by
  refine ⟨by decide, by decide, by decide, ?_, ?_⟩
  · have hz : (⟨Mode.write, Var.paddedInput, 301, 301⟩ : Access Var)
        ∈ Serial.zeroPadTrace Var.input Var.paddedInput 300 ((3 : Int).tdiv 2) := by
      unfold Serial.zeroPadTrace
      refine (mem_forTrace _ _ _).mpr ⟨301, by decide, by decide, ?_⟩
      refine (mem_forTrace _ _ _).mpr ⟨301, by decide, by decide, ?_⟩
      decide
    unfold Serial.mainTrace
    iterate 9 apply List.mem_append_left
    exact List.mem_append_right _ hz
  · unfold InBounds
    decide

/-- C11, amended. For `n ≥ 1` and `k ≥ 1` with `n + 2 * (k / 2) ≤ MAX_SIZE = 300`, every
grid dimension that the pipeline of `serial.c` uses (the dimension `n + 2 * (k / 2)` that
`zeroPad` fills and the `paddedSize` passed to `convolve2D`, `applySigmoid`, `maxPooling`)
is at most `MAX_SIZE`, and every row and column subscript loaded or stored by `main` lies
in `[0, MAX_SIZE)`.  No size is checked or rejected by the program. -/
theorem serial_within_capacity {α : Type} [LinearOrderedField α] (exp : α → α) (n k : Nat)
    (hn : 1 ≤ n) (hk : 1 ≤ k) (hcap : n + 2 * (k / 2) ≤ 300) (G K1 K2 K3 : Grid α)
    (mem : Buffers α) :
    ((n : Int) + 2 * (k : Int).tdiv 2 ≤ Serial.MAX_SIZE
      ∧ (Serial.main exp ⟨n, G⟩ ⟨k, K1⟩ ⟨k, K2⟩ ⟨k, K3⟩ mem).paddedSize ≤ Serial.MAX_SIZE)
    ∧ (∀ a : Access Var, a ∈ Serial.mainTrace n k k k →
        InBounds (fun _ => Serial.MAX_SIZE) a) := by
  have hpw : (k : Int).tdiv 2 = ((k / 2 : Nat) : Int) := (Int.ofNat_tdiv k 2).symm
  have hs : (Serial.main exp ⟨n, G⟩ ⟨k, K1⟩ ⟨k, K2⟩ ⟨k, K3⟩ mem).paddedSize
      = (n : Int) + (k : Int) - 1 := rfl
  have hmax : Serial.MAX_SIZE = 300 := rfl
  have hpool := pool2_outputSize ((n : Int) + (k : Int) - 1) (by omega)
  refine ⟨⟨by rw [hpw, hmax]; omega, by rw [hs, hmax]; omega⟩, fun a ha => ?_⟩
  exact pipeline_inBounds (fun _ => Serial.MAX_SIZE) (n : Int) (k : Int) ((k : Int).tdiv 2)
    ((n : Int) + 2 * (k : Int).tdiv 2) ((n : Int) + (k : Int) - 1) (by omega)
    (by show (n : Int) ≤ Serial.MAX_SIZE; rw [hmax]; omega)
    (by show (k : Int) ≤ Serial.MAX_SIZE; rw [hmax]; omega)
    (by show (k : Int) ≤ Serial.MAX_SIZE; rw [hmax]; omega)
    (by show (k : Int) ≤ Serial.MAX_SIZE; rw [hmax]; omega)
    (by show (n : Int) + 2 * (k : Int).tdiv 2 ≤ Serial.MAX_SIZE; rw [hpw, hmax]; omega)
    (by show (n : Int) + (k : Int) - 1 ≤ Serial.MAX_SIZE; rw [hmax]; omega)
    (by show (n : Int) + (k : Int) - 1 ≤ Serial.MAX_SIZE; rw [hmax]; omega)
    (by show (n : Int) + (k : Int) - 1 ≤ Serial.MAX_SIZE; rw [hmax]; omega)
    (by show (n : Int) + (k : Int) - 1 ≤ Serial.MAX_SIZE; rw [hmax]; omega)
    (by show _ ≤ Serial.MAX_SIZE; rw [hmax]; omega)
    (by show _ ≤ Serial.MAX_SIZE; rw [hmax]; omega)
    (by show _ ≤ Serial.MAX_SIZE; rw [hmax]; omega)
    (by show _ ≤ Serial.MAX_SIZE; rw [hmax]; omega)
    (by show _ ≤ Serial.MAX_SIZE; rw [hmax]; omega)
    (by show _ ≤ Serial.MAX_SIZE; rw [hmax]; omega)
    a ha

/-- C11, amended, at `n = 298`, `k = 3` (`298 + 2 * (3 / 2) = 300`): the dimensions are at
most `MAX_SIZE` and the store into `paddedInput[299][299]`, the last cell that `zeroPad`
fills, is inside the array. -/
theorem serial_within_capacity_witness :
    (1 ≤ 298 ∧ 1 ≤ 3 ∧ 298 + 2 * (3 / 2) ≤ 300)
    ∧ (((298 : Nat) : Int) + 2 * ((3 : Nat) : Int).tdiv 2 ≤ Serial.MAX_SIZE
      ∧ (Serial.main Real.exp ⟨(298 : Nat), constGrid 1⟩ ⟨(3 : Nat), constGrid (1 / 9)⟩
          ⟨(3 : Nat), constGrid (1 / 9)⟩ ⟨(3 : Nat), constGrid (1 / 9)⟩
          (constBuffers 0)).paddedSize ≤ Serial.MAX_SIZE)
    ∧ (⟨Mode.write, Var.paddedInput, 299, 299⟩ : Access Var)
          ∈ Serial.mainTrace ((298 : Nat) : Int) ((3 : Nat) : Int) ((3 : Nat) : Int)
              ((3 : Nat) : Int)
    ∧ InBounds (fun _ => Serial.MAX_SIZE) ⟨Mode.write, Var.paddedInput, 299, 299⟩ := by
  have hz : (⟨Mode.write, Var.paddedInput, 299, 299⟩ : Access Var)
      ∈ Serial.zeroPadTrace Var.input Var.paddedInput ((298 : Nat) : Int)
          (((3 : Nat) : Int).tdiv 2) := by
    unfold Serial.zeroPadTrace
    refine (mem_forTrace _ _ _).mpr ⟨299, by decide, by decide, ?_⟩
    refine (mem_forTrace _ _ _).mpr ⟨299, by decide, by decide, ?_⟩
    decide
  have hmem : (⟨Mode.write, Var.paddedInput, 299, 299⟩ : Access Var)
      ∈ Serial.mainTrace ((298 : Nat) : Int) ((3 : Nat) : Int) ((3 : Nat) : Int)
          ((3 : Nat) : Int) := by
    unfold Serial.mainTrace
    iterate 9 apply List.mem_append_left
    exact List.mem_append_right _ hz
  exact ⟨by decide,
    (serial_within_capacity Real.exp 298 3 (by decide) (by decide) (by decide) (constGrid 1)
      (constGrid (1 / 9)) (constGrid (1 / 9)) (constGrid (1 / 9)) (constBuffers 0)).1,
    hmem,
    (serial_within_capacity Real.exp 298 3 (by decide) (by decide) (by decide) (constGrid 1)
      (constGrid (1 / 9)) (constGrid (1 / 9)) (constGrid (1 / 9)) (constBuffers 0)).2
      ⟨Mode.write, Var.paddedInput, 299, 299⟩ hmem⟩

/-! ## C19: array accesses of `serialDM.c` -/

/-- C19, the program at `inputSize = 1`, `kernelSize = 1`: `paddedSize` is 1, so `conv1` is
allocated with one row of one cell, but `outputSize = (1 - 2) / 2 + 1 = 1` (C division
truncates toward zero) and `maxPooling` loads `conv1[0][1]`, `conv1[1][0]` and
`conv1[1][1]`, outside the allocation. -/
theorem serialDM_pool_reads_outside :
    ((1 : Int) ≤ 1 ∧ (1 : Int) ≤ SerialDM.MAX_SIZE)
    ∧ (SerialDM.allocated 1 1 Var.conv1 = 1 ∧ SerialDM.allocated 1 1 Var.pooled1 = 1)
    ∧ ((⟨Mode.read, Var.conv1, 0, 1⟩ : Access Var) ∈ SerialDM.mainTrace 1 1 1 1
      ∧ (⟨Mode.read, Var.conv1, 1, 0⟩ : Access Var) ∈ SerialDM.mainTrace 1 1 1 1
      ∧ (⟨Mode.read, Var.conv1, 1, 1⟩ : Access Var) ∈ SerialDM.mainTrace 1 1 1 1)
    ∧ ¬ InBounds (SerialDM.allocated 1 1) ⟨Mode.read, Var.conv1, 1, 1⟩ := by
  refine ⟨by decide, by decide, by decide, ?_⟩
  unfold InBounds
  decide

/-- For every other pair of sizes `1 ≤ n, k ≤ MAX_SIZE` (those with `paddedSize ≥ 2`), every
access of `main` of `serialDM.c` lies inside the array allocated for it. -/
theorem serialDM_accesses_inBounds (n k : Nat) (hn : 1 ≤ n) (hn2 : n ≤ 5000) (hk : 1 ≤ k)
    (hk2 : k ≤ 5000) (hps : 2 ≤ n + 2 * (k / 2)) (a : Access Var)
    (ha : a ∈ SerialDM.mainTrace n k k k) : InBounds (SerialDM.allocated n k) a := by
  have hpw : (k : Int).tdiv 2 = ((k / 2 : Nat) : Int) := (Int.ofNat_tdiv k 2).symm
  have hmax : SerialDM.MAX_SIZE = 5000 := rfl
  have hpool := pool2_outputSize ((n : Int) + (k : Int).tdiv 2 * 2) (by rw [hpw]; omega)
  have hpool2 := hpool.2.2 (by rw [hpw]; omega)
  exact pipeline_inBounds (SerialDM.allocated n k) (n : Int) (k : Int) ((k : Int).tdiv 2)
    ((n : Int) + (k : Int).tdiv 2 * 2) ((n : Int) + (k : Int).tdiv 2 * 2) (by omega)
    (by show (n : Int) ≤ SerialDM.MAX_SIZE; rw [hmax]; omega)
    (by show (k : Int) ≤ SerialDM.MAX_SIZE; rw [hmax]; omega)
    (by show (k : Int) ≤ SerialDM.MAX_SIZE; rw [hmax]; omega)
    (by show (k : Int) ≤ SerialDM.MAX_SIZE; rw [hmax]; omega)
    (le_refl _) (le_refl _) (le_refl _) (le_refl _) (le_refl _)
    hpool2 hpool2 hpool2 (le_refl _) (le_refl _) (le_refl _) a ha

/-! ## Runs within the capacity of the arrays -/

/-- A computation whose accesses all lie inside their arrays has its result. -/
theorem checked_some {A β : Type} (dim : A → Int) (trace : List (Access A)) (result : β)
    (h : ∀ a : Access A, a ∈ trace →
      0 ≤ a.row ∧ a.row < dim a.array ∧ 0 ≤ a.col ∧ a.col < dim a.array) :
    checked dim trace result = some result := by
  unfold checked
  rw [if_pos]
  rw [List.all_eq_true]
  intro a ha
  exact decide_eq_true (h a ha)

/-- A computation with an access outside its array has no result. -/
theorem checked_none {A β : Type} (dim : A → Int) (trace : List (Access A)) (result : β)
    (a : Access A) (ha : a ∈ trace)
    (hout : ¬ (0 ≤ a.row ∧ a.row < dim a.array ∧ 0 ≤ a.col ∧ a.col < dim a.array)) :
    checked dim trace result = none := by
  unfold checked
  rw [if_neg]
  intro hall
  rw [List.all_eq_true] at hall
  exact hout (of_decide_eq_true (hall a ha))

/-- The accesses of the pipeline of `main` for kernel files of sizes `k1`, `k2`, `k3` (the
kernel size in use being `k3`) lie inside the arrays when every array is large enough for
the squares that the functions are called on. -/
theorem pipeline_inBounds_sizes (dim : Var → Int) (n k1 k2 k3 pw fill ps : Int)
    (hk : 1 ≤ k3) (hin : n ≤ dim Var.input)
    (hk1 : k1 ≤ dim Var.kernel1) (hk2 : k2 ≤ dim Var.kernel2) (hk3 : k3 ≤ dim Var.kernel3)
    (hu1 : k3 ≤ dim Var.kernel1) (hu2 : k3 ≤ dim Var.kernel2)
    (hfill : fill ≤ dim Var.paddedInput) (hps : ps ≤ dim Var.paddedInput)
    (hc1 : ps ≤ dim Var.conv1) (hc2 : ps ≤ dim Var.conv2) (hc3 : ps ≤ dim Var.conv3)
    (hw1 : maxPoolingOutputSize ps 2 2 * 2 ≤ dim Var.conv1)
    (hw2 : maxPoolingOutputSize ps 2 2 * 2 ≤ dim Var.conv2)
    (hw3 : maxPoolingOutputSize ps 2 2 * 2 ≤ dim Var.conv3)
    (ho1 : maxPoolingOutputSize ps 2 2 ≤ dim Var.pooled1)
    (ho2 : maxPoolingOutputSize ps 2 2 ≤ dim Var.pooled2)
    (ho3 : maxPoolingOutputSize ps 2 2 ≤ dim Var.pooled3)
    (a : Access Var)
    (ha : a ∈ readMatrixFromFileTrace Var.input n
      ++ readMatrixFromFileTrace Var.kernel1 k1
      ++ readMatrixFromFileTrace Var.kernel2 k2
      ++ readMatrixFromFileTrace Var.kernel3 k3
      ++ SerialDM.zeroPadTrace Var.input Var.paddedInput n pw fill
      ++ convolve2DTrace Var.paddedInput Var.kernel1 Var.conv1 ps k3
      ++ convolve2DTrace Var.paddedInput Var.kernel2 Var.conv2 ps k3
      ++ convolve2DTrace Var.paddedInput Var.kernel3 Var.conv3 ps k3
      ++ applySigmoidTrace Var.conv1 ps
      ++ applySigmoidTrace Var.conv2 ps
      ++ applySigmoidTrace Var.conv3 ps
      ++ maxPoolingTrace Var.conv1 Var.pooled1 ps 2 2
      ++ maxPoolingTrace Var.conv2 Var.pooled2 ps 2 2
      ++ maxPoolingTrace Var.conv3 Var.pooled3 ps 2 2) :
    0 ≤ a.row ∧ a.row < dim a.array ∧ 0 ≤ a.col ∧ a.col < dim a.array := by
  rcases List.mem_append.mp ha with ha | ha
  swap
  · rcases maxPoolingTrace_mem _ _ _ _ _ a ha with ⟨_, harr, y, x, i, j, hy0, hy, hx0, hx, hi0, hi, hj0, hj, hrow, hcol⟩ | ⟨_, harr, h1, h2, h3, h4⟩
    · rw [harr, hrow, hcol]; omega
    · rw [harr]; omega
  rcases List.mem_append.mp ha with ha | ha
  swap
  · rcases maxPoolingTrace_mem _ _ _ _ _ a ha with ⟨_, harr, y, x, i, j, hy0, hy, hx0, hx, hi0, hi, hj0, hj, hrow, hcol⟩ | ⟨_, harr, h1, h2, h3, h4⟩
    · rw [harr, hrow, hcol]; omega
    · rw [harr]; omega
  rcases List.mem_append.mp ha with ha | ha
  swap
  · rcases maxPoolingTrace_mem _ _ _ _ _ a ha with ⟨_, harr, y, x, i, j, hy0, hy, hx0, hx, hi0, hi, hj0, hj, hrow, hcol⟩ | ⟨_, harr, h1, h2, h3, h4⟩
    · rw [harr, hrow, hcol]; omega
    · rw [harr]; omega
  rcases List.mem_append.mp ha with ha | ha
  swap
  · obtain ⟨harr, h1, h2, h3, h4⟩ := applySigmoidTrace_bounds _ _ a ha
    rw [harr]
    omega
  rcases List.mem_append.mp ha with ha | ha
  swap
  · obtain ⟨harr, h1, h2, h3, h4⟩ := applySigmoidTrace_bounds _ _ a ha
    rw [harr]
    omega
  rcases List.mem_append.mp ha with ha | ha
  swap
  · obtain ⟨harr, h1, h2, h3, h4⟩ := applySigmoidTrace_bounds _ _ a ha
    rw [harr]
    omega
  rcases List.mem_append.mp ha with ha | ha
  swap
  · rcases convolve2DTrace_bounds _ _ _ _ _ a ha with ⟨_, harr, h1, h2, h3, h4⟩ | ⟨_, harr, h1, h2, h3, h4⟩ | ⟨_, harr, h1, h2, h3, h4⟩
    · rw [harr]; omega
    · rw [harr]; omega
    · rw [harr]; omega
  rcases List.mem_append.mp ha with ha | ha
  swap
  · rcases convolve2DTrace_bounds _ _ _ _ _ a ha with ⟨_, harr, h1, h2, h3, h4⟩ | ⟨_, harr, h1, h2, h3, h4⟩ | ⟨_, harr, h1, h2, h3, h4⟩
    · rw [harr]; omega
    · rw [harr]; omega
    · rw [harr]; omega
  rcases List.mem_append.mp ha with ha | ha
  swap
  · rcases convolve2DTrace_bounds _ _ _ _ _ a ha with ⟨_, harr, h1, h2, h3, h4⟩ | ⟨_, harr, h1, h2, h3, h4⟩ | ⟨_, harr, h1, h2, h3, h4⟩
    · rw [harr]; omega
    · rw [harr]; omega
    · rw [harr]; omega
  rcases List.mem_append.mp ha with ha | ha
  swap
  · rcases zeroPadTrace_bounds _ _ _ _ _ a ha with ⟨_, harr, h1, h2, h3, h4⟩ | ⟨_, harr, h1, h2, h3, h4⟩
    · rw [harr]; omega
    · rw [harr]; omega
  rcases List.mem_append.mp ha with ha | ha
  swap
  · obtain ⟨_, harr, h1, h2, h3, h4⟩ := readMatrixFromFileTrace_bounds _ _ a ha
    rw [harr]
    omega
  rcases List.mem_append.mp ha with ha | ha
  swap
  · obtain ⟨_, harr, h1, h2, h3, h4⟩ := readMatrixFromFileTrace_bounds _ _ a ha
    rw [harr]
    omega
  rcases List.mem_append.mp ha with ha | ha
  swap
  · obtain ⟨_, harr, h1, h2, h3, h4⟩ := readMatrixFromFileTrace_bounds _ _ a ha
    rw [harr]
    omega
  obtain ⟨_, harr, h1, h2, h3, h4⟩ := readMatrixFromFileTrace_bounds _ _ a ha
  rw [harr]
  omega

/-- Within the capacity of its arrays, a run of `main` of `serial.c` has the result that
`Serial.main` describes: sizes `n ≥ 1`, `k3 ≥ 1` with `n + 2 * (k3 / 2) ≤ MAX_SIZE` and
kernel files of at most `MAX_SIZE` rows. -/
theorem serial_run_defined {α : Type} [LinearOrderedField α] (exp : α → α)
    (n k1 k2 k3 : Int) (hn : 1 ≤ n) (hk3 : 1 ≤ k3) (hk1 : k1 ≤ 300) (hk2 : k2 ≤ 300)
    (hcap : n + 2 * (k3 / 2) ≤ 300) (G K1 K2 K3 : Grid α) (mem : Buffers α) :
    Serial.run exp ⟨n, G⟩ ⟨k1, K1⟩ ⟨k2, K2⟩ ⟨k3, K3⟩ mem
      = some (Serial.main exp ⟨n, G⟩ ⟨k1, K1⟩ ⟨k2, K2⟩ ⟨k3, K3⟩ mem) := by
  have hpw : k3.tdiv 2 = k3 / 2 := Int.tdiv_eq_ediv (by omega) (by decide)
  have hmax : Serial.MAX_SIZE = 300 := rfl
  have hpool := pool2_outputSize (n + k3 - 1) (by omega)
  refine checked_some _ _ _ (fun a ha => ?_)
  exact pipeline_inBounds_sizes (fun _ => Serial.MAX_SIZE) n k1 k2 k3 (k3.tdiv 2)
    (n + 2 * k3.tdiv 2) (n + k3 - 1) hk3
    (by show n ≤ Serial.MAX_SIZE; rw [hmax]; omega)
    (by show k1 ≤ Serial.MAX_SIZE; rw [hmax]; omega)
    (by show k2 ≤ Serial.MAX_SIZE; rw [hmax]; omega)
    (by show k3 ≤ Serial.MAX_SIZE; rw [hmax]; omega)
    (by show k3 ≤ Serial.MAX_SIZE; rw [hmax]; omega)
    (by show k3 ≤ Serial.MAX_SIZE; rw [hmax]; omega)
    (by show n + 2 * k3.tdiv 2 ≤ Serial.MAX_SIZE; rw [hpw, hmax]; omega)
    (by show n + k3 - 1 ≤ Serial.MAX_SIZE; rw [hmax]; omega)
    (by show n + k3 - 1 ≤ Serial.MAX_SIZE; rw [hmax]; omega)
    (by show n + k3 - 1 ≤ Serial.MAX_SIZE; rw [hmax]; omega)
    (by show n + k3 - 1 ≤ Serial.MAX_SIZE; rw [hmax]; omega)
    (by show _ ≤ Serial.MAX_SIZE; rw [hmax]; omega)
    (by show _ ≤ Serial.MAX_SIZE; rw [hmax]; omega)
    (by show _ ≤ Serial.MAX_SIZE; rw [hmax]; omega)
    (by show _ ≤ Serial.MAX_SIZE; rw [hmax]; omega)
    (by show _ ≤ Serial.MAX_SIZE; rw [hmax]; omega)
    (by show _ ≤ Serial.MAX_SIZE; rw [hmax]; omega)
    a ha

/-- Within its allocations, a run of `main` of `serialDM.c` has the result that
`SerialDM.main` describes: sizes `1 ≤ n, k3 ≤ MAX_SIZE`, kernel files of at most `MAX_SIZE`
rows, and `paddedSize = n + (k3 / 2) * 2 ≥ 2`. -/
theorem serialDM_run_defined {α : Type} [LinearOrderedField α] (exp : α → α)
    (n k1 k2 k3 : Int) (hn : 1 ≤ n) (hn2 : n ≤ 5000) (hk3 : 1 ≤ k3) (hk32 : k3 ≤ 5000)
    (hk1 : k1 ≤ 5000) (hk2 : k2 ≤ 5000) (hps : 2 ≤ n + k3 / 2 * 2) (G K1 K2 K3 : Grid α)
    (heap : SerialDM.Heap α) (mem : Buffers α) :
    SerialDM.run exp ⟨n, G⟩ ⟨k1, K1⟩ ⟨k2, K2⟩ ⟨k3, K3⟩ heap mem
      = some (SerialDM.main exp ⟨n, G⟩ ⟨k1, K1⟩ ⟨k2, K2⟩ ⟨k3, K3⟩ heap mem) := by
  have hpw : k3.tdiv 2 = k3 / 2 := Int.tdiv_eq_ediv (by omega) (by decide)
  have hmax : SerialDM.MAX_SIZE = 5000 := rfl
  have hpool := pool2_outputSize (n + k3.tdiv 2 * 2) (by rw [hpw]; omega)
  have hpool2 := hpool.2.2 (by rw [hpw]; omega)
  refine checked_some _ _ _ (fun a ha => ?_)
  exact pipeline_inBounds_sizes (SerialDM.allocated n k3) n k1 k2 k3 (k3.tdiv 2)
    (n + k3.tdiv 2 * 2) (n + k3.tdiv 2 * 2) hk3
    (by show n ≤ SerialDM.MAX_SIZE; rw [hmax]; omega)
    (by show k1 ≤ SerialDM.MAX_SIZE; rw [hmax]; omega)
    (by show k2 ≤ SerialDM.MAX_SIZE; rw [hmax]; omega)
    (by show k3 ≤ SerialDM.MAX_SIZE; rw [hmax]; omega)
    (by show k3 ≤ SerialDM.MAX_SIZE; rw [hmax]; omega)
    (by show k3 ≤ SerialDM.MAX_SIZE; rw [hmax]; omega)
    (le_refl _) (le_refl _) (le_refl _) (le_refl _) (le_refl _)
    hpool2 hpool2 hpool2 (le_refl _) (le_refl _) (le_refl _) a ha

/-- With `inputSize = 300` and `kernelSize = 3` a run of `main` of `serial.c` stores into
`paddedInput[301][301]`, outside the `MAX_SIZE × MAX_SIZE` array: it has no result. -/
theorem serial_run_overrun {α : Type} [LinearOrderedField α] (exp : α → α)
    (G K1 K2 K3 : Grid α) (mem : Buffers α) :
    Serial.run exp ⟨300, G⟩ ⟨3, K1⟩ ⟨3, K2⟩ ⟨3, K3⟩ mem = none := by
  have hz : (⟨Mode.write, Var.paddedInput, 301, 301⟩ : Access Var)
      ∈ Serial.zeroPadTrace Var.input Var.paddedInput 300 ((3 : Int).tdiv 2) := by
    unfold Serial.zeroPadTrace
    refine (mem_forTrace _ _ _).mpr ⟨301, by decide, by decide, ?_⟩
    refine (mem_forTrace _ _ _).mpr ⟨301, by decide, by decide, ?_⟩
    decide
  have hmem : (⟨Mode.write, Var.paddedInput, 301, 301⟩ : Access Var)
      ∈ Serial.mainTrace 300 3 3 3 := by
    unfold Serial.mainTrace
    iterate 9 apply List.mem_append_left
    exact List.mem_append_right _ hz
  have hout : ¬ ((0 : Int) ≤ 301 ∧ (301 : Int) < Serial.MAX_SIZE
      ∧ (0 : Int) ≤ 301 ∧ (301 : Int) < Serial.MAX_SIZE) := by decide
  exact checked_none _ _ _ _ hmem hout

/-- With `inputSize = 1` and `kernelSize = 1` a run of `main` of `serialDM.c` loads
`conv1[1][1]`, outside the 1 × 1 allocation: it has no result. -/
theorem serialDM_run_overrun_small {α : Type} [LinearOrderedField α] (exp : α → α)
    (G K1 K2 K3 : Grid α) (heap : SerialDM.Heap α) (mem : Buffers α) :
    SerialDM.run exp ⟨1, G⟩ ⟨1, K1⟩ ⟨1, K2⟩ ⟨1, K3⟩ heap mem = none := by
  have hmem : (⟨Mode.read, Var.conv1, 1, 1⟩ : Access Var) ∈ SerialDM.mainTrace 1 1 1 1 := by
    decide
  have hout : ¬ ((0 : Int) ≤ 1 ∧ (1 : Int) < SerialDM.allocated 1 1 Var.conv1
      ∧ (0 : Int) ≤ 1 ∧ (1 : Int) < SerialDM.allocated 1 1 Var.conv1) := by decide
  exact checked_none _ _ _ _ hmem hout

/-- With `inputSize = 5001` a run of `main` of `serialDM.c` stores into
`input[5000][5000]`, outside the `MAX_SIZE × MAX_SIZE` allocation: it has no result. -/
theorem serialDM_run_overrun_large {α : Type} [LinearOrderedField α] (exp : α → α)
    (G K1 K2 K3 : Grid α) (heap : SerialDM.Heap α) (mem : Buffers α) :
    SerialDM.run exp ⟨5001, G⟩ ⟨3, K1⟩ ⟨3, K2⟩ ⟨3, K3⟩ heap mem = none := by
  have hr : (⟨Mode.write, Var.input, 5000, 5000⟩ : Access Var)
      ∈ readMatrixFromFileTrace Var.input 5001 := by
    unfold readMatrixFromFileTrace
    refine (mem_forTrace _ _ _).mpr ⟨5000, by decide, by decide, ?_⟩
    refine (mem_forTrace _ _ _).mpr ⟨5000, by decide, by decide, ?_⟩
    decide
  have hmem : (⟨Mode.write, Var.input, 5000, 5000⟩ : Access Var)
      ∈ SerialDM.mainTrace 5001 3 3 3 := by
    unfold SerialDM.mainTrace
    iterate 13 apply List.mem_append_left
    exact hr
  have hout : ¬ ((0 : Int) ≤ 5000 ∧ (5000 : Int) < SerialDM.allocated 5001 3 Var.input
      ∧ (0 : Int) ≤ 5000 ∧ (5000 : Int) < SerialDM.allocated 5001 3 Var.input) := by decide
  exact checked_none _ _ _ _ hmem hout

/-! ## C3: `zeroPad` within the capacity of its arrays -/

/-- A call of `zeroPad` on arrays with `matrixDim` and `paddedDim` rows and columns that
are large enough has the result that `SerialDM.zeroPad` describes. -/
theorem zeroPad_checked {α : Type} (matrixDim paddedDim size padWidth paddedSize : Int)
    (hm : size ≤ matrixDim) (hp : paddedSize ≤ paddedDim) (result : Grid α) :
    checked (fun v => if v = Var.input then matrixDim else paddedDim)
        (SerialDM.zeroPadTrace Var.input Var.paddedInput size padWidth paddedSize) result
      = some result := by
  refine checked_some _ _ _ (fun a ha => ?_)
  rcases zeroPadTrace_bounds _ _ _ _ _ a ha with
    ⟨_, harr, h1, h2, h3, h4⟩ | ⟨_, harr, h1, h2, h3, h4⟩
  · rw [harr, if_pos rfl]
    omega
  · have hne : ¬ (Var.paddedInput = Var.input) := by decide
    rw [harr, if_neg hne]
    omega

/-- C3 as stated fails: with `n = 300` and `p = 1` (the call that `main` of `serial.c` makes
for a 300 × 300 input and a 3 × 3 kernel) `zeroPad` of `serial.c` stores into
`paddedMatrix[301][301]`, outside its `MAX_SIZE × MAX_SIZE` parameter, so the call has no
defined result and no cell `padded[1 + 0][1 + 299]` holding `G[0][299]`; and `zeroPad` of
`serialDM.c` called with `paddedSize = 3` on a 1 × 1 array stores outside it. -/
theorem zeroPad_capacity_counterexample :
    ((0 : Int) ≤ 300 ∧ (0 : Int) ≤ 1)
    ∧ Serial.zeroPadRun (constGrid (1 : ℚ)) 300 1 (constGrid 0) = none
    ∧ (¬ ∃ P : Grid ℚ, Serial.zeroPadRun (constGrid (1 : ℚ)) 300 1 (constGrid 0) = some P
        ∧ P (1 + 0) (1 + 299) = (constGrid 1 : Grid ℚ) 0 299)
    ∧ SerialDM.zeroPadRun 1 1 (constGrid (1 : ℚ)) 1 1 (constGrid 0) (1 + 2 * 1) = none := by
  have hz : (⟨Mode.write, Var.paddedInput, 301, 301⟩ : Access Var)
      ∈ Serial.zeroPadTrace Var.input Var.paddedInput 300 1 := by
    unfold Serial.zeroPadTrace
    refine (mem_forTrace _ _ _).mpr ⟨301, by decide, by decide, ?_⟩
    refine (mem_forTrace _ _ _).mpr ⟨301, by decide, by decide, ?_⟩
    decide
  have hout : ¬ ((0 : Int) ≤ 301 ∧ (301 : Int) < Serial.MAX_SIZE
      ∧ (0 : Int) ≤ 301 ∧ (301 : Int) < Serial.MAX_SIZE) := by decide
  have hnone : Serial.zeroPadRun (constGrid (1 : ℚ)) 300 1 (constGrid 0) = none :=
    checked_none _ _ _ _ hz hout
  have hd : (⟨Mode.write, Var.paddedInput, 2, 2⟩ : Access Var)
      ∈ SerialDM.zeroPadTrace Var.input Var.paddedInput 1 1 (1 + 2 * 1) := by decide
  have houtd : ¬ ((0 : Int) ≤ 2 ∧ (2 : Int) < (if Var.paddedInput = Var.input then 1 else 1)
      ∧ (0 : Int) ≤ 2 ∧ (2 : Int) < (if Var.paddedInput = Var.input then 1 else 1)) := by
    decide
  refine ⟨by decide, hnone, ?_, checked_none _ _ _ _ hd houtd⟩
  rintro ⟨P, hP, _⟩
  rw [hnone] at hP
  exact absurd hP (by simp)

/-- C3, amended. For a grid `G` of size `n ≥ 0` and a pad width `p ≥ 0` with
`n + 2p ≤ MAX_SIZE = 300`, the call of `zeroPad` of `serial.c` stays inside its arrays and
leaves `padded[p+i][p+j] = G[i][j]` for all `0 ≤ i, j < n` and `padded[r][c] = 0` for every
other `(r, c)` with `0 ≤ r, c < n + 2p`; the same holds for `zeroPad` of `serialDM.c` called
with `paddedSize = n + 2p` on arrays that have at least `n` (`matrix`) and `n + 2p`
(`paddedMatrix`) rows and columns. -/
theorem zeroPad_within_capacity {α : Type} [Zero α] (G : Grid α) (n p : Int) (hn : 0 ≤ n)
    (hp : 0 ≤ p) (before : Grid α) :
    (n + 2 * p ≤ Serial.MAX_SIZE →
      ∃ P : Grid α, Serial.zeroPadRun G n p before = some P
        ∧ (∀ i j : Int, 0 ≤ i → i < n → 0 ≤ j → j < n → P (p + i) (p + j) = G i j)
        ∧ (∀ r c : Int, 0 ≤ r → r < n + 2 * p → 0 ≤ c → c < n + 2 * p →
            ¬ (∃ i j : Int, 0 ≤ i ∧ i < n ∧ 0 ≤ j ∧ j < n ∧ r = p + i ∧ c = p + j) →
            P r c = 0))
    ∧ (∀ matrixDim paddedDim : Int, n ≤ matrixDim → n + 2 * p ≤ paddedDim →
      ∃ P : Grid α,
        SerialDM.zeroPadRun matrixDim paddedDim G n p before (n + 2 * p) = some P
        ∧ (∀ i j : Int, 0 ≤ i → i < n → 0 ≤ j → j < n → P (p + i) (p + j) = G i j)
        ∧ (∀ r c : Int, 0 ≤ r → r < n + 2 * p → 0 ≤ c → c < n + 2 * p →
            ¬ (∃ i j : Int, 0 ≤ i ∧ i < n ∧ 0 ≤ j ∧ j < n ∧ r = p + i ∧ c = p + j) →
            P r c = 0)) := by
  have hval := zeroPad_spec G n p hn hp before
  constructor
  · intro hcap
    have hrun : Serial.zeroPadRun G n p before = some (Serial.zeroPad G n p before) := by
      refine checked_some _ _ _ (fun a ha => ?_)
      have hmax : Serial.MAX_SIZE = 300 := rfl
      rw [hmax] at hcap
      rcases zeroPadTrace_bounds _ _ _ _ _ a ha with
        ⟨_, _, h1, h2, h3, h4⟩ | ⟨_, _, h1, h2, h3, h4⟩
      · show 0 ≤ a.row ∧ a.row < Serial.MAX_SIZE ∧ 0 ≤ a.col ∧ a.col < Serial.MAX_SIZE
        rw [hmax]; omega
      · show 0 ≤ a.row ∧ a.row < Serial.MAX_SIZE ∧ 0 ≤ a.col ∧ a.col < Serial.MAX_SIZE
        rw [hmax]; omega
    exact ⟨_, hrun, fun i j h1 h2 h3 h4 => (hval.1 i j h1 h2 h3 h4).1,
      fun r c h1 h2 h3 h4 h5 => (hval.2 r c h1 h2 h3 h4 h5).1⟩
  · intro matrixDim paddedDim hm hpd
    exact ⟨_, zeroPad_checked matrixDim paddedDim n p (n + 2 * p) hm hpd _,
      fun i j h1 h2 h3 h4 => (hval.1 i j h1 h2 h3 h4).2,
      fun r c h1 h2 h3 h4 h5 => (hval.2 r c h1 h2 h3 h4 h5).2⟩

/-- The interior cell `(1+1, 1+0)` and the halo cell `(0, 3)` after `zeroPad` of `serial.c`
on the grid `[[1,2],[3,4]]` with pad width 1, an array that held `7` everywhere. -/
theorem zeroPad_example :
    Serial.zeroPad grid2x2 2 1 (constGrid 7) (1 + 1) (1 + 0) = 3
    ∧ Serial.zeroPad grid2x2 2 1 (constGrid 7) 0 3 = 0 := by
  have h := zeroPad_spec grid2x2 2 1 (by decide) (by decide) (constGrid 7)
  refine ⟨((h.1 1 0 (by decide) (by decide) (by decide) (by decide)).1).trans ?_,
    (h.2 0 3 (by decide) (by decide) (by decide) (by decide)
      (by rintro ⟨i, j, h1, h2, h3, h4, h5, h6⟩; omega)).1⟩
  simp [grid2x2, ofRows]

/-- C3, amended, at the 2 × 2 grid `[[1,2],[3,4]]` with pad width 1 (`2 + 2 * 1 ≤ 300`): the
call of `zeroPad` of `serial.c` has a result, whose interior cell `(1+1, 1+0)` holds
`G[1][0] = 3` and whose halo cell `(0, 3)` holds `0`. -/
theorem zeroPad_within_capacity_witness :
    ((0 : Int) ≤ 2 ∧ (0 : Int) ≤ 1 ∧ (2 : Int) + 2 * 1 ≤ Serial.MAX_SIZE)
    ∧ (∃ P : Grid ℚ, Serial.zeroPadRun grid2x2 2 1 (constGrid 7) = some P
        ∧ (∀ i j : Int, 0 ≤ i → i < 2 → 0 ≤ j → j < 2 → P (1 + i) (1 + j) = grid2x2 i j)
        ∧ (∀ r c : Int, 0 ≤ r → r < 2 + 2 * 1 → 0 ≤ c → c < 2 + 2 * 1 →
            ¬ (∃ i j : Int, 0 ≤ i ∧ i < 2 ∧ 0 ≤ j ∧ j < 2 ∧ r = 1 + i ∧ c = 1 + j) →
            P r c = 0))
    ∧ (Serial.zeroPad grid2x2 2 1 (constGrid 7) (1 + 1) (1 + 0) = 3
        ∧ Serial.zeroPad grid2x2 2 1 (constGrid 7) 0 3 = 0) :=
  ⟨by decide,
   (zeroPad_within_capacity grid2x2 2 1 (by decide) (by decide) (constGrid 7)).1 (by decide),
   zeroPad_example⟩

/-! ## C1: end-to-end value of a branch -/

/-- C1 as stated fails: for the input size `n = 300 ≥ 2` and the kernel size `k = 3 ≥ 1` the
run of `serial.c` stores outside `paddedInput` (`zeroPad` fills 302 rows and columns of a
`300 × 300` array) and has no defined result, hence no pooled cell `(0, 0)` equal to the
claimed value; the run of `serialDM.c` on an input of size 5001 stores outside `input`. -/
theorem main_branch_value_counterexample :
    (2 ≤ 300 ∧ 1 ≤ 3 ∧ 0 < (300 - 2) / 2 + 1)
    ∧ Serial.run Real.exp (constFile 300 1) (constFile 3 (1 / 9)) (constFile 3 (1 / 9))
        (constFile 3 (1 / 9)) (constBuffers 0) = none
    ∧ (¬ ∃ R : Result ℝ,
        Serial.run Real.exp (constFile 300 1) (constFile 3 (1 / 9)) (constFile 3 (1 / 9))
          (constFile 3 (1 / 9)) (constBuffers 0) = some R
        ∧ R.pooled1 0 0
          = ((branchValue Real.exp (constGrid 1) 300 3 (constGrid (1 / 9)) 0 0 : ℝ)
              : WithBot ℝ))
    ∧ SerialDM.run Real.exp (constFile 5001 1) (constFile 3 (1 / 9)) (constFile 3 (1 / 9))
        (constFile 3 (1 / 9)) (constHeap 0) (constBuffers 0) = none := by
  have hnone : Serial.run Real.exp (constFile 300 1) (constFile 3 (1 / 9))
      (constFile 3 (1 / 9)) (constFile 3 (1 / 9)) (constBuffers 0) = none :=
    serial_run_overrun Real.exp _ _ _ _ _
  refine ⟨by decide, hnone, ?_, serialDM_run_overrun_large Real.exp _ _ _ _ _ _⟩
  rintro ⟨R, hR, _⟩
  rw [hnone] at hR
  exact absurd hR (by simp)

/-- C1, amended. For an input grid `G` of size `n ≥ 2` and kernels `K1`, `K2`, `K3` of size
`k ≥ 1`, within the capacity of the arrays (`n + 2 * (k / 2) ≤ MAX_SIZE = 300` in
`serial.c`; `n ≤ 5000` and `k ≤ 5000` in `serialDM.c`) the run of `main` stays inside its
arrays and every pooled cell `(y, x)` with `0 ≤ y, x < (n - 2) / 2 + 1` of every branch
equals the maximum over `i, j ∈ {0, 1}` of
`sigmoid (Σ_{a<k} Σ_{b<k} P[2y+i+a][2x+j+b] * K[a][b])`, `P` being `G` zero-padded by `k / 2`
on every side, whatever the arrays held before (arithmetic over the reals). -/
theorem main_branch_value_within_capacity (n k : Nat) (hn : 2 ≤ n) (hk : 1 ≤ k)
    (G K1 K2 K3 : Grid ℝ) (heap : SerialDM.Heap ℝ) (mem : Buffers ℝ) (y x : Nat)
    (hy : y < (n - 2) / 2 + 1) (hx : x < (n - 2) / 2 + 1) :
    (n + 2 * (k / 2) ≤ 300 →
      ∃ R : Result ℝ, Serial.run Real.exp ⟨n, G⟩ ⟨k, K1⟩ ⟨k, K2⟩ ⟨k, K3⟩ mem = some R
        ∧ R.pooled1 y x = ((branchValue Real.exp G n k K1 y x : ℝ) : WithBot ℝ)
        ∧ R.pooled2 y x = ((branchValue Real.exp G n k K2 y x : ℝ) : WithBot ℝ)
        ∧ R.pooled3 y x = ((branchValue Real.exp G n k K3 y x : ℝ) : WithBot ℝ))
    ∧ (n ≤ 5000 → k ≤ 5000 →
      ∃ R : Result ℝ,
        SerialDM.run Real.exp ⟨n, G⟩ ⟨k, K1⟩ ⟨k, K2⟩ ⟨k, K3⟩ heap mem = some R
        ∧ R.pooled1 y x = ((branchValue Real.exp G n k K1 y x : ℝ) : WithBot ℝ)
        ∧ R.pooled2 y x = ((branchValue Real.exp G n k K2 y x : ℝ) : WithBot ℝ)
        ∧ R.pooled3 y x = ((branchValue Real.exp G n k K3 y x : ℝ) : WithBot ℝ)) := by
  have hval := main_branch_value n k hn hk G K1 K2 K3 heap mem y x hy hx
  constructor
  · intro hcap
    exact ⟨_, serial_run_defined Real.exp n k k k (by omega) (by omega) (by omega) (by omega)
      (by omega) G K1 K2 K3 mem, hval.1⟩
  · intro hn2 hk2
    exact ⟨_, serialDM_run_defined Real.exp n k k k (by omega) (by omega) (by omega)
      (by omega) (by omega) (by omega) (by omega) G K1 K2 K3 heap mem, hval.2⟩

/-- C1, amended, at input size 5 (all cells `1`), kernel size 3 (all cells `1/9`), pooled
cell `(1, 1)`: both runs have a result with the stated pooled cells. -/
theorem main_branch_value_within_capacity_witness :
    (2 ≤ 5 ∧ 1 ≤ 3 ∧ 1 < (5 - 2) / 2 + 1 ∧ 5 + 2 * (3 / 2) ≤ 300 ∧ 5 ≤ 5000 ∧ 3 ≤ 5000)
    ∧ (∃ R : Result ℝ,
        Serial.run Real.exp ⟨(5 : Nat), constGrid 1⟩ ⟨(3 : Nat), constGrid (1 / 9)⟩
          ⟨(3 : Nat), constGrid (1 / 9)⟩ ⟨(3 : Nat), constGrid (1 / 9)⟩ (constBuffers 7)
          = some R
        ∧ R.pooled1 (1 : Nat) (1 : Nat)
          = ((branchValue Real.exp (constGrid 1) 5 3 (constGrid (1 / 9)) 1 1 : ℝ) : WithBot ℝ)
        ∧ R.pooled2 (1 : Nat) (1 : Nat)
          = ((branchValue Real.exp (constGrid 1) 5 3 (constGrid (1 / 9)) 1 1 : ℝ) : WithBot ℝ)
        ∧ R.pooled3 (1 : Nat) (1 : Nat)
          = ((branchValue Real.exp (constGrid 1) 5 3 (constGrid (1 / 9)) 1 1 : ℝ)
              : WithBot ℝ))
    ∧ (∃ R : Result ℝ,
        SerialDM.run Real.exp ⟨(5 : Nat), constGrid 1⟩ ⟨(3 : Nat), constGrid (1 / 9)⟩
          ⟨(3 : Nat), constGrid (1 / 9)⟩ ⟨(3 : Nat), constGrid (1 / 9)⟩ (constHeap 7)
          (constBuffers 7) = some R
        ∧ R.pooled1 (1 : Nat) (1 : Nat)
          = ((branchValue Real.exp (constGrid 1) 5 3 (constGrid (1 / 9)) 1 1 : ℝ) : WithBot ℝ)
        ∧ R.pooled2 (1 : Nat) (1 : Nat)
          = ((branchValue Real.exp (constGrid 1) 5 3 (constGrid (1 / 9)) 1 1 : ℝ) : WithBot ℝ)
        ∧ R.pooled3 (1 : Nat) (1 : Nat)
          = ((branchValue Real.exp (constGrid 1) 5 3 (constGrid (1 / 9)) 1 1 : ℝ)
              : WithBot ℝ)) :=
  ⟨by decide,
   (main_branch_value_within_capacity 5 3 (by decide) (by decide) (constGrid 1)
      (constGrid (1 / 9)) (constGrid (1 / 9)) (constGrid (1 / 9)) (constHeap 7)
      (constBuffers 7) 1 1 (by decide) (by decide)).1 (by decide),
   (main_branch_value_within_capacity 5 3 (by decide) (by decide) (constGrid 1)
      (constGrid (1 / 9)) (constGrid (1 / 9)) (constGrid (1 / 9)) (constHeap 7)
      (constBuffers 7) 1 1 (by decide) (by decide)).2 (by decide) (by decide)⟩

/-! ## C9: pooled values lie in the open unit interval -/

/-- C9 as stated fails: for the input size `n = 300 ≥ 2` and the kernel size `k = 3 ≥ 1` the
run of `serial.c` stores outside `paddedInput` and has no defined result, hence no pooled
cell `(0, 0)` with a value in `(0, 1)`; the run of `serialDM.c` on an input of size 5001
stores outside `input`. -/
theorem pooled_in_unit_interval_counterexample :
    (2 ≤ 300 ∧ 1 ≤ 3)
    ∧ Serial.run Real.exp (constFile 300 1) (constFile 3 (1 / 9)) (constFile 3 (1 / 9))
        (constFile 3 (1 / 9)) (constBuffers 0) = none
    ∧ (¬ ∃ R : Result ℝ,
        Serial.run Real.exp (constFile 300 1) (constFile 3 (1 / 9)) (constFile 3 (1 / 9))
          (constFile 3 (1 / 9)) (constBuffers 0) = some R
        ∧ InUnitInterval (R.pooled1 0 0))
    ∧ SerialDM.run Real.exp (constFile 5001 1) (constFile 3 (1 / 9)) (constFile 3 (1 / 9))
        (constFile 3 (1 / 9)) (constHeap 0) (constBuffers 0) = none := by
  have hnone : Serial.run Real.exp (constFile 300 1) (constFile 3 (1 / 9))
      (constFile 3 (1 / 9)) (constFile 3 (1 / 9)) (constBuffers 0) = none :=
    serial_run_overrun Real.exp _ _ _ _ _
  refine ⟨by decide, hnone, ?_, serialDM_run_overrun_large Real.exp _ _ _ _ _ _⟩
  rintro ⟨R, hR, _⟩
  rw [hnone] at hR
  exact absurd hR (by simp)

/-- C9, amended. For an input of size `n ≥ 2` and kernels of size `k ≥ 1`, within the
capacity of the arrays (`n + 2 * (k / 2) ≤ MAX_SIZE = 300` in `serial.c`; `n ≤ 5000` and
`k ≤ 5000` in `serialDM.c`) and whatever the arrays held before, the run of `main` stays
inside its arrays and every cell `(y, x)` with `0 ≤ y, x < outputSize` (the `outputSize` that
`main` computes) of each of the three pooled arrays is a real number strictly greater than
0 and strictly less than 1. -/
theorem pooled_in_unit_interval_within_capacity (n k : Nat) (hn : 2 ≤ n) (hk : 1 ≤ k)
    (G K1 K2 K3 : Grid ℝ) (heap : SerialDM.Heap ℝ) (mem : Buffers ℝ) :
    (n + 2 * (k / 2) ≤ 300 →
      ∃ R : Result ℝ, Serial.run Real.exp ⟨n, G⟩ ⟨k, K1⟩ ⟨k, K2⟩ ⟨k, K3⟩ mem = some R
        ∧ ∀ y x : Int, 0 ≤ y → y < R.outputSize → 0 ≤ x → x < R.outputSize →
            InUnitInterval (R.pooled1 y x) ∧ InUnitInterval (R.pooled2 y x)
              ∧ InUnitInterval (R.pooled3 y x))
    ∧ (n ≤ 5000 → k ≤ 5000 →
      ∃ R : Result ℝ,
        SerialDM.run Real.exp ⟨n, G⟩ ⟨k, K1⟩ ⟨k, K2⟩ ⟨k, K3⟩ heap mem = some R
        ∧ ∀ y x : Int, 0 ≤ y → y < R.outputSize → 0 ≤ x → x < R.outputSize →
            InUnitInterval (R.pooled1 y x) ∧ InUnitInterval (R.pooled2 y x)
              ∧ InUnitInterval (R.pooled3 y x)) := by
  constructor
  · intro hcap
    exact ⟨_, serial_run_defined Real.exp n k k k (by omega) (by omega) (by omega) (by omega)
      (by omega) G K1 K2 K3 mem,
      fun y x h1 h2 h3 h4 =>
        (pooled_in_unit_interval n k hn hk G K1 K2 K3 heap mem y x).1 h1 h2 h3 h4⟩
  · intro hn2 hk2
    exact ⟨_, serialDM_run_defined Real.exp n k k k (by omega) (by omega) (by omega)
      (by omega) (by omega) (by omega) (by omega) G K1 K2 K3 heap mem,
      fun y x h1 h2 h3 h4 =>
        (pooled_in_unit_interval n k hn hk G K1 K2 K3 heap mem y x).2 h1 h2 h3 h4⟩

/-- C9, amended, at input size 5 and kernel size 3 with all entries `1/9`: the run of
`serial.c` has a result, and every cell below its `outputSize` of the three pooled arrays
lies strictly between 0 and 1; the `outputSize` of that run is 3. -/
theorem pooled_in_unit_interval_within_capacity_witness :
    (2 ≤ 5 ∧ 1 ≤ 3 ∧ 5 + 2 * (3 / 2) ≤ 300)
    ∧ (∃ R : Result ℝ,
        Serial.run Real.exp ⟨(5 : Nat), constGrid 1⟩ ⟨(3 : Nat), constGrid (1 / 9)⟩
          ⟨(3 : Nat), constGrid (1 / 9)⟩ ⟨(3 : Nat), constGrid (1 / 9)⟩ (constBuffers 7)
          = some R
        ∧ ∀ y x : Int, 0 ≤ y → y < R.outputSize → 0 ≤ x → x < R.outputSize →
            InUnitInterval (R.pooled1 y x) ∧ InUnitInterval (R.pooled2 y x)
              ∧ InUnitInterval (R.pooled3 y x))
    ∧ (Serial.main Real.exp ⟨(5 : Nat), constGrid 1⟩ ⟨(3 : Nat), constGrid (1 / 9)⟩
        ⟨(3 : Nat), constGrid (1 / 9)⟩ ⟨(3 : Nat), constGrid (1 / 9)⟩
        (constBuffers 7)).outputSize = 3 :=
  ⟨by decide,
   (pooled_in_unit_interval_within_capacity 5 3 (by decide) (by decide) (constGrid 1)
      (constGrid (1 / 9)) (constGrid (1 / 9)) (constGrid (1 / 9)) (constHeap 7)
      (constBuffers 7)).1 (by decide),
   by decide⟩

/-! ## C18: same-size convolution in the pipeline -/

/-- C18 as stated fails: for the input size `n = 300 ≥ 1` and the odd kernel size `k = 3` the
run of `serial.c` stores outside `paddedInput` before `convolve2D` is called and has no
defined result, hence no convolution array of dimension `paddedSize - 3 + 1 = 300`; for
`n = 1`, `k = 1` the run of `serialDM.c` loads outside `conv1`, and for `n = 5001` it stores
outside `input`. -/
theorem main_same_size_convolution_counterexample :
    (1 ≤ 300 ∧ 3 % 2 = 1)
    ∧ Serial.run Real.exp (constFile 300 1) (constFile 3 (1 / 9)) (constFile 3 (1 / 9))
        (constFile 3 (1 / 9)) (constBuffers 0) = none
    ∧ (¬ ∃ R : Result ℝ,
        Serial.run Real.exp (constFile 300 1) (constFile 3 (1 / 9)) (constFile 3 (1 / 9))
          (constFile 3 (1 / 9)) (constBuffers 0) = some R
        ∧ R.paddedSize - 3 + 1 = 300)
    ∧ SerialDM.run Real.exp (constFile 1 1) (constFile 1 (1 / 9)) (constFile 1 (1 / 9))
        (constFile 1 (1 / 9)) (constHeap 0) (constBuffers 0) = none
    ∧ SerialDM.run Real.exp (constFile 5001 1) (constFile 3 (1 / 9)) (constFile 3 (1 / 9))
        (constFile 3 (1 / 9)) (constHeap 0) (constBuffers 0) = none := by
  have hnone : Serial.run Real.exp (constFile 300 1) (constFile 3 (1 / 9))
      (constFile 3 (1 / 9)) (constFile 3 (1 / 9)) (constBuffers 0) = none :=
    serial_run_overrun Real.exp _ _ _ _ _
  refine ⟨by decide, hnone, ?_, serialDM_run_overrun_small Real.exp _ _ _ _ _ _,
    serialDM_run_overrun_large Real.exp _ _ _ _ _ _⟩
  rintro ⟨R, hR, _⟩
  rw [hnone] at hR
  exact absurd hR (by simp)

/-- C18, amended. For an input of size `n ≥ 1` and kernels of odd size `k`, within the
capacity of the arrays (`n + 2 * (k / 2) ≤ MAX_SIZE = 300` in `serial.c`; `n ≤ 5000`,
`k ≤ 5000` and `paddedSize = n + 2 * (k / 2) ≥ 2` in `serialDM.c`) the run of `main` stays
inside its arrays, the square that `convolve2D` writes has dimension
`paddedSize - kernelSize + 1 = n`, and for all `0 ≤ y, x < n` the cell `(y, x)` that each
`convolve2D` call of `main` writes (for the kernel `K` read into a kernel array, whatever
the kernel and convolution arrays held before) is
`Σ_{a<k} Σ_{b<k} in(y + a - k/2, x + b - k/2) * K[a][b]`, where `in(r, c)` is `input[r][c]` for
`0 ≤ r, c < n` and `0` otherwise; the arrays `conv1`, `conv2`, `conv3` then hold `sigmoid` of
these sums. -/
theorem main_same_size_convolution_within_capacity {α : Type} [LinearOrderedField α]
    (exp : α → α) (n k : Nat) (hn : 1 ≤ n) (hodd : k % 2 = 1) (G K1 K2 K3 : Grid α)
    (heap : SerialDM.Heap α) (mem : Buffers α) :
    (n + 2 * (k / 2) ≤ 300 →
      ∃ R : Result α, Serial.run exp ⟨n, G⟩ ⟨k, K1⟩ ⟨k, K2⟩ ⟨k, K3⟩ mem = some R
        ∧ R.paddedSize - (k : Int) + 1 = (n : Int)
        ∧ (∀ (K k0 conv0 : Grid α) (y x : Nat), y < n → x < n →
            convolve2D R.paddedInput (readMatrixFromFile ⟨(k : Int), K⟩ k0).1 conv0
                R.paddedSize (k : Int) (y : Int) (x : Int)
              = centredSum G n k K y x)
        ∧ (∀ y x : Nat, y < n → x < n →
            R.conv1 y x = sigmoid exp (centredSum G n k K1 y x)
            ∧ R.conv2 y x = sigmoid exp (centredSum G n k K2 y x)
            ∧ R.conv3 y x = sigmoid exp (centredSum G n k K3 y x)))
    ∧ (n ≤ 5000 → k ≤ 5000 → 2 ≤ n + 2 * (k / 2) →
      ∃ R : Result α, SerialDM.run exp ⟨n, G⟩ ⟨k, K1⟩ ⟨k, K2⟩ ⟨k, K3⟩ heap mem = some R
        ∧ R.paddedSize - (k : Int) + 1 = (n : Int)
        ∧ (∀ (K k0 conv0 : Grid α) (y x : Nat), y < n → x < n →
            convolve2D R.paddedInput (readMatrixFromFile ⟨(k : Int), K⟩ k0).1 conv0
                R.paddedSize (k : Int) (y : Int) (x : Int)
              = centredSum G n k K y x)
        ∧ (∀ y x : Nat, y < n → x < n →
            R.conv1 y x = sigmoid exp (centredSum G n k K1 y x)
            ∧ R.conv2 y x = sigmoid exp (centredSum G n k K2 y x)
            ∧ R.conv3 y x = sigmoid exp (centredSum G n k K3 y x))) := by
  have hval := main_same_size_convolution exp n k hn hodd G K1 K2 K3 heap mem
  constructor
  · intro hcap
    exact ⟨_, serial_run_defined exp n k k k (by omega) (by omega) (by omega) (by omega)
      (by omega) G K1 K2 K3 mem, hval.1.1,
      fun K k0 conv0 y x hy hx => (hval.2.1 K k0 conv0 y x hy hx).1,
      fun y x hy hx => (hval.2.2 y x hy hx).1⟩
  · intro hn2 hk2 hps
    exact ⟨_, serialDM_run_defined exp n k k k (by omega) (by omega) (by omega)
      (by omega) (by omega) (by omega) (by omega) G K1 K2 K3 heap mem, hval.1.2,
      fun K k0 conv0 y x hy hx => (hval.2.1 K k0 conv0 y x hy hx).2,
      fun y x hy hx => (hval.2.2 y x hy hx).2⟩

/-- The centred sum at input size 2 (all cells `1`), kernel size 3 (all cells `1/9`) and
cell `(1, 0)` is `4/9`: four of the nine neighbours lie inside the input. -/
theorem centredSum_example :
    centredSum (constGrid (1 : ℝ)) 2 3 (constGrid (1 / 9)) ((1 : Nat) : Int) ((0 : Nat) : Int)
      = 4 / 9 := by
  simp only [centredSum, inputOrZero, constGrid, Finset.sum_range_succ, Finset.range_zero,
    Finset.sum_empty]
  norm_num

/-- C18, amended, at input size 2 (all cells `1`) and kernel size 3 (all cells `1/9`): the
run of `serial.c` has a result, its written square has dimension 2, and the cell `(1, 0)`
written by `convolve2D` is the centred sum, which is `4/9`. -/
theorem main_same_size_convolution_within_capacity_witness :
    (1 ≤ 2 ∧ 3 % 2 = 1 ∧ 2 + 2 * (3 / 2) ≤ 300 ∧ 1 < 2 ∧ 0 < 2)
    ∧ (∃ R : Result ℝ,
        Serial.run Real.exp ⟨(2 : Nat), constGrid 1⟩ ⟨(3 : Nat), constGrid (1 / 9)⟩
          ⟨(3 : Nat), constGrid (1 / 9)⟩ ⟨(3 : Nat), constGrid (1 / 9)⟩ (constBuffers 7)
          = some R
        ∧ R.paddedSize - ((3 : Nat) : Int) + 1 = ((2 : Nat) : Int)
        ∧ convolve2D R.paddedInput
            (readMatrixFromFile ⟨((3 : Nat) : Int), constGrid (1 / 9)⟩ (constGrid 0)).1
            (constGrid 7) R.paddedSize ((3 : Nat) : Int) ((1 : Nat) : Int) ((0 : Nat) : Int)
          = centredSum (constGrid (1 : ℝ)) 2 3 (constGrid (1 / 9)) ((1 : Nat) : Int)
              ((0 : Nat) : Int))
    ∧ centredSum (constGrid (1 : ℝ)) 2 3 (constGrid (1 / 9)) ((1 : Nat) : Int)
          ((0 : Nat) : Int) = 4 / 9 := by
  obtain ⟨R, hrun, hdim, hconv, _⟩ :=
    (main_same_size_convolution_within_capacity Real.exp 2 3 (by decide) (by decide)
      (constGrid 1) (constGrid (1 / 9)) (constGrid (1 / 9)) (constGrid (1 / 9))
      (constHeap 0) (constBuffers 7)).1 (by decide)
  exact ⟨by decide,
    ⟨R, hrun, hdim, hconv (constGrid (1 / 9)) (constGrid 0) (constGrid 7) 1 0 (by decide)
      (by decide)⟩,
    centredSum_example⟩

/-! ## C20: the kernel size read last is the one used -/

/-- With a first kernel file of size 301 a run of `main` of `serial.c` stores into
`kernel1[300][300]`, outside the `MAX_SIZE × MAX_SIZE` array: it has no result. -/
theorem serial_run_overrun_kernel {α : Type} [LinearOrderedField α] (exp : α → α)
    (G K1 K2 K3 : Grid α) (mem : Buffers α) :
    Serial.run exp ⟨5, G⟩ ⟨301, K1⟩ ⟨3, K2⟩ ⟨3, K3⟩ mem = none := by
  have hr : (⟨Mode.write, Var.kernel1, 300, 300⟩ : Access Var)
      ∈ readMatrixFromFileTrace Var.kernel1 301 := by
    unfold readMatrixFromFileTrace
    refine (mem_forTrace _ _ _).mpr ⟨300, by decide, by decide, ?_⟩
    refine (mem_forTrace _ _ _).mpr ⟨300, by decide, by decide, ?_⟩
    decide
  have hmem : (⟨Mode.write, Var.kernel1, 300, 300⟩ : Access Var)
      ∈ Serial.mainTrace 5 301 3 3 := by
    unfold Serial.mainTrace
    iterate 12 apply List.mem_append_left
    exact List.mem_append_right _ hr
  have hout : ¬ ((0 : Int) ≤ 300 ∧ (300 : Int) < Serial.MAX_SIZE
      ∧ (0 : Int) ≤ 300 ∧ (300 : Int) < Serial.MAX_SIZE) := by decide
  exact checked_none _ _ _ _ hmem hout

/-- C20 as stated fails: with an input of size 300 and three kernel files of size 3 the run
of `serial.c` stores outside `paddedInput` and has no defined result, hence no
`paddedSize` equal to `300 + 3 - 1`; with a first kernel file of size 301 (input of size 5,
`k2 = k3 = 3`) it stores outside `kernel1`; and the run of `serialDM.c` with input size 1 and
kernel sizes 1 loads outside `conv1`. -/
theorem main_last_kernel_size_counterexample :
    Serial.run Real.exp (constFile 300 1) (constFile 3 (1 / 9)) (constFile 3 (1 / 9))
        (constFile 3 (1 / 9)) (constBuffers 0) = none
    ∧ (¬ ∃ R : Result ℝ,
        Serial.run Real.exp (constFile 300 1) (constFile 3 (1 / 9)) (constFile 3 (1 / 9))
          (constFile 3 (1 / 9)) (constBuffers 0) = some R
        ∧ R.paddedSize = 300 + 3 - 1)
    ∧ Serial.run Real.exp (constFile 5 1) (constFile 301 (1 / 9)) (constFile 3 (1 / 9))
        (constFile 3 (1 / 9)) (constBuffers 0) = none
    ∧ SerialDM.run Real.exp (constFile 1 1) (constFile 1 (1 / 9)) (constFile 1 (1 / 9))
        (constFile 1 (1 / 9)) (constHeap 0) (constBuffers 0) = none := by
  have hnone : Serial.run Real.exp (constFile 300 1) (constFile 3 (1 / 9))
      (constFile 3 (1 / 9)) (constFile 3 (1 / 9)) (constBuffers 0) = none :=
    serial_run_overrun Real.exp _ _ _ _ _
  refine ⟨hnone, ?_, serial_run_overrun_kernel Real.exp _ _ _ _ _,
    serialDM_run_overrun_small Real.exp _ _ _ _ _ _⟩
  rintro ⟨R, hR, _⟩
  rw [hnone] at hR
  exact absurd hR (by simp)

/-- C20, amended. When the input file declares the size `n ≥ 1` and the three kernel files
declare the sizes `k1, k2, k3 ≥ 1`, within the capacity of the arrays (`k1, k2 ≤ 300` and
`n + 2 * (k3 / 2) ≤ 300` in `serial.c`; `n, k1, k2, k3 ≤ 5000` and
`n + (k3 / 2) * 2 ≥ 2` in `serialDM.c`, `/` being the division of C) the run of `main` stays
inside its arrays and uses `k3` as pad width source (`k3 / 2`), in `paddedSize`, and as
`kernelSize` of all three `convolve2D` calls, with no comparison of `k1`, `k2`, `k3`; and
replacing `k1`, `k2` by other sizes within the capacity changes neither `paddedSize`, nor
`outputSize`, nor the padded array. -/
theorem main_last_kernel_size_within_capacity {α : Type} [LinearOrderedField α]
    (exp : α → α) (n k1 k2 k3 : Int) (hn : 1 ≤ n) (h1 : 1 ≤ k1) (h2 : 1 ≤ k2) (h3 : 1 ≤ k3)
    (G K1 K2 K3 : Grid α) (heap : SerialDM.Heap α) (mem : Buffers α) :
    (k1 ≤ 300 → k2 ≤ 300 → n + 2 * k3.tdiv 2 ≤ 300 →
      ∃ R : Result α, Serial.run exp ⟨n, G⟩ ⟨k1, K1⟩ ⟨k2, K2⟩ ⟨k3, K3⟩ mem = some R
        ∧ R.paddedSize = n + k3 - 1
        ∧ R.outputSize = (n + k3 - 1 - 2).tdiv 2 + 1
        ∧ R.paddedInput
            = Serial.zeroPad (readMatrixFromFile ⟨n, G⟩ (fun _ _ => 0)).1 n (k3.tdiv 2)
                mem.paddedInput
        ∧ R.conv1 = applySigmoid exp
            (convolve2D R.paddedInput (readMatrixFromFile ⟨k1, K1⟩ (fun _ _ => 0)).1
              mem.conv1 (n + k3 - 1) k3) (n + k3 - 1)
        ∧ R.conv2 = applySigmoid exp
            (convolve2D R.paddedInput (readMatrixFromFile ⟨k2, K2⟩ (fun _ _ => 0)).1
              mem.conv2 (n + k3 - 1) k3) (n + k3 - 1)
        ∧ R.conv3 = applySigmoid exp
            (convolve2D R.paddedInput (readMatrixFromFile ⟨k3, K3⟩ (fun _ _ => 0)).1
              mem.conv3 (n + k3 - 1) k3) (n + k3 - 1)
        ∧ (∀ (j1 j2 : Int) (L1 L2 : Grid α), 1 ≤ j1 → j1 ≤ 300 → 1 ≤ j2 → j2 ≤ 300 →
            ∃ S : Result α,
              Serial.run exp ⟨n, G⟩ ⟨j1, L1⟩ ⟨j2, L2⟩ ⟨k3, K3⟩ mem = some S
              ∧ S.paddedSize = R.paddedSize ∧ S.outputSize = R.outputSize
              ∧ S.paddedInput = R.paddedInput))
    ∧ (n ≤ 5000 → k1 ≤ 5000 → k2 ≤ 5000 → k3 ≤ 5000 → 2 ≤ n + k3.tdiv 2 * 2 →
      ∃ R : Result α,
        SerialDM.run exp ⟨n, G⟩ ⟨k1, K1⟩ ⟨k2, K2⟩ ⟨k3, K3⟩ heap mem = some R
        ∧ R.paddedSize = n + k3.tdiv 2 * 2
        ∧ R.outputSize = (n + k3.tdiv 2 * 2 - 2).tdiv 2 + 1
        ∧ R.paddedInput
            = SerialDM.zeroPad (readMatrixFromFile ⟨n, G⟩ heap.input).1 n (k3.tdiv 2)
                mem.paddedInput (n + k3.tdiv 2 * 2)
        ∧ R.conv1 = applySigmoid exp
            (convolve2D R.paddedInput (readMatrixFromFile ⟨k1, K1⟩ heap.kernel1).1
              mem.conv1 (n + k3.tdiv 2 * 2) k3) (n + k3.tdiv 2 * 2)
        ∧ R.conv2 = applySigmoid exp
            (convolve2D R.paddedInput (readMatrixFromFile ⟨k2, K2⟩ heap.kernel2).1
              mem.conv2 (n + k3.tdiv 2 * 2) k3) (n + k3.tdiv 2 * 2)
        ∧ R.conv3 = applySigmoid exp
            (convolve2D R.paddedInput (readMatrixFromFile ⟨k3, K3⟩ heap.kernel3).1
              mem.conv3 (n + k3.tdiv 2 * 2) k3) (n + k3.tdiv 2 * 2)
        ∧ (∀ (j1 j2 : Int) (L1 L2 : Grid α), 1 ≤ j1 → j1 ≤ 5000 → 1 ≤ j2 → j2 ≤ 5000 →
            ∃ S : Result α,
              SerialDM.run exp ⟨n, G⟩ ⟨j1, L1⟩ ⟨j2, L2⟩ ⟨k3, K3⟩ heap mem = some S
              ∧ S.paddedSize = R.paddedSize ∧ S.outputSize = R.outputSize
              ∧ S.paddedInput = R.paddedInput)) := by
  have hpw : k3.tdiv 2 = k3 / 2 := Int.tdiv_eq_ediv (by omega) (by decide)
  constructor
  · intro hk1 hk2 hcap
    rw [hpw] at hcap
    refine ⟨_, serial_run_defined exp n k1 k2 k3 hn h3 hk1 hk2 hcap G K1 K2 K3 mem,
      rfl, rfl, rfl, rfl, rfl, rfl, ?_⟩
    intro j1 j2 L1 L2 _ hj1 _ hj2
    exact ⟨_, serial_run_defined exp n j1 j2 k3 hn h3 hj1 hj2 hcap G L1 L2 K3 mem,
      rfl, rfl, rfl⟩
  · intro hn2 hk1 hk2 hk3 hps
    rw [hpw] at hps
    refine ⟨_, serialDM_run_defined exp n k1 k2 k3 hn hn2 h3 hk3 hk1 hk2 hps G K1 K2 K3
      heap mem, rfl, rfl, rfl, rfl, rfl, rfl, ?_⟩
    intro j1 j2 L1 L2 _ hj1 _ hj2
    exact ⟨_, serialDM_run_defined exp n j1 j2 k3 hn hn2 h3 hk3 hj1 hj2 hps G L1 L2 K3
      heap mem, rfl, rfl, rfl⟩

/-- C20, amended, at input size 5 and kernel files of sizes 2, 4 and 3: the run of `serial.c`
has a result whose `paddedSize` is `5 + 3 - 1 = 7` (from the third size) and whose
`outputSize` is 3, and with kernel files of sizes 7, 1 and 3 the run has the same
`paddedSize`. -/
theorem main_last_kernel_size_within_capacity_witness :
    ((1 : Int) ≤ 5 ∧ (1 : Int) ≤ 2 ∧ (1 : Int) ≤ 4 ∧ (1 : Int) ≤ 3 ∧ (2 : Int) ≤ 300
      ∧ (4 : Int) ≤ 300 ∧ (5 : Int) + 2 * (3 : Int).tdiv 2 ≤ 300)
    ∧ (∃ R : Result ℝ,
        Serial.run Real.exp ⟨5, constGrid 1⟩ ⟨2, constGrid (1 / 9)⟩ ⟨4, constGrid (1 / 9)⟩
          ⟨3, constGrid (1 / 9)⟩ (constBuffers 7) = some R
        ∧ R.paddedSize = 7 ∧ R.outputSize = 3
        ∧ ∃ S : Result ℝ,
            Serial.run Real.exp ⟨5, constGrid 1⟩ ⟨7, constGrid 2⟩ ⟨1, constGrid 3⟩
              ⟨3, constGrid (1 / 9)⟩ (constBuffers 7) = some S
            ∧ S.paddedSize = R.paddedSize) := by
  obtain ⟨R, hrun, hps, hos, _, _, _, _, hind⟩ :=
    (main_last_kernel_size_within_capacity Real.exp 5 2 4 3 (by decide) (by decide)
      (by decide) (by decide) (constGrid 1) (constGrid (1 / 9)) (constGrid (1 / 9))
      (constGrid (1 / 9)) (constHeap 0) (constBuffers 7)).1 (by decide) (by decide)
      (by decide)
  obtain ⟨S, hS, hSps, _, _⟩ := hind 7 1 (constGrid 2) (constGrid 3) (by decide) (by decide)
    (by decide) (by decide)
  exact ⟨by decide, ⟨R, hrun, hps.trans (by decide), hos.trans (by decide), S, hS, hSps⟩⟩

/-! ## C10: dimension mismatches -/

/-- C10 as stated fails: `maxPooling` given a 2 × 2 window and a 1 × 1 input (stride 2)
signals no failure: the call on the `MAX_SIZE × MAX_SIZE` arrays of `serial.c` stays inside
the arrays, has a result, and does write an output cell, `output[0][0]`, with the maximum
`6` of `input[0..1][0..1]`, three cells of which lie outside the 1 × 1 input. -/
theorem dimension_mismatch_counterexample :
    (2 : Int) > 1
    ∧ checked (fun _ => Serial.MAX_SIZE) (maxPoolingTrace Var.conv1 Var.pooled1 1 2 2)
        (maxPooling pool4x4 (constGrid ⊥) 1 2 2)
      = some (maxPooling pool4x4 (constGrid ⊥) 1 2 2)
    ∧ (⟨Mode.write, Var.pooled1, 0, 0⟩ : Access Var)
        ∈ maxPoolingTrace Var.conv1 Var.pooled1 1 2 2
    ∧ maxPooling pool4x4 (constGrid ⊥) 1 2 2 0 0 = ((6 : Int) : WithBot Int)
    ∧ maxPooling pool4x4 (constGrid ⊥) 1 2 2 ≠ constGrid ⊥ := by
  refine ⟨by decide, checked_some _ _ _ (by decide), by decide, by decide, fun h => ?_⟩
  have h00 : maxPooling pool4x4 (constGrid ⊥) 1 2 2 0 0 = (⊥ : WithBot Int) := by
    rw [h]
    rfl
  revert h00
  decide

/-- C10, amended. `convolve2D` given `kernelSize > inputSize` signals no failure: the call
performs no array access at all, so it has a result on arrays of any size, and leaves the
output array as it was.  `maxPooling` given `poolSize > inputSize` and `stride ≥ 1` with
`poolSize - inputSize ≥ stride` likewise performs no array access, has a result on arrays
of any size, and leaves the output array as it was. -/
theorem dimension_mismatch_no_write {α : Type} [LinearOrderedField α] {A : Type}
    (input kernel output : Grid α) (pooled : Grid (WithBot α))
    (inputName kernelName outputName : A) (dim : A → Int)
    (inputSize kernelSize poolSize stride : Int) :
    (kernelSize > inputSize →
      convolve2DTrace inputName kernelName outputName inputSize kernelSize = []
      ∧ checked dim (convolve2DTrace inputName kernelName outputName inputSize kernelSize)
          (convolve2D input kernel output inputSize kernelSize) = some output)
    ∧ (poolSize > inputSize → stride ≥ 1 → poolSize - inputSize ≥ stride →
      maxPoolingTrace inputName outputName inputSize poolSize stride = []
      ∧ checked dim (maxPoolingTrace inputName outputName inputSize poolSize stride)
          (maxPooling input pooled inputSize poolSize stride) = some pooled) := by
  constructor
  · intro hk
    have htrace : convolve2DTrace inputName kernelName outputName inputSize kernelSize
        = [] := by
      unfold convolve2DTrace forTrace
      have e : (inputSize - kernelSize + 1).toNat = 0 := by omega
      rw [e]
      rfl
    have hval : convolve2D input kernel output inputSize kernelSize = output := by
      funext r c
      have hn : ¬ (0 ≤ r ∧ r < inputSize - kernelSize + 1 ∧ 0 ≤ c
          ∧ c < inputSize - kernelSize + 1) := by omega
      rw [convolve2D_cell, if_neg hn]
    refine ⟨htrace, ?_⟩
    rw [htrace, hval]
    rfl
  · intro _ hs hd
    have hle := pool_outputSize_nonpos inputSize poolSize stride hs hd
    have htrace : maxPoolingTrace inputName outputName inputSize poolSize stride = [] := by
      have e : ((inputSize - poolSize).tdiv stride + 1).toNat = 0 := by omega
      unfold maxPoolingTrace forTrace
      dsimp only
      rw [e]
      rfl
    have hval : maxPooling input pooled inputSize poolSize stride = pooled := by
      funext r c
      have hn : ¬ (0 ≤ r ∧ r < (inputSize - poolSize).tdiv stride + 1 ∧ 0 ≤ c
          ∧ c < (inputSize - poolSize).tdiv stride + 1) := by omega
      rw [maxPooling_cell, if_neg hn]
    refine ⟨htrace, ?_⟩
    rw [htrace, hval]
    rfl

/-- C10, amended, at a 2 × 2 input with a kernel of size 3 and with a pooling window of
size 5 and stride 2, on the arrays of `serial.c`. -/
theorem dimension_mismatch_no_write_witness :
    ((3 : Int) > 2 ∧ (5 : Int) > 2 ∧ (2 : Int) ≥ 1 ∧ (5 : Int) - 2 ≥ 2)
    ∧ (convolve2DTrace Var.paddedInput Var.kernel1 Var.conv1 2 3 = []
      ∧ checked (fun _ => Serial.MAX_SIZE)
          (convolve2DTrace Var.paddedInput Var.kernel1 Var.conv1 2 3)
          (convolve2D grid2x2 (constGrid 1) (constGrid 7) 2 3) = some (constGrid 7))
    ∧ (maxPoolingTrace Var.paddedInput Var.conv1 2 5 2 = []
      ∧ checked (fun _ => Serial.MAX_SIZE) (maxPoolingTrace Var.paddedInput Var.conv1 2 5 2)
          (maxPooling grid2x2 (constGrid ⊥) 2 5 2) = some (constGrid ⊥)) :=
  ⟨by decide,
   (dimension_mismatch_no_write grid2x2 (constGrid 1) (constGrid 7) (constGrid ⊥)
      Var.paddedInput Var.kernel1 Var.conv1 (fun _ => Serial.MAX_SIZE) 2 3 5 2).1 (by decide),
   (dimension_mismatch_no_write grid2x2 (constGrid 1) (constGrid 7) (constGrid ⊥)
      Var.paddedInput Var.kernel1 Var.conv1 (fun _ => Serial.MAX_SIZE) 2 3 5 2).2 (by decide)
      (by decide) (by decide)⟩

end ConvPool
